import Mathlib

/-!
# gcal-to-ics: a shallow embedding of the credential encryption and the feed compiler

The development follows the Go sources `cmd/serve/auth.go` (functions `crypt`
and `decrypt`), `pkg/gti/gti.go` (functions `findCalendarID`, `toText`,
`writeHeader`, `writeTrailer`, `writeEvent`, `writeEventTime`,
`writeAllDayEventTime`, `writeEvents`, `Export`) and `cmd/serve/serve.go` (the handler of `GET /auth` and the parking
of a request in the feed handler).

Conventions of the embedding:

* a Go `string` or `[]byte` holding text is a `List Char` (`Str`); a binary
  `[]byte` is a `List (Fin 256)`; the nil slice and the empty slice are both `[]`;
* a Go run-time panic is the value `none` of an `Option` result in part 1 and
  the value `Result.panicked` in part 2;
* functions of imported packages (SHA-256, NaCl secretbox, `strings.ToUpper`,
  `strings.EqualFold`, `time.Parse`, `time.Format`, the Calendar API client)
  are parameters of the definitions, so every theorem holds for whatever these
  functions compute;
* an `io.Writer` is a state recording the sequence of `Write` calls it has
  accepted, with an oracle telling which calls fail;
* the `sync.Map` of pending authorizations is a function from state tokens to
  entries, and a handler is a function of the map, the request and the instant
  the clock shows; handlers that run concurrently touch the map only in the
  atomic step `LoadAndDelete`, so a concurrent run is the sequence of the
  handlers in the order of these steps;
* the unbounded `for` loops over the pages of a listing run on fuel, and the
  theorems show that they return once the fuel covers the number of pages.

The definitions come first (the embedding of the program, a concrete instance
of the imported functions for evaluation, and the notions the properties speak
about), the theorems after them.
-/

namespace GcalToIcs

/-! ## Part 1: `cmd/serve/auth.go` -/

namespace Serve

/-- One byte. -/
abbrev Byte := Fin 256

/-- A Go byte slice (nil and empty are both the empty list). -/
abbrev Bytes := List Byte

/-- Source: `const nonceSize = 24`. -/
def nonceSize : Nat := 24

/-- The imported cryptographic functions `crypt` and `decrypt` call.
`sum256 key` is `sha256.Sum256([]byte(key))`; `box m n k` is the sealed box
that `secretbox.Seal` appends to its `out` argument for message `m`, nonce `n`
and key `k`; `unbox b n k` is what `secretbox.Open` recovers from the box `b`
(`none` when authentication fails). -/
structure Primitives where
  sum256 : String → Bytes
  box : Bytes → Bytes → Bytes → Bytes
  unbox : Bytes → Bytes → Bytes → Option Bytes

/-- The library call `secretbox.Seal(out, message, nonce, key)`: it appends the sealed box to `out`. -/
def secretboxSeal (P : Primitives) (out message nonce key : Bytes) : Bytes :=
  out ++ P.box message nonce key

/-- The library call `secretbox.Open(out, box, nonce, key)`: on success the
plaintext appended to `out` and `true`, on failure `nil, false`. -/
def secretboxOpen (P : Primitives) (out box nonce key : Bytes) : Bytes × Bool :=
  match P.unbox box nonce key with
  | some m => (out ++ m, true)
  | none => ([], false)

/-- The Go slice expression `s[:n]`, which panics when `n` exceeds the length. -/
def sliceTo (s : Bytes) (n : Nat) : Option Bytes :=
  if n ≤ s.length then some (s.take n) else none

/-- The Go slice expression `s[n:]`, which panics when `n` exceeds the length. -/
def sliceFrom (s : Bytes) (n : Nat) : Option Bytes :=
  if n ≤ s.length then some (s.drop n) else none

/-- The call `io.ReadFull(rand.Reader, nonce[:])` on a reader that can still
deliver the bytes `rand`: the first `nonceSize` bytes, or an error (`none`)
when fewer are available. -/
def readFull (rand : Bytes) : Option Bytes :=
  if nonceSize ≤ rand.length then some (rand.take nonceSize) else none

/-- Source: `crypt` (auth.go 98-107). `rand` is what the random reader
delivers; `none` is the `panic(err)` of a failed read. -/
def crypt (P : Primitives) (key : String) (input : Bytes) (rand : Bytes) : Option Bytes :=
  let k := P.sum256 key
  match readFull rand with
  | none => none
  | some nonce => some (secretboxSeal P nonce input nonce k)

/-- Source: `decrypt` (auth.go 109-118). The result `none` would be an
index-out-of-range panic of one of the slice expressions. -/
def decrypt (P : Primitives) (key : String) (input : Bytes) : Option (Bytes × Bool) :=
  if input.length < nonceSize then
    some ([], false)
  else
    let k := P.sum256 key
    match sliceTo input nonceSize, sliceFrom input nonceSize with
    | some nonce, some box => some (secretboxOpen P [] box nonce k)
    | _, _ => none

/-- Digest of the demonstration instance: the code points of the key, reduced to bytes. -/
def demoSum (key : String) : Bytes :=
  key.toList.map (fun c => Fin.ofNat c.toNat)

/-- Authentication tag of the demonstration instance: key followed by nonce. -/
def demoTag (nonce key : Bytes) : Bytes := key ++ nonce

/-- A small concrete instance of `Primitives` on which the definitions can be
evaluated: the box is the tag followed by the message in clear, and opening
checks the tag. It stands in for the imported packages in the evaluations
below and has no cryptographic strength. -/
def demoPrimitives : Primitives where
  sum256 := demoSum
  box := fun m n k => demoTag n k ++ m
  unbox := fun b n k =>
    if (demoTag n k).isPrefixOf b then some (b.drop (demoTag n k).length) else none

/-- Twenty-four zero bytes, a possible delivery of the random reader. -/
def zeroRand : Bytes := List.replicate 24 0

end Serve

/-! ## Part 2: `pkg/gti/gti.go` -/

namespace Gti

/-- A Go string. -/
abbrev Str := List Char

/-- An instant as Go's `time.Time` holds it: seconds since January 1, year 1,
00:00:00 UTC, and nanoseconds within the second. -/
structure Time where
  sec : Int
  nsec : Nat
deriving DecidableEq, Repr

/-- The zero value `time.Time{}`. -/
def Time.zero : Time := ⟨0, 0⟩

/-- The method `Time.IsZero`: the instant January 1, year 1, 00:00:00 UTC. -/
def Time.IsZero (t : Time) : Bool := t.sec == 0 && t.nsec == 0

/-- The imported functions the feed compiler calls: `strings.ToUpper`,
`strings.EqualFold`, `time.Parse(layout, value)` (`none` for an error) and
`t.UTC().Format(layout)`. -/
structure Lib where
  ToUpper : Str → Str
  EqualFold : Str → Str → Bool
  Parse : Str → Str → Option Time
  FormatUTC : Time → Str → Str

/-- The layout `time.RFC3339`. -/
def RFC3339 : Str := "2006-01-02T15:04:05Z07:00".toList

/-- Source: `const icalTimestampFormatUtc`. -/
def icalTimestampFormatUtc : Str := "20060102T150405Z".toList

/-- Source: `const icalDateFormatUtc`. -/
def icalDateFormatUtc : Str := "20060102".toList

/-- Source: `const googleDateFormat`. -/
def googleDateFormat : Str := "2006-01-02".toList

/-- Source: `type HideFields`. -/
structure HideFields where
  UID : Bool
  Organizer : Bool
  Attendees : Bool
  Visibility : Bool
  Description : Bool
  Location : Bool
  Conference : Bool
  Transparency : Bool
  Status : Bool
deriving DecidableEq, Repr

/-- Source: `type OverwriteFields`. -/
structure OverwriteFields where
  CalendarName : Str
  Organizer : Str
  Visibility : Str
  Description : Str
  Location : Str
  Conference : Str
  Transparency : Str
  Status : Str
deriving DecidableEq, Repr

/-- Source: `type Config`, without the logger, the HTTP client and the writer
(the writer is passed as a separate state) and without the time window, which
only parameterises the listing request. -/
structure Config where
  Format : Str
  AccountEmail : Str
  CalendarName : Str
  Version : Str
  HideFields : HideFields
  OverwriteFields : OverwriteFields
deriving DecidableEq, Repr

/-- API type `calendar.EventDateTime`. -/
structure EventDateTime where
  Date : Str
  DateTime : Str
deriving DecidableEq, Repr

/-- API type `calendar.EntryPoint`. -/
structure EntryPoint where
  Uri : Str
deriving DecidableEq, Repr

/-- API type `calendar.ConferenceData`. The entry points, which the source
dereferences without a nil test, are taken to be non-nil. -/
structure ConferenceData where
  EntryPoints : List EntryPoint
deriving DecidableEq, Repr

/-- API type `calendar.EventOrganizer`. -/
structure EventOrganizer where
  DisplayName : Str
  Email : Str
deriving DecidableEq, Repr

/-- API type `calendar.EventAttendee`. -/
structure EventAttendee where
  DisplayName : Str
  Email : Str
  Optional : Bool
  ResponseStatus : Str
deriving DecidableEq, Repr

/-- API type `calendar.Event`, with the fields the compiler reads. Pointer
fields that the source tests against nil are options. -/
structure Event where
  Id : Str
  ICalUID : Str
  Summary : Str
  Description : Str
  Location : Str
  Transparency : Str
  Visibility : Str
  Status : Str
  Created : Str
  Updated : Str
  Start : Option EventDateTime
  End : Option EventDateTime
  ConferenceData : Option ConferenceData
  Organizer : Option EventOrganizer
  Attendees : List (Option EventAttendee)
deriving DecidableEq, Repr

/-- API type `calendar.CalendarListEntry`. -/
structure CalendarListEntry where
  Id : Str
  Summary : Str
  Deleted : Bool
deriving DecidableEq, Repr

/-- API type `calendar.CalendarList` (one page). -/
structure CalendarList where
  Items : List CalendarListEntry
  NextPageToken : Str
deriving DecidableEq, Repr

/-- API type `calendar.Calendar`. -/
structure Calendar where
  Summary : Str
  TimeZone : Str
deriving DecidableEq, Repr

/-- API type `calendar.Events` (one page). -/
structure Events where
  Items : List Event
  NextPageToken : Str
deriving DecidableEq, Repr

/-- The Calendar API client as the compiler uses it. Each field is the result
`(value, err)` of the `Do()` call: `calendarList tok` lists calendars with page
token `tok` (`[]` when the source sets none), `calendarsGet id` fetches the
metadata, `eventsList id tok` lists one page of events. `Except.ok none` is a
nil list without an error. The items of a page, which the source dereferences
without a nil test, are taken to be non-nil. -/
structure Service where
  calendarList : Str → Except Str (Option CalendarList)
  calendarsGet : Str → Except Str Calendar
  eventsList : Str → Str → Except Str (Option Events)

/-- An `io.Writer`: the strings of the `Write` calls accepted so far, the
number of calls made, and for each call number the error it returns (`none`
when the call succeeds). A failing call accepts nothing. -/
structure Writer where
  written : List Str
  calls : Nat
  failure : Nat → Option Str

/-- One `fmt.Fprint`/`fmt.Fprintf` call: a single `Write` of the formatted
string, returning the writer and the call's error. -/
def Writer.write (w : Writer) (s : Str) : Writer × Option Str :=
  match w.failure w.calls with
  | none => ({ w with written := w.written ++ [s], calls := w.calls + 1 }, none)
  | some e => ({ w with calls := w.calls + 1 }, some e)

/-- The bytes the writer has received. -/
def Writer.text (w : Writer) : Str := w.written.flatten

/-- A writer that has received nothing and never fails. -/
def Writer.fresh : Writer := ⟨[], 0, fun _ => none⟩

/-- A sequence of `fmt.Fprintf(config.Writer, ...)` statements whose error
result the source discards: each string is written in order and the outcome of
the call is ignored. -/
def printAll (w : Writer) (chunks : List Str) : Writer :=
  chunks.foldl (fun w s => (w.write s).1) w

/-- How a modelled Go function ends: it returns (with the writer state and its
`error` result, `none` for nil), it panics, or the loop bound of the model is
exhausted before it returns. -/
inductive Result where
  | returned (w : Writer) (err : Option Str)
  | panicked
  | unfinished

/-- The message of `errors.Wrap(err, msg)`. -/
def wrap (err msg : Str) : Str := msg ++ ": ".toList ++ err

/-- Source: `textEscaper` (gti.go 130-135), the replacement of one character.
All four patterns are single ASCII bytes, so the replacer works character by
character in a single pass. -/
def escapeChar (c : Char) : Str :=
  if c = '\\' then ['\\', '\\']
  else if c = '\n' then ['\\', 'n']
  else if c = ';' then ['\\', ';']
  else if c = ',' then ['\\', ',']
  else [c]

/-- Source: `toText` (gti.go 137-141). -/
def toText (s : Str) : Str := s.flatMap escapeChar

/-- Source: the inner loop of `findCalendarID` over `list.Items` (gti.go 107-114). -/
def scanItems (calendarName : Str) : List CalendarListEntry → Option Str
  | [] => none
  | item :: rest =>
    if item.Deleted then scanItems calendarName rest
    else if item.Summary = calendarName then some item.Id
    else scanItems calendarName rest

/-- Source: the `for` loop of `findCalendarID` (gti.go 87-120), started with
`nextPageToken`; `fuel` bounds the number of iterations, and `none` means the
bound was reached before the loop ended. -/
def findCalendarIDLoop (service : Service) (calendarName : Str) :
    Nat → Str → Option (Except Str Str)
  | 0, _ => none
  | fuel + 1, nextPageToken =>
    match service.calendarList nextPageToken with
    | .error err => some (.error (wrap err "unable to list calendars".toList))
    | .ok none => some (.error "list is nil".toList)
    | .ok (some list) =>
      match scanItems calendarName list.Items with
      | some id => some (.ok id)
      | none =>
        if list.NextPageToken = [] then some (.ok [])
        else findCalendarIDLoop service calendarName fuel list.NextPageToken

/-- Source: `findCalendarID` (gti.go 85-122). -/
def findCalendarID (fuel : Nat) (service : Service) (calendarName : Str) :
    Option (Except Str Str) :=
  findCalendarIDLoop service calendarName fuel []

/-- Source: `writeHeader` (gti.go 143-165): the lines of the loop. -/
def headerLines (config : Config) (cal : Calendar) : List Str :=
  [ "BEGIN:VCALENDAR".toList,
    "VERSION:2.0".toList,
    "PRODID:-//gcal-to-ics//gcal-to-ics-".toList ++ config.Version ++ "//EN".toList,
    "CALSCALE:GREGORIAN".toList,
    "METHOD:PUBLISH".toList,
    "X-WR-TIMEZONE:".toList ++ cal.TimeZone ]

/-- A loop `for _, s := range lines` writing `s` and a newline with
`fmt.Fprint` and returning at the first error (gti.go 145-156, 169-175). -/
def writeLines : List Str → Writer → Writer × Option Str
  | [], w => (w, none)
  | s :: rest, w =>
    match w.write (s ++ "\n".toList) with
    | (w1, some err) => (w1, some err)
    | (w1, none) => writeLines rest w1

/-- Source: `writeHeader` (gti.go 143-165). -/
def writeHeader (config : Config) (cal : Calendar) (w : Writer) : Writer × Option Str :=
  match writeLines (headerLines config cal) w with
  | (w1, some err) => (w1, some err)
  | (w1, none) =>
    if config.OverwriteFields.CalendarName ≠ [] then
      match w1.write ("X-WR-CALNAME:".toList ++ cal.Summary ++ "\n".toList) with
      | (w2, some err) => (w2, some err)
      | (w2, none) => (w2, none)
    else (w1, none)

/-- Source: `writeTrailer` (gti.go 167-177). -/
def writeTrailer (w : Writer) : Writer × Option Str :=
  writeLines ["END:VCALENDAR".toList] w

/-- Source: the idiom `t, err := time.Parse(layout, value); if err != nil { t = time.Time{} }`
of `writeEventTime` and `writeAllDayEventTime`. -/
def parseOrZero (L : Lib) (layout value : Str) : Time :=
  match L.Parse layout value with
  | some t => t
  | none => Time.zero

/-- Source: `writeAllDayEventTime` (gti.go 354-376). -/
def writeAllDayEventTime (L : Lib) (ev : Event) (w : Writer) : Result :=
  match ev.Start, ev.End with
  | some start, some stop =>
    let startTime := parseOrZero L googleDateFormat start.Date
    let endTime := parseOrZero L googleDateFormat stop.Date
    if startTime.IsZero || endTime.IsZero then .returned w none
    else
      match w.write ("DTSTART;VALUE=DATE:".toList ++ L.FormatUTC startTime icalDateFormatUtc
          ++ "\n".toList) with
      | (w1, some err) => .returned w1 (some err)
      | (w1, none) =>
        match w1.write ("DTEND;VALUE=DATE:".toList ++ L.FormatUTC endTime icalDateFormatUtc
            ++ "\n".toList) with
        | (w2, some err) => .returned w2 (some err)
        | (w2, none) => .returned w2 none
  | _, _ => .panicked

/-- Source: `writeEventTime` (gti.go 327-352). Dereferencing a nil `ev.Start`
or `ev.End` panics. -/
def writeEventTime (L : Lib) (ev : Event) (w : Writer) : Result :=
  match ev.Start, ev.End with
  | some start, some stop =>
    if start.Date ≠ [] ∧ stop.Date ≠ [] then
      writeAllDayEventTime L ev w
    else
      let startTime := parseOrZero L RFC3339 start.DateTime
      let endTime := parseOrZero L RFC3339 stop.DateTime
      if !startTime.IsZero && !endTime.IsZero then
        match w.write ("DTSTART:".toList ++ L.FormatUTC startTime icalTimestampFormatUtc
            ++ "\n".toList) with
        | (w1, some err) => .returned w1 (some err)
        | (w1, none) =>
          match w1.write ("DTEND:".toList ++ L.FormatUTC endTime icalTimestampFormatUtc
              ++ "\n".toList) with
          | (w2, some err) => .returned w2 (some err)
          | (w2, none) => .returned w2 none
      else .returned w none
  | _, _ => .panicked

/-!
### The blocks of `writeEvent`

Apart from the call of `writeEventTime`, `writeEvent` discards the result of
every `fmt.Fprintf`, so the writer cannot influence its control flow. Each
block of the function is embedded as the event after the block's assignments
together with the strings the block prints, in order; `printAll` performs the
calls.
-/

/-- Source: `writeEvent`, the UID block (gti.go 182-184). -/
def uidBlock (config : Config) (ev : Event) : List Str :=
  if !config.HideFields.UID then ["UID:".toList ++ ev.ICalUID ++ "\n".toList] else []

/-- Source: `writeEvent`, the summary line (gti.go 190). -/
def summaryBlock (ev : Event) : List Str :=
  ["SUMMARY:".toList ++ toText ev.Summary ++ "\n".toList]

/-- Source: `writeEvent`, the description block (gti.go 191-198). -/
def descriptionBlock (config : Config) (ev : Event) : Event × List Str :=
  if !config.HideFields.Description then
    let ev1 := if config.OverwriteFields.Description ≠ []
      then { ev with Description := config.OverwriteFields.Description } else ev
    (ev1, if ev1.Description ≠ []
      then ["DESCRIPTION:".toList ++ toText ev1.Description ++ "\n".toList] else [])
  else (ev, [])

/-- Source: `writeEvent`, the transparency block (gti.go 200-209). -/
def transparencyBlock (L : Lib) (config : Config) (ev : Event) : Event × List Str :=
  if !config.HideFields.Transparency then
    let ev1 := if config.OverwriteFields.Transparency ≠ []
      then { ev with Transparency := config.OverwriteFields.Transparency } else ev
    (ev1, if L.EqualFold ev1.Transparency "TRANSPARENT".toList
      then ["TRANSP:TRANSPARENT\n".toList] else ["TRANSP:OPAQUE\n".toList])
  else (ev, [])

/-- Source: `writeEvent`, the location block (gti.go 211-218). -/
def locationBlock (config : Config) (ev : Event) : Event × List Str :=
  if !config.HideFields.Location then
    let ev1 := if config.OverwriteFields.Location ≠ []
      then { ev with Location := config.OverwriteFields.Location } else ev
    (ev1, if ev1.Location ≠ []
      then ["LOCATION:".toList ++ toText ev1.Location ++ "\n".toList] else [])
  else (ev, [])

/-- Source: `writeEvent`, the `switch strings.ToUpper(ev.Visibility)` (gti.go 224-229). -/
def classLines (L : Lib) (visibility : Str) : List Str :=
  if L.ToUpper visibility = "PUBLIC".toList then
    ["CLASS:".toList ++ toText "PUBLIC".toList ++ "\n".toList]
  else if L.ToUpper visibility = "PRIVATE".toList then
    ["CLASS:".toList ++ toText "PRIVATE".toList ++ "\n".toList]
  else []

/-- Source: `writeEvent`, the visibility block (gti.go 220-230). -/
def visibilityBlock (L : Lib) (config : Config) (ev : Event) : Event × List Str :=
  if !config.HideFields.Visibility then
    let ev1 := if config.OverwriteFields.Visibility ≠ []
      then { ev with Visibility := config.OverwriteFields.Visibility } else ev
    (ev1, classLines L ev1.Visibility)
  else (ev, [])

/-- Source: `writeEvent`, the loop over the conference entry points, which
prints the first non-empty URI and breaks (gti.go 236-242). -/
def firstEntryPoint : List EntryPoint → List Str
  | [] => []
  | point :: rest =>
    if point.Uri = [] then firstEntryPoint rest
    else ["X-GOOGLE-CONFERENCE:".toList ++ toText point.Uri ++ "\n".toList]

/-- Source: `writeEvent`, the conference block (gti.go 232-244). -/
def conferenceBlock (config : Config) (ev : Event) : List Str :=
  if !config.HideFields.Conference then
    if config.OverwriteFields.Conference ≠ [] then
      ["X-GOOGLE-CONFERENCE:".toList ++ toText config.OverwriteFields.Conference ++ "\n".toList]
    else
      match ev.ConferenceData with
      | some data => if data.EntryPoints.length > 0 then firstEntryPoint data.EntryPoints else []
      | none => []
  else []

/-- Source: `writeEvent`, the organizer block (gti.go 246-256). -/
def organizerBlock (config : Config) (ev : Event) : List Str :=
  if !config.HideFields.Organizer then
    if config.OverwriteFields.Organizer ≠ [] then
      ["ORGANIZER:".toList ++ toText config.OverwriteFields.Organizer ++ "\n".toList]
    else
      match ev.Organizer with
      | some organizer =>
        if organizer.Email ≠ [] then
          let displayName := if organizer.DisplayName = [] then organizer.Email
            else organizer.DisplayName
          ["ORGANIZER:CN=".toList ++ displayName ++ ":mailto:".toList ++ organizer.Email
            ++ "\n".toList]
        else []
      | none => []
  else []

/-- Source: `writeEvent`, the `switch attendee.ResponseStatus` (gti.go 268-278). -/
def partStatOf (responseStatus : Str) : Str :=
  if responseStatus = "needsAction".toList then "NEEDS-ACTION".toList
  else if responseStatus = "declined".toList then "DECLINED".toList
  else if responseStatus = "tentative".toList then "TENTATIVE".toList
  else if responseStatus = "accepted".toList then "ACCEPTED".toList
  else []

/-- Source: `writeEvent`, the string one attendee is printed as (gti.go 264-295);
the format has no trailing newline. -/
def attendeeLine (attendee : EventAttendee) : Str :=
  let role := if attendee.Optional then "OPT-PARTICIPANT".toList else "REQ-PARTICIPANT".toList
  let partStat := partStatOf attendee.ResponseStatus
  let displayName := if attendee.DisplayName = [] then attendee.Email else attendee.DisplayName
  "ATTENDEE;ROLE=".toList ++ role ++ ";PARTSTAT=".toList ++ partStat ++ ";CN=".toList
    ++ displayName ++ ":mailto:".toList ++ attendee.Email

/-- Source: `writeEvent`, the loop over `ev.Attendees` (gti.go 259-296). -/
def attendeesLoop (L : Lib) (config : Config) : List (Option EventAttendee) → Event →
    Event × List Str
  | [], ev => (ev, [])
  | none :: rest, ev => attendeesLoop L config rest ev
  | some attendee :: rest, ev =>
    if attendee.Email = [] then attendeesLoop L config rest ev
    else
      let ev1 := if L.EqualFold attendee.Email config.AccountEmail
        then { ev with Status := attendee.ResponseStatus } else ev
      let r := attendeesLoop L config rest ev1
      (r.1, attendeeLine attendee :: r.2)

/-- Source: `writeEvent`, the attendees block (gti.go 258-297). -/
def attendeesBlock (L : Lib) (config : Config) (ev : Event) : Event × List Str :=
  if !config.HideFields.Attendees then attendeesLoop L config ev.Attendees ev else (ev, [])

/-- Source: `writeEvent`, the `switch strings.ToUpper(ev.Status)` (gti.go 304-311). -/
def statusLines (L : Lib) (status : Str) : List Str :=
  if L.ToUpper status = "TENTATIVE".toList then ["STATUS:TENTATIVE\n".toList]
  else if L.ToUpper status = "CANCELLED".toList then ["STATUS:CANCELLED\n".toList]
  else if L.ToUpper status = "CONFIRMED".toList then ["STATUS:CONFIRMED\n".toList]
  else []

/-- Source: `writeEvent`, the status block (gti.go 299-312). -/
def statusBlock (L : Lib) (config : Config) (ev : Event) : Event × List Str :=
  if !config.HideFields.Status then
    let ev1 := if config.OverwriteFields.Status ≠ []
      then { ev with Status := config.OverwriteFields.Status } else ev
    (ev1, statusLines L ev1.Status)
  else (ev, [])

/-- Source: `writeEvent`, the created and updated timestamps (gti.go 314-322). -/
def timestampsBlock (L : Lib) (ev : Event) : List Str :=
  (match L.Parse RFC3339 ev.Created with
    | some created =>
      [ "DTSTAMP:".toList ++ L.FormatUTC created icalTimestampFormatUtc ++ "\n".toList,
        "CREATED:".toList ++ L.FormatUTC created icalTimestampFormatUtc ++ "\n".toList ]
    | none => [])
  ++
  (match L.Parse RFC3339 ev.Updated with
    | some updated =>
      ["LAST-MODIFIED:".toList ++ L.FormatUTC updated icalTimestampFormatUtc ++ "\n".toList]
    | none => [])

/-- Source: `writeEvent` from the summary line to `END:VEVENT` (gti.go 190-323):
the strings printed after `writeEventTime` has returned nil. -/
def eventBody (L : Lib) (config : Config) (ev : Event) : List Str :=
  let d := descriptionBlock config ev
  let t := transparencyBlock L config d.1
  let l := locationBlock config t.1
  let v := visibilityBlock L config l.1
  let a := attendeesBlock L config v.1
  let s := statusBlock L config a.1
  summaryBlock ev ++ d.2 ++ t.2 ++ l.2 ++ v.2 ++ conferenceBlock config v.1
    ++ organizerBlock config v.1 ++ a.2 ++ s.2 ++ timestampsBlock L s.1
    ++ ["END:VEVENT\n".toList]

/-- Source: `writeEvent` (gti.go 179-325). -/
def writeEvent (L : Lib) (config : Config) (ev : Event) (w : Writer) : Result :=
  let w1 := printAll w (["BEGIN:VEVENT\n".toList] ++ uidBlock config ev)
  match writeEventTime L ev w1 with
  | .returned w2 (some err) => .returned w2 (some err)
  | .returned w2 none => .returned (printAll w2 (eventBody L config ev)) none
  | .panicked => .panicked
  | .unfinished => .unfinished

/-- Source: `writeEvents`, the loop over `list.Items` (gti.go 422-429). -/
def writeItems (L : Lib) (config : Config) : List Event → Writer → Result
  | [], w => .returned w none
  | ev :: rest, w =>
    if ev.Id = [] ∨ ev.Summary = [] ∨ ev.Start = none ∨ ev.End = none then
      writeItems L config rest w
    else
      match writeEvent L config ev w with
      | .returned w1 (some err) => .returned w1 (some (wrap err "unable to write event".toList))
      | .returned w1 none => writeItems L config rest w1
      | .panicked => .panicked
      | .unfinished => .unfinished

/-- Source: `writeEvents`, the paging loop (gti.go 391-436), started with
`nextPageToken`; `fuel` bounds the number of iterations. -/
def eventsLoop (L : Lib) (service : Service) (calendarID : Str) (config : Config) :
    Nat → Str → Writer → Result
  | 0, _, _ => .unfinished
  | fuel + 1, nextPageToken, w =>
    match service.eventsList calendarID nextPageToken with
    | .error err => .returned w (some (wrap err "unable to list events".toList))
    | .ok none => .returned w (some "list is nil".toList)
    | .ok (some list) =>
      match writeItems L config list.Items w with
      | .returned w1 (some err) => .returned w1 (some err)
      | .returned w1 none =>
        if list.NextPageToken = [] then .returned w1 none
        else eventsLoop L service calendarID config fuel list.NextPageToken w1
      | .panicked => .panicked
      | .unfinished => .unfinished

/-- Source: `writeEvents` (gti.go 378-446). -/
def writeEvents (L : Lib) (fuel : Nat) (service : Service) (calendarID : Str) (config : Config)
    (w : Writer) : Result :=
  match service.calendarsGet calendarID with
  | .error err =>
    .returned w (some (wrap err
      ("unable to get details for calendar `".toList ++ calendarID ++ "'".toList)))
  | .ok cal =>
    match writeHeader config cal w with
    | (w1, some err) => .returned w1 (some (wrap err "unable to write header".toList))
    | (w1, none) =>
      match eventsLoop L service calendarID config fuel [] w1 with
      | .returned w2 (some err) => .returned w2 (some err)
      | .returned w2 none =>
        match writeTrailer w2 with
        | (w3, some err) => .returned w3 (some (wrap err "unable to write trailer".toList))
        | (w3, none) => .returned w3 none
      | .panicked => .panicked
      | .unfinished => .unfinished

/-- Source: `Export` (gti.go 54-83). `config` is `none` for a nil pointer and
`newService` is the result of `calendar.NewService`; `fuel` bounds each of the
two paging loops. -/
def Export (L : Lib) (fuel : Nat) (config : Option Config) (newService : Except Str Service)
    (w : Writer) : Result :=
  match config with
  | none => .returned w (some "config cannot be nil".toList)
  | some config =>
    if config.Format ≠ "ics".toList then
      .returned w (some ("format `".toList ++ config.Format ++ "' is not supported".toList))
    else
      match newService with
      | .error err => .returned w (some (wrap err "unable to create calendar service".toList))
      | .ok service =>
        match findCalendarID fuel service config.CalendarName with
        | none => .unfinished
        | some (.error err) =>
          .returned w (some (wrap err
            ("unable to find calendar id for `".toList ++ config.CalendarName ++ "'".toList)))
        | some (.ok calendarID) =>
          if calendarID = [] then
            .returned w (some ("no such calendar `".toList ++ config.CalendarName ++ "'".toList))
          else writeEvents L fuel service calendarID config w

/-!
### A concrete instance of the imported functions

`demoLib` lets the definitions be evaluated on inputs. It agrees with the Go
library on ASCII text, on dates `YYYY-MM-DD` and on RFC 3339 timestamps of the
form `YYYY-MM-DDTHH:MM:SSZ`, for the years 1 to 9999; every other timestamp is
rejected by it.
-/

/-- Value of a decimal digit. -/
def digitVal (c : Char) : Option Nat :=
  if '0' ≤ c ∧ c ≤ '9' then some (c.toNat - 48) else none

/-- Value of a list of decimal digits. -/
def digitsVal : List Char → Option Nat
  | [] => some 0
  | c :: cs =>
    match digitVal c, digitsVal cs with
    | some d, some r => some (d * 10 ^ cs.length + r)
    | _, _ => none

/-- Leap years of the Gregorian calendar. -/
def isLeap (y : Nat) : Bool := y % 4 == 0 && (y % 100 != 0 || y % 400 == 0)

/-- Number of days of month `m` in year `y`. -/
def daysIn (y m : Nat) : Nat :=
  if m = 2 then (if isLeap y then 29 else 28)
  else if m = 4 ∨ m = 6 ∨ m = 9 ∨ m = 11 then 30
  else 31

/-- Days from January 1, year 1 to the given date (year at least 1). -/
def daysFromCivil (y m d : Nat) : Nat :=
  let y1 := if m ≤ 2 then y - 1 else y
  let era := y1 / 400
  let yoe := y1 % 400
  let mp := if m > 2 then m - 3 else m + 9
  let doy := (153 * mp + 2) / 5 + d - 1
  let doe := yoe * 365 + yoe / 4 - yoe / 100 + doy
  era * 146097 + doe - 306

/-- The date (year, month, day) that lies the given number of days after January 1, year 1. -/
def civilFromDays (days : Nat) : Nat × Nat × Nat :=
  let z := days + 306
  let era := z / 146097
  let doe := z % 146097
  let yoe := (doe - doe / 1460 + doe / 36524 - doe / 146096) / 365
  let doy := doe - (365 * yoe + yoe / 4 - yoe / 100)
  let mp := (5 * doy + 2) / 153
  let d := doy - (153 * mp + 2) / 5 + 1
  let m := if mp < 10 then mp + 3 else mp - 9
  let y := yoe + era * 400 + (if m ≤ 2 then 1 else 0)
  (y, m, d)

/-- The instant of a calendar date and time of day, when they are in range. -/
def mkTime (y m d hh mm ss : Nat) : Option Time :=
  if 1 ≤ y ∧ 1 ≤ m ∧ m ≤ 12 ∧ 1 ≤ d ∧ d ≤ daysIn y m ∧ hh < 24 ∧ mm < 60 ∧ ss < 60 then
    some ⟨((daysFromCivil y m d * 86400 + hh * 3600 + mm * 60 + ss : Nat) : Int), 0⟩
  else none

/-- Parsing `YYYY-MM-DD`. -/
def demoParseDate : Str → Option Time
  | [y1, y2, y3, y4, '-', m1, m2, '-', d1, d2] =>
    match digitsVal [y1, y2, y3, y4], digitsVal [m1, m2], digitsVal [d1, d2] with
    | some y, some m, some d => mkTime y m d 0 0 0
    | _, _, _ => none
  | _ => none

/-- Parsing `YYYY-MM-DDTHH:MM:SSZ`. -/
def demoParseStamp : Str → Option Time
  | [y1, y2, y3, y4, '-', m1, m2, '-', d1, d2, 'T', h1, h2, ':', n1, n2, ':', s1, s2, 'Z'] =>
    match digitsVal [y1, y2, y3, y4], digitsVal [m1, m2], digitsVal [d1, d2],
      digitsVal [h1, h2], digitsVal [n1, n2], digitsVal [s1, s2] with
    | some y, some m, some d, some hh, some mm, some ss => mkTime y m d hh mm ss
    | _, _, _, _, _, _ => none
  | _ => none

/-- The decimal digit of a number below ten. -/
def digitChar (n : Nat) : Char :=
  match n with
  | 0 => '0' | 1 => '1' | 2 => '2' | 3 => '3' | 4 => '4'
  | 5 => '5' | 6 => '6' | 7 => '7' | 8 => '8' | _ => '9'

/-- Two decimal digits. -/
def pad2 (n : Nat) : Str := [digitChar (n / 10 % 10), digitChar (n % 10)]

/-- Four decimal digits. -/
def pad4 (n : Nat) : Str := pad2 (n / 100) ++ pad2 (n % 100)

/-- Formatting with the layouts `20060102` and `20060102T150405Z`. -/
def demoFormat (t : Time) (layout : Str) : Str :=
  let s := t.sec.toNat
  let ymd := civilFromDays (s / 86400)
  let date := pad4 ymd.1 ++ pad2 ymd.2.1 ++ pad2 ymd.2.2
  let r := s % 86400
  if layout = icalDateFormatUtc then date
  else if layout = icalTimestampFormatUtc then
    date ++ ['T'] ++ pad2 (r / 3600) ++ pad2 (r % 3600 / 60) ++ pad2 (r % 60) ++ ['Z']
  else []

/-- The demonstration instance of `Lib`. -/
def demoLib : Lib where
  ToUpper := fun s => s.map Char.toUpper
  EqualFold := fun a b => a.map Char.toLower == b.map Char.toLower
  Parse := fun layout value =>
    if layout = googleDateFormat then demoParseDate value
    else if layout = RFC3339 then demoParseStamp value
    else none
  FormatUTC := demoFormat

/-!
### Reading the output

The definitions below are not part of the program; they name what the stated
properties speak about.
-/

/-- The lines of a text: the pieces between line feeds (the piece after the
last line feed included). -/
def splitLines : Str → List Str
  | [] => [[]]
  | c :: cs =>
    if c = '\n' then [] :: splitLines cs
    else
      match splitLines cs with
      | [] => [[c]]
      | l :: ls => (c :: l) :: ls

/-- Whether `p` occurs somewhere in `s`. -/
def containsStr (p : Str) : Str → Bool
  | [] => p.isPrefixOf []
  | c :: cs => p.isPrefixOf (c :: cs) || containsStr p cs

/-- The strings the writer has accepted when the function returned (`[]` when
it did not return). -/
def Result.written : Result → List Str
  | .returned w _ => w.written
  | _ => []

/-- The strings `writeEvent` prints for `ev` on a writer that never fails. -/
def printed (L : Lib) (config : Config) (ev : Event) : List Str :=
  (writeEvent L config ev Writer.fresh).written

/-- The text `writeEvent` produces for `ev` on a writer that never fails. -/
def rendered (L : Lib) (config : Config) (ev : Event) : Str :=
  (printed L config ev).flatten

/-- A writer never fails. -/
def Writer.Reliable (w : Writer) : Prop := ∀ n, w.failure n = none

/-- The property name of a content line: the text before the first `:` or `;`. -/
def propertyName (c : Str) : Str := c.takeWhile (fun ch => ch != ':' && ch != ';')

/-- The strings of `chunks` whose property name is `name`. -/
def entriesOf (name : Str) (chunks : List Str) : List Str :=
  chunks.filter (fun c => propertyName c = name)

/-- Every string of `chunks` has its property name in `names`. -/
def Named (names : List Str) (chunks : List Str) : Prop :=
  ∀ c ∈ chunks, propertyName c ∈ names

/-- The property names `writeEvent` prints whatever the policy is. -/
def fixedNames : List Str :=
  [ "BEGIN".toList, "DTSTART".toList, "DTEND".toList, "SUMMARY".toList, "DTSTAMP".toList,
    "CREATED".toList, "LAST-MODIFIED".toList, "END".toList ]

/-- The value of `ev.Status` after the attendees loop has run over `as`, when
it was `s` before. -/
def loopStatus (L : Lib) (config : Config) : List (Option EventAttendee) → Str → Str
  | [], s => s
  | none :: rest, s => loopStatus L config rest s
  | some a :: rest, s =>
    if a.Email = [] then loopStatus L config rest s
    else loopStatus L config rest
      (if L.EqualFold a.Email config.AccountEmail then a.ResponseStatus else s)

/-- The strings the attendees loop prints for `as`. -/
def attendeeLines : List (Option EventAttendee) → List Str
  | [] => []
  | none :: rest => attendeeLines rest
  | some a :: rest =>
    if a.Email = [] then attendeeLines rest else attendeeLine a :: attendeeLines rest

/-- Two events agree on the fields read after the visibility block. -/
def SameRest (e ev : Event) : Prop :=
  e.ConferenceData = ev.ConferenceData ∧ e.Organizer = ev.Organizer ∧
  e.Attendees = ev.Attendees ∧ e.Status = ev.Status ∧
  e.Created = ev.Created ∧ e.Updated = ev.Updated

/-- The last attendee of the list that is not nil, has a non-empty email and
whose email equals the account email under `strings.EqualFold`. -/
def lastSelf (L : Lib) (config : Config) : List (Option EventAttendee) → Option EventAttendee
  | [] => none
  | none :: rest => lastSelf L config rest
  | some a :: rest =>
    match lastSelf L config rest with
    | some b => some b
    | none =>
      if a.Email ≠ [] ∧ L.EqualFold a.Email config.AccountEmail = true then some a else none

/-- The calendar listing of `service` started with page token `tok` consists of
the pages `pages`: every page but the last carries a non-empty next-page token,
under which the service returns the next page, and the last page carries none. -/
def CalendarPages (service : Service) : Str → List (List CalendarListEntry) → Prop
  | _, [] => False
  | tok, [items] => service.calendarList tok = .ok (some ⟨items, []⟩)
  | tok, items :: next :: rest =>
    ∃ t, t ≠ [] ∧ service.calendarList tok = .ok (some ⟨items, t⟩) ∧
      CalendarPages service t (next :: rest)

/-- The event listing of calendar `calendarID` started with page token `tok`
consists of the pages `pages`. -/
def EventPages (service : Service) (calendarID : Str) : Str → List (List Event) → Prop
  | _, [] => False
  | tok, [items] => service.eventsList calendarID tok = .ok (some ⟨items, []⟩)
  | tok, items :: next :: rest =>
    ∃ t, t ≠ [] ∧ service.eventsList calendarID tok = .ok (some ⟨items, t⟩) ∧
      EventPages service calendarID t (next :: rest)

/-- The first item, in list order, that is not deleted and whose summary is
exactly `calendarName`. -/
def firstMatch (calendarName : Str) (items : List CalendarListEntry) :
    Option CalendarListEntry :=
  items.find? (fun item => !item.Deleted && decide (item.Summary = calendarName))

/-- The string contains no line feed. -/
def NoLF (s : Str) : Prop := '\n' ∉ s

/-- The shape of an entry: a property name without `:`, `;` or line feed, one
of these two separators, and a rest that either has no line feed or has a single
one as its last character. -/
def Entry (c : Str) : Prop :=
  ∃ name sep rest, c = name ++ sep :: rest ∧ (sep = ':' ∨ sep = ';') ∧
    name.all (fun ch => ch != ':' && ch != ';' && ch != '\n') = true ∧
    (NoLF rest ∨ ∃ body, rest = body ++ ['\n'] ∧ NoLF body)

/-- Every string of `chunks` has the shape of an entry. -/
def AllEntry (chunks : List Str) : Prop := ∀ c ∈ chunks, Entry c

/-- The strings `writeEventTime` writes for the endpoints `start` and `stop` on
a writer that never fails. -/
def timeLines (L : Lib) (start stop : EventDateTime) : List Str :=
  if start.Date ≠ [] ∧ stop.Date ≠ [] then
    if (parseOrZero L googleDateFormat start.Date).IsZero
        || (parseOrZero L googleDateFormat stop.Date).IsZero then []
    else
      [ "DTSTART;VALUE=DATE:".toList
          ++ L.FormatUTC (parseOrZero L googleDateFormat start.Date) icalDateFormatUtc
          ++ "\n".toList,
        "DTEND;VALUE=DATE:".toList
          ++ L.FormatUTC (parseOrZero L googleDateFormat stop.Date) icalDateFormatUtc
          ++ "\n".toList ]
  else if !(parseOrZero L RFC3339 start.DateTime).IsZero
      && !(parseOrZero L RFC3339 stop.DateTime).IsZero then
    [ "DTSTART:".toList
        ++ L.FormatUTC (parseOrZero L RFC3339 start.DateTime) icalTimestampFormatUtc
        ++ "\n".toList,
      "DTEND:".toList
        ++ L.FormatUTC (parseOrZero L RFC3339 stop.DateTime) icalTimestampFormatUtc
        ++ "\n".toList ]
  else []

/-!
### Sample policies, events and services
-/

/-- No field hidden. -/
def noHide : HideFields := ⟨false, false, false, false, false, false, false, false, false⟩

/-- No field overwritten. -/
def noOverwrite : OverwriteFields := ⟨[], [], [], [], [], [], [], []⟩

/-- A policy that hides and overwrites nothing. -/
def baseConfig : Config :=
  { Format := "ics".toList, AccountEmail := "me@example.org".toList,
    CalendarName := "Work".toList, Version := "1.0".toList,
    HideFields := noHide, OverwriteFields := noOverwrite }

/-- A timed event with an organizer and two attendees, the first of which is
the exporting account. -/
def baseEvent : Event :=
  { Id := "ev1".toList, ICalUID := "uid-1@example.org".toList, Summary := "Standup".toList,
    Description := "Daily sync".toList, Location := "Room A".toList,
    Transparency := "opaque".toList, Visibility := "private".toList,
    Status := "confirmed".toList,
    Created := "2024-03-01T09:00:00Z".toList, Updated := "2024-03-02T09:00:00Z".toList,
    Start := some ⟨[], "2024-03-04T10:00:00Z".toList⟩,
    End := some ⟨[], "2024-03-04T10:30:00Z".toList⟩,
    ConferenceData := none,
    Organizer := some ⟨"Olga".toList, "olga@example.org".toList⟩,
    Attendees :=
      [ some ⟨"Me".toList, "Me@Example.org".toList, false, "tentative".toList⟩,
        some ⟨"Bob".toList, "bob@example.org".toList, true, "accepted".toList⟩ ] }

/-- A policy that hides the location. -/
def hideLocationConfig : Config :=
  { baseConfig with HideFields := { noHide with Location := true } }

/-- An event whose organizer display name contains a line feed. -/
def lineFeedEvent : Event :=
  { baseEvent with
    Organizer := some ⟨"Eve\nLOCATION:Elsewhere".toList, "eve@example.org".toList⟩ }

/-- A policy that overwrites the visibility with a value the switch does not know. -/
def confidentialConfig : Config :=
  { baseConfig with OverwriteFields := { noOverwrite with Visibility := "confidential".toList } }

/-- A policy that overwrites the seven overwritable event fields. -/
def overwriteAllConfig : Config :=
  { baseConfig with OverwriteFields :=
    { CalendarName := [], Organizer := "Team".toList, Visibility := "public".toList,
      Description := "Busy".toList, Location := "Remote".toList,
      Conference := "https://meet.example.org/x".toList,
      Transparency := "transparent".toList, Status := "cancelled".toList } }

/-- A policy that hides the attendees. -/
def hideAttendeesConfig : Config :=
  { baseConfig with HideFields := { noHide with Attendees := true } }

/-- An event whose start carries a time of day and whose end carries a date. -/
def mixedEvent : Event :=
  { baseEvent with
    Start := some ⟨[], "2024-03-04T10:00:00Z".toList⟩,
    End := some ⟨"2024-03-04".toList, []⟩ }

/-- An all-day event. -/
def allDayEvent : Event :=
  { baseEvent with
    Start := some ⟨"2024-03-04".toList, []⟩,
    End := some ⟨"2024-03-05".toList, []⟩ }

/-- The policy of the end-to-end example: UID and attendees hidden, location
overwritten with `Remote`. -/
def remoteConfig : Config :=
  { baseConfig with
    HideFields := { noHide with UID := true, Attendees := true },
    OverwriteFields := { noOverwrite with Location := "Remote".toList } }

/-- The event of the end-to-end example: a UID, two attendees and the location `Room A`. -/
def remoteEvent (uid : Str) (first second : EventAttendee) : Event :=
  { baseEvent with ICalUID := uid, Attendees := [some first, some second] }

/-- Calendar list entries: a deleted and a live calendar named `Work`, and another one. -/
def workDeleted : CalendarListEntry := ⟨"id-old".toList, "Work".toList, true⟩

/-- The live calendar named `Work`. -/
def workLive : CalendarListEntry := ⟨"id-work".toList, "Work".toList, false⟩

/-- A calendar with another name. -/
def homeLive : CalendarListEntry := ⟨"id-home".toList, "Home".toList, false⟩

/-- A second event. -/
def secondEvent : Event :=
  { baseEvent with Id := "ev2".toList, Summary := "Review".toList, Attendees := [] }

/-- A service that delivers calendars and events in two pages. -/
def pagedService : Service where
  calendarList := fun tok =>
    if tok = [] then .ok (some ⟨[homeLive, workDeleted], "p2".toList⟩)
    else if tok = "p2".toList then .ok (some ⟨[workLive], []⟩)
    else .error "invalid page token".toList
  calendarsGet := fun _ => .ok ⟨"Work".toList, "Europe/Berlin".toList⟩
  eventsList := fun _ tok =>
    if tok = [] then .ok (some ⟨[baseEvent], "e2".toList⟩)
    else if tok = "e2".toList then .ok (some ⟨[secondEvent], []⟩)
    else .error "invalid page token".toList

/-- A service that delivers the same calendars and events in one page. -/
def singleService : Service where
  calendarList := fun tok =>
    if tok = [] then .ok (some ⟨[homeLive, workDeleted, workLive], []⟩)
    else .error "invalid page token".toList
  calendarsGet := fun _ => .ok ⟨"Work".toList, "Europe/Berlin".toList⟩
  eventsList := fun _ tok =>
    if tok = [] then .ok (some ⟨[baseEvent, secondEvent], []⟩)
    else .error "invalid page token".toList

/-!
### Notions for the escaping, the event loop and the writer
-/

/-- The characters `toText` escapes: backslash, line feed, semicolon and comma. -/
def isSpecial (c : Char) : Bool := c == '\\' || c == '\n' || c == ';' || c == ','

/-- A decoder of escaped text: a backslash followed by `n` stands for a line
feed, a backslash followed by another character for that character. -/
def unescape : Str → Str
  | [] => []
  | [c] => [c]
  | c :: d :: rest =>
    if c = '\\' then (if d = 'n' then '\n' else d) :: unescape rest
    else c :: unescape (d :: rest)

/-- The event has a non-empty identifier, a non-empty summary, a start and an end. -/
def isRetained (ev : Event) : Bool :=
  decide (ev.Id ≠ [] ∧ ev.Summary ≠ [] ∧ ev.Start ≠ none ∧ ev.End ≠ none)

/-- The function returned nil. -/
def Result.succeeded : Result → Bool
  | .returned _ none => true
  | _ => false

/-- The writer state of a pair `(writer, error)`. -/
def writtenOf (r : Writer × Option Str) : List Str := r.1.written

/-- A writer that has received nothing and whose call number `k` (counted from
zero) fails with the error `disk full`, all other calls succeeding. -/
def failingAt (k : Nat) : Writer :=
  ⟨[], 0, fun n => if n = k then some "disk full".toList else none⟩

/-- A policy that overwrites the calendar name with `Team`. -/
def teamNameConfig : Config :=
  { baseConfig with OverwriteFields := { noOverwrite with CalendarName := "Team".toList } }

/-- Calendar metadata as fetched from the provider: the name `Work`. -/
def workCalendar : Calendar := ⟨"Work".toList, "Europe/Berlin".toList⟩

/-- A timed event whose start timestamp is not an RFC 3339 timestamp. -/
def malformedStartEvent : Event :=
  { baseEvent with Start := some ⟨[], "yesterday at ten".toList⟩ }

/-- An event without a summary. -/
def noSummaryEvent : Event := { baseEvent with Id := "ev0".toList, Summary := [] }

/-- An event without an end. -/
def noEndEvent : Event := { baseEvent with Id := "ev3".toList, End := none }

/-- An attendee whose response status is none of the four known values. -/
def undecidedAttendee : EventAttendee :=
  ⟨[], "carol@example.org".toList, true, "maybe".toList⟩

/-!
### Notions for the whole document
-/

/-- The strings `writeHeader` writes on a writer that never fails. -/
def headerChunks (config : Config) (cal : Calendar) : List Str :=
  writtenOf (writeHeader config cal Writer.fresh)

/-- The strings the loop over the events writes for `events` on a writer that
never fails: the blocks of the retained events, in order. -/
def eventBlocks (L : Lib) (config : Config) (events : List Event) : List Str :=
  (events.filter isRetained).flatMap (printed L config)

/-- The strings accepted by `w1` are those accepted by `w` followed by strings
none of which is the trailer. -/
def NoTrailerSince (w w1 : Writer) : Prop :=
  ∃ out, w1.written = w.written ++ out ∧ "END:VCALENDAR\n".toList ∉ out

/-- The error value `writeEvents` returns for a listing call that delivers no
page: the wrapped error of the call, or `list is nil` (gti.go 411-418). -/
def IsListingError (err : Str) : Prop :=
  err = "list is nil".toList ∨ ∃ e, err = wrap e "unable to list events".toList

/-- The event listing of calendar `calendarID` started with page token `tok`
delivers the pages `pages`, each with a non-empty next-page token, and the call
after them fails: it returns an error, or a nil list; `err` is the error value
`writeEvents` then returns. -/
def EventPagesFail (service : Service) (calendarID : Str) :
    Str → List (List Event) → Str → Prop
  | tok, [], err =>
    (∃ e, service.eventsList calendarID tok = .error e ∧
      err = wrap e "unable to list events".toList) ∨
    (service.eventsList calendarID tok = .ok none ∧ err = "list is nil".toList)
  | tok, items :: rest, err =>
    ∃ t, t ≠ [] ∧ service.eventsList calendarID tok = .ok (some ⟨items, t⟩) ∧
      EventPagesFail service calendarID t rest err

/-- A service whose first page of events holds an event without summary and
the sample event, and whose second listing call for events fails. -/
def brokenService : Service where
  calendarList := fun _ => .ok (some ⟨[workLive], []⟩)
  calendarsGet := fun _ => .ok ⟨"Work".toList, "Europe/Berlin".toList⟩
  eventsList := fun _ tok =>
    if tok = [] then .ok (some ⟨[noSummaryEvent, baseEvent], "e2".toList⟩)
    else .error "backend unavailable".toList

/-!
### Notions and samples for the end-to-end example
-/

end Gti

/-! ## Part 3: `cmd/serve/serve.go`, the authorization callback -/

namespace Serve

/-- An instant of the clock `time.Now()` reads, in nanoseconds. -/
abbrev Instant := Int

/-- The duration `time.Minute * 5` in nanoseconds. -/
def fiveMinutes : Int := 5 * 60 * 1000000000

/-- The fields of `oauth2.Config` that `createOauthConfig` sets from its arguments. -/
structure OauthConfig where
  redirectURL : String
  clientID : String
  clientSecret : String
deriving DecidableEq, Repr

/-- An `oauth2.Token`, as far as the handler is concerned an opaque value. -/
structure Token where
  accessToken : String
deriving DecidableEq, Repr

/-- Source: `type stateEntry` (serve.go 100-105). -/
structure StateEntry where
  originalLocation : String
  oauthConfig : OauthConfig
  accountEmail : String
  validUntil : Instant
deriving DecidableEq, Repr

/-- The `sync.Map` `stateMap`: for every key at most one entry. -/
abbrev StateMap := String → Option StateEntry

/-- The method `sync.Map.LoadAndDelete`: the entry of `key`, if any, and the
map without it, in one atomic step. -/
def StateMap.loadAndDelete (m : StateMap) (key : String) : Option StateEntry × StateMap :=
  (m key, fun k => if k = key then none else m k)

/-- The method `sync.Map.Store`. -/
def StateMap.store (m : StateMap) (key : String) (entry : StateEntry) : StateMap :=
  fun k => if k = key then some entry else m k

/-- The map without entries. -/
def StateMap.empty : StateMap := fun _ => none

/-- What the handlers read of a request: the query parameters `state`, `error`
and `code` (`r.URL.Query().Get`, empty when absent) and `r.RequestURI`. -/
structure Request where
  state : String
  errorParam : String
  code : String
  requestURI : String
deriving DecidableEq, Repr

/-- What a handler sends: a status with a body (`w.WriteHeader` followed by
`fmt.Fprint`), or `http.Redirect(w, r, target, status)` followed by the text
written after it. -/
inductive Response where
  | plain (status : Nat) (body : String)
  | redirect (target : String) (status : Nat) (trailer : String)
deriving DecidableEq, Repr

/-- The calls with an effect outside the handler: the code exchange with the
token broker and the write of the token file. -/
inductive Action where
  | exchange (config : OauthConfig) (code : String)
  | writeToken (key : String) (tokenFile : String) (token : Token)
deriving DecidableEq, Repr

/-- Source: `http.StatusUnauthorized`. -/
def statusUnauthorized : Nat := 401

/-- Source: `http.StatusInternalServerError`. -/
def statusInternalServerError : Nat := 500

/-- Source: `http.StatusTemporaryRedirect`. -/
def statusTemporaryRedirect : Nat := 307

/-- What the `/auth` handler takes from its surroundings: the token directory
and the crypt secret of the command line, and the results of the calls it
makes. `exchange` is `entry.oauthConfig.Exchange` (`none` for an error),
`tokenValid` is `tkn.Valid()`, `trimSpace` is `strings.TrimSpace`, `joinPath` is
`filepath.Join`, `hashAccount` is the function of auth.go, `writeTokenFile` is
the function of auth.go with its file-system effect left out (`none` for nil,
otherwise the error), `authCodeURL` is `oauthConfig.AuthCodeURL`. -/
structure AuthEnv where
  tokenDir : String
  cryptSecret : String
  exchange : OauthConfig → String → Option Token
  tokenValid : Token → Bool
  trimSpace : String → String
  joinPath : String → String → String
  hashAccount : String → String
  writeTokenFile : String → String → Token → Option String
  authCodeURL : OauthConfig → String → String

/-- Source: the handler of `GET /auth` (serve.go 109-166), run at the instant
`now` on the pending map `m`: the map afterwards, the response and the calls
made, in order. -/
def authHandler (E : AuthEnv) (now : Instant) (r : Request) (m : StateMap) :
    StateMap × Response × List Action :=
  if r.state = "" then
    (m, .plain statusUnauthorized "state mismatch", [])
  else if r.errorParam ≠ "" then
    (m, .plain statusUnauthorized ("error: " ++ r.errorParam), [])
  else if r.code = "" then
    (m, .plain statusUnauthorized "code is missing", [])
  else
    match m.loadAndDelete r.state with
    | (none, m1) => (m1, .plain statusUnauthorized "state mismatch", [])
    | (some entry, m1) =>
      if entry.validUntil < now then
        (m1, .plain statusUnauthorized "expired", [])
      else
        match E.exchange entry.oauthConfig (E.trimSpace r.code) with
        | none =>
          (m1, .plain statusInternalServerError "error",
            [.exchange entry.oauthConfig (E.trimSpace r.code)])
        | some tkn =>
          if !E.tokenValid tkn then
            (m1, .plain statusInternalServerError "error",
              [.exchange entry.oauthConfig (E.trimSpace r.code)])
          else
            let tokenFile := E.joinPath E.tokenDir (E.hashAccount entry.accountEmail)
            match E.writeTokenFile E.cryptSecret tokenFile tkn with
            | some _ =>
              (m1, .plain statusInternalServerError "error",
                [ .exchange entry.oauthConfig (E.trimSpace r.code),
                  .writeToken E.cryptSecret tokenFile tkn ])
            | none =>
              (m1, .redirect entry.originalLocation statusTemporaryRedirect
                  "authorized, you can close this window.",
                [ .exchange entry.oauthConfig (E.trimSpace r.code),
                  .writeToken E.cryptSecret tokenFile tkn ])

/-- Source: the feed handler when no token is available (serve.go 216-228):
the request is parked under the fresh state token `state` (the value of
`uuid.New().String()`) with a validity of five minutes from `now`, and the
caller is redirected to the authorization URL. -/
def parkRequest (E : AuthEnv) (now : Instant) (state : String) (r : Request)
    (oauthConfig : OauthConfig) (accountEmail : String) (m : StateMap) :
    StateMap × Response :=
  (m.store state
      { originalLocation := r.requestURI, oauthConfig := oauthConfig,
        accountEmail := accountEmail, validUntil := now + fiveMinutes },
    .redirect (E.authCodeURL oauthConfig state) statusTemporaryRedirect "")

/-- The response is a redirect. -/
def Response.isRedirect : Response → Bool
  | .redirect _ _ _ => true
  | .plain _ _ => false

/-- The request passes the parameter tests of the `/auth` handler and reaches
`LoadAndDelete`: a state, no error parameter, a code. -/
def Request.reachesLookup (r : Request) : Prop :=
  r.state ≠ "" ∧ r.errorParam = "" ∧ r.code ≠ ""

/-- A concrete instance of `AuthEnv`: the exchange succeeds for the code
`good`, every token with a non-empty access token is valid, the token file can
be written, and `trimSpace` strips ASCII white space. -/
def demoAuthEnv : AuthEnv where
  tokenDir := "tokens"
  cryptSecret := "the cake is a lie"
  exchange := fun _ code => if code = "good" then some ⟨"access-1"⟩ else none
  tokenValid := fun t => t.accessToken != ""
  trimSpace := fun s =>
    String.mk (((s.toList.dropWhile Char.isWhitespace).reverse.dropWhile
      Char.isWhitespace).reverse)
  joinPath := fun a b => a ++ "/" ++ b
  hashAccount := fun s => s
  writeTokenFile := fun _ _ _ => none
  authCodeURL := fun c s => c.redirectURL ++ "?state=" ++ s

/-- A sample authorization configuration. -/
def demoOauthConfig : OauthConfig := ⟨"http://localhost:8000/auth", "client", "secret"⟩

/-- A pending map with one entry, under the state token `S1`, valid until the instant 1000. -/
def demoPending : StateMap :=
  StateMap.empty.store "S1" ⟨"/work.ics", demoOauthConfig, "me@example.org", 1000⟩

/-- A callback with the state token `S1` and the code `good`. -/
def goodCallback : Request := ⟨"S1", "", "good", "/auth?state=S1&code=good"⟩

/-- A callback with the state token `S1` and an error parameter. -/
def deniedCallback : Request :=
  ⟨"S1", "access_denied", "", "/auth?state=S1&error=access_denied"⟩

/-- A callback with the state token `S1` and neither code nor error parameter. -/
def codelessCallback : Request := ⟨"S1", "", "", "/auth?state=S1"⟩

end Serve

end GcalToIcs

/-! # Theorems -/

namespace GcalToIcs

namespace Serve

/-! ## Part 1: `crypt` and `decrypt` -/

theorem demo_unbox_box (m n k : Bytes) :
    demoPrimitives.unbox (demoPrimitives.box m n k) n k = some m := by
  simp [demoPrimitives]

theorem decrypt_append (P : Primitives) (key : String) (n b : Bytes)
    (hn : n.length = nonceSize) :
    decrypt P key (n ++ b) = some (secretboxOpen P [] b n (P.sum256 key)) := by
  have h1 : ¬ ((n ++ b).length < nonceSize) := by
    simp [List.length_append, hn]
  have h2 : nonceSize ≤ (n ++ b).length := by omega
  simp only [decrypt, h1, if_false, sliceTo, sliceFrom, h2, if_true]
  rw [List.take_left' hn, List.drop_left' hn]

theorem crypt_eq (P : Primitives) (key : String) (data rand : Bytes)
    (hrand : nonceSize ≤ rand.length) :
    crypt P key data rand =
      some (rand.take nonceSize ++ P.box data (rand.take nonceSize) (P.sum256 key)) := by
  simp [crypt, readFull, hrand, secretboxSeal]

theorem length_take_nonce (rand : Bytes) (hrand : nonceSize ≤ rand.length) :
    (rand.take nonceSize).length = nonceSize := by
  simp [List.length_take, hrand]

/-- C1: for every key, every plaintext `data` (the empty one included) and
every nonce the random reader delivers, `crypt` returns a ciphertext on which
`decrypt` with the same key returns `ok = true` and a plaintext equal to
`data`. The hypothesis `hbox` is the contract of the imported secretbox
package: opening a sealed box with the nonce and key it was sealed with gives
back the message. -/
theorem crypt_decrypt_roundtrip (P : Primitives) (key : String) (data rand : Bytes)
    (hbox : ∀ m n k, n.length = nonceSize → P.unbox (P.box m n k) n k = some m)
    (hrand : nonceSize ≤ rand.length) :
    ∃ c, crypt P key data rand = some c ∧ decrypt P key c = some (data, true) := by
  refine ⟨_, crypt_eq P key data rand hrand, ?_⟩
  rw [decrypt_append P key _ _ (length_take_nonce rand hrand)]
  simp [secretboxOpen, hbox _ _ _ (length_take_nonce rand hrand)]

/-- C1 (witness): the bytes of `hello` under the key `password`. -/
theorem crypt_decrypt_roundtrip_witness :
    nonceSize ≤ zeroRand.length ∧
    ∃ c, crypt demoPrimitives "password" [104, 101, 108, 108, 111] zeroRand = some c ∧
      decrypt demoPrimitives "password" c = some ([104, 101, 108, 108, 111], true) :=
  ⟨by decide, crypt_decrypt_roundtrip demoPrimitives "password" [104, 101, 108, 108, 111]
    zeroRand (fun m n k _ => demo_unbox_box m n k) (by decide)⟩

/-- C2 (counterexample): for the empty plaintext and the keys `password1` and
`password2`, whatever the imported primitives compute, `decrypt` does not
return `ok = false` together with a value different from the plaintext: when
authentication fails the value returned is nil, which is the plaintext. -/
theorem decrypt_other_key_empty_plaintext :
    ¬ ∃ (P : Primitives) (v : Bytes),
      (crypt P "password1" [] zeroRand).bind (decrypt P "password2") = some (v, false) ∧
      v ≠ [] := by
  rintro ⟨P, v, h, hv⟩
  rw [crypt_eq P "password1" [] zeroRand (by decide)] at h
  simp only [Option.bind] at h
  rw [decrypt_append P _ _ _ (length_take_nonce zeroRand (by decide))] at h
  unfold secretboxOpen at h
  split at h
  · simp at h
  · simp at h
    exact hv h

/-- C2 (amended): for every plaintext `data` and keys `k1`, `k2` such that
secretbox authentication of the box sealed under the digest of `k1` fails
under the digest of `k2`, `decrypt(k2, crypt(k1, data))` returns `ok = false`
and the nil value; that value differs from `data` exactly when `data` is not
empty. -/
theorem decrypt_other_key (P : Primitives) (k1 k2 : String) (data rand : Bytes)
    (hrand : nonceSize ≤ rand.length)
    (hauth : P.unbox (P.box data (rand.take nonceSize) (P.sum256 k1)) (rand.take nonceSize)
      (P.sum256 k2) = none) :
    ∃ c v, crypt P k1 data rand = some c ∧ decrypt P k2 c = some (v, false) ∧ v = [] ∧
      (v ≠ data ↔ data ≠ []) := by
  refine ⟨_, [], crypt_eq P k1 data rand hrand, ?_, rfl, ⟨fun h => Ne.symm h, fun h => Ne.symm h⟩⟩
  rw [decrypt_append P k2 _ _ (length_take_nonce rand hrand)]
  simp [secretboxOpen, hauth]

/-- C2 (witness): the bytes of `Hello` sealed under `password1` and opened under `password2`. -/
theorem decrypt_other_key_witness :
    ∃ c v, crypt demoPrimitives "password1" [72, 101, 108, 108, 111] zeroRand = some c ∧
      decrypt demoPrimitives "password2" c = some (v, false) ∧ v = [] ∧
      (v ≠ [72, 101, 108, 108, 111] ↔ ([72, 101, 108, 108, 111] : Bytes) ≠ []) :=
  decrypt_other_key demoPrimitives "password1" "password2" [72, 101, 108, 108, 111] zeroRand
    (by decide) (by decide)

/-- C3: for every key and every input shorter than the nonce length (the empty
input included), `decrypt` returns the failure result `(nil, false)`; it does
not panic. -/
theorem decrypt_short_input (P : Primitives) (key : String) (input : Bytes)
    (hshort : input.length < nonceSize) :
    decrypt P key input = some ([], false) := by
  simp [decrypt, hshort]

/-- C3 (witness): the empty input and an input of 23 bytes. -/
theorem decrypt_short_input_witness :
    decrypt demoPrimitives "password" [] = some ([], false) ∧
    decrypt demoPrimitives "password" (List.replicate 23 7) = some ([], false) :=
  ⟨decrypt_short_input demoPrimitives "password" [] (by decide),
   decrypt_short_input demoPrimitives "password" (List.replicate 23 7) (by decide)⟩

end Serve

end GcalToIcs

namespace GcalToIcs

namespace Gti

set_option maxRecDepth 20000

/-! ## Part 2: the feed compiler -/

/-! ### The writer -/

theorem printAll_written (w : Writer) (hw : w.Reliable) (chunks : List Str) :
    printAll w chunks = ⟨w.written ++ chunks, w.calls + chunks.length, w.failure⟩ := by
  induction chunks generalizing w with
  | nil => simp [printAll]
  | cons c cs ih =>
    have h : (w.write c).1 = ⟨w.written ++ [c], w.calls + 1, w.failure⟩ := by
      simp [Writer.write, hw w.calls]
    have hr : (w.write c).1.Reliable := by rw [h]; exact hw
    have := ih (w.write c).1 hr
    simp only [printAll, List.foldl_cons] at this ⊢
    rw [this, h]
    simp [Nat.add_assoc, Nat.add_comm 1]

theorem printAll_reliable (w : Writer) (hw : w.Reliable) (chunks : List Str) :
    (printAll w chunks).Reliable := by
  rw [printAll_written w hw]; exact hw

theorem write_reliable (w : Writer) (hw : w.Reliable) (s : Str) :
    w.write s = (printAll w [s], none) := by
  simp [Writer.write, hw w.calls, printAll]

theorem printAll_append (w : Writer) (a b : List Str) :
    printAll w (a ++ b) = printAll (printAll w a) b := by
  simp [printAll, List.foldl_append]

theorem fresh_reliable : Writer.fresh.Reliable := fun _ => rfl

/-! ### Entries of a property -/

theorem entriesOf_append (name : Str) (a b : List Str) :
    entriesOf name (a ++ b) = entriesOf name a ++ entriesOf name b := by
  simp [entriesOf]

theorem entriesOf_other (name : Str) (names : List Str) (chunks : List Str)
    (h : Named names chunks) (hn : name ∉ names) : entriesOf name chunks = [] := by
  simp only [entriesOf, List.filter_eq_nil_iff, decide_eq_true_eq]
  intro c hc heq
  exact hn (heq ▸ h c hc)

theorem entriesOf_self (name : Str) (chunks : List Str)
    (h : Named [name] chunks) : entriesOf name chunks = chunks := by
  simp only [entriesOf, List.filter_eq_self, decide_eq_true_eq]
  intro c hc
  simpa using h c hc

theorem named_append (names : List Str) (a b : List Str) (ha : Named names a)
    (hb : Named names b) : Named names (a ++ b) := by
  intro c hc
  rcases List.mem_append.mp hc with h | h
  · exact ha c h
  · exact hb c h

theorem named_nil (names : List Str) : Named names [] := by
  intro c hc; cases hc

/-! ### Property names of the blocks -/

theorem named_ite (names : List Str) (c : Prop) [Decidable c] (a b : List Str)
    (ha : Named names a) (hb : Named names b) : Named names (if c then a else b) := by
  split
  · exact ha
  · exact hb

theorem named_single (names : List Str) (s : Str) (h : propertyName s ∈ names) :
    Named names [s] := by
  intro c hc
  simp at hc
  subst hc
  exact h

theorem named_cons (names : List Str) (s : Str) (rest : List Str)
    (h : propertyName s ∈ names) (hr : Named names rest) : Named names (s :: rest) := by
  intro c hc
  rcases List.mem_cons.mp hc with hc | hc
  · subst hc; exact h
  · exact hr c hc

theorem named_uidBlock (config : Config) (ev : Event) :
    Named ["UID".toList] (uidBlock config ev) := by
  unfold uidBlock
  exact named_ite _ _ _ _ (named_single _ _ (by simp [propertyName, List.takeWhile]))
    (named_nil _)

theorem named_summaryBlock (ev : Event) : Named ["SUMMARY".toList] (summaryBlock ev) :=
  named_single _ _ (by simp [propertyName, List.takeWhile])

theorem named_descriptionBlock (config : Config) (ev : Event) :
    Named ["DESCRIPTION".toList] (descriptionBlock config ev).2 := by
  by_cases hh : (!config.HideFields.Description) = true
  · rw [descriptionBlock, if_pos hh]
    exact named_ite _ _ _ _ (named_single _ _ (by simp [propertyName, List.takeWhile]))
      (named_nil _)
  · rw [descriptionBlock, if_neg hh]
    exact named_nil _

theorem named_transparencyBlock (L : Lib) (config : Config) (ev : Event) :
    Named ["TRANSP".toList] (transparencyBlock L config ev).2 := by
  by_cases hh : (!config.HideFields.Transparency) = true
  · rw [transparencyBlock, if_pos hh]
    exact named_ite _ _ _ _ (named_single _ _ (by simp [propertyName, List.takeWhile]))
      (named_single _ _ (by simp [propertyName, List.takeWhile]))
  · rw [transparencyBlock, if_neg hh]
    exact named_nil _

theorem named_locationBlock (config : Config) (ev : Event) :
    Named ["LOCATION".toList] (locationBlock config ev).2 := by
  by_cases hh : (!config.HideFields.Location) = true
  · rw [locationBlock, if_pos hh]
    exact named_ite _ _ _ _ (named_single _ _ (by simp [propertyName, List.takeWhile]))
      (named_nil _)
  · rw [locationBlock, if_neg hh]
    exact named_nil _

theorem named_classLines (L : Lib) (s : Str) : Named ["CLASS".toList] (classLines L s) := by
  unfold classLines
  exact named_ite _ _ _ _ (named_single _ _ (by simp [propertyName, List.takeWhile]))
    (named_ite _ _ _ _ (named_single _ _ (by simp [propertyName, List.takeWhile]))
      (named_nil _))

theorem named_visibilityBlock (L : Lib) (config : Config) (ev : Event) :
    Named ["CLASS".toList] (visibilityBlock L config ev).2 := by
  by_cases hh : (!config.HideFields.Visibility) = true
  · rw [visibilityBlock, if_pos hh]
    exact named_classLines L _
  · rw [visibilityBlock, if_neg hh]
    exact named_nil _

theorem named_firstEntryPoint (ps : List EntryPoint) :
    Named ["X-GOOGLE-CONFERENCE".toList] (firstEntryPoint ps) := by
  induction ps with
  | nil => exact named_nil _
  | cons p rest ih =>
    unfold firstEntryPoint
    exact named_ite _ _ _ _ ih (named_single _ _ (by simp [propertyName, List.takeWhile]))

theorem named_conferenceBlock (config : Config) (ev : Event) :
    Named ["X-GOOGLE-CONFERENCE".toList] (conferenceBlock config ev) := by
  unfold conferenceBlock
  refine named_ite _ _ _ _ (named_ite _ _ _ _
    (named_single _ _ (by simp [propertyName, List.takeWhile])) ?_) (named_nil _)
  cases ev.ConferenceData with
  | none => exact named_nil _
  | some data => exact named_ite _ _ _ _ (named_firstEntryPoint _) (named_nil _)

theorem named_organizerBlock (config : Config) (ev : Event) :
    Named ["ORGANIZER".toList] (organizerBlock config ev) := by
  unfold organizerBlock
  refine named_ite _ _ _ _ (named_ite _ _ _ _
    (named_single _ _ (by simp [propertyName, List.takeWhile])) ?_) (named_nil _)
  cases ev.Organizer with
  | none => exact named_nil _
  | some organizer =>
    exact named_ite _ _ _ _ (named_single _ _ (by simp [propertyName, List.takeWhile]))
      (named_nil _)

theorem named_attendeesLoop (L : Lib) (config : Config) (as : List (Option EventAttendee))
    (ev : Event) : Named ["ATTENDEE".toList] (attendeesLoop L config as ev).2 := by
  induction as generalizing ev with
  | nil => exact named_nil _
  | cons a rest ih =>
    cases a with
    | none => simpa [attendeesLoop] using ih ev
    | some a =>
      by_cases he : a.Email = []
      · rw [attendeesLoop, if_pos he]; exact ih ev
      · rw [attendeesLoop, if_neg he]
        exact named_cons _ _ _ (by simp [propertyName, List.takeWhile, attendeeLine]) (ih _)

theorem named_attendeesBlock (L : Lib) (config : Config) (ev : Event) :
    Named ["ATTENDEE".toList] (attendeesBlock L config ev).2 := by
  by_cases hh : (!config.HideFields.Attendees) = true
  · rw [attendeesBlock, if_pos hh]
    exact named_attendeesLoop L config _ _
  · rw [attendeesBlock, if_neg hh]
    exact named_nil _

theorem named_statusLines (L : Lib) (s : Str) : Named ["STATUS".toList] (statusLines L s) := by
  unfold statusLines
  exact named_ite _ _ _ _ (named_single _ _ (by simp [propertyName, List.takeWhile]))
    (named_ite _ _ _ _ (named_single _ _ (by simp [propertyName, List.takeWhile]))
      (named_ite _ _ _ _ (named_single _ _ (by simp [propertyName, List.takeWhile]))
        (named_nil _)))

theorem named_statusBlock (L : Lib) (config : Config) (ev : Event) :
    Named ["STATUS".toList] (statusBlock L config ev).2 := by
  by_cases hh : (!config.HideFields.Status) = true
  · rw [statusBlock, if_pos hh]
    exact named_statusLines L _
  · rw [statusBlock, if_neg hh]
    exact named_nil _

theorem named_timestampsBlock (L : Lib) (ev : Event) :
    Named ["DTSTAMP".toList, "CREATED".toList, "LAST-MODIFIED".toList]
      (timestampsBlock L ev) := by
  unfold timestampsBlock
  apply named_append
  · cases L.Parse RFC3339 ev.Created with
    | none => exact named_nil _
    | some t =>
      exact named_cons _ _ _ (by simp [propertyName, List.takeWhile])
        (named_single _ _ (by simp [propertyName, List.takeWhile]))
  · cases L.Parse RFC3339 ev.Updated with
    | none => exact named_nil _
    | some t => exact named_single _ _ (by simp [propertyName, List.takeWhile])

/-! ### The event after each block -/

theorem attendeesLoop_eq (L : Lib) (config : Config) (as : List (Option EventAttendee))
    (ev : Event) :
    attendeesLoop L config as ev =
      ({ ev with Status := loopStatus L config as ev.Status }, attendeeLines as) := by
  induction as generalizing ev with
  | nil => rfl
  | cons a rest ih =>
    cases a with
    | none => simpa [attendeesLoop, loopStatus, attendeeLines] using ih ev
    | some a =>
      by_cases he : a.Email = []
      · rw [attendeesLoop, if_pos he, loopStatus, if_pos he, attendeeLines, if_pos he]
        exact ih ev
      · rw [attendeesLoop, if_neg he, loopStatus, if_neg he, attendeeLines, if_neg he]
        simp only [ih]
        by_cases hf : L.EqualFold a.Email config.AccountEmail = true
        · simp [hf]
        · simp [hf]

theorem descriptionBlock_fst (config : Config) (ev : Event) :
    ∃ x, (descriptionBlock config ev).1 = { ev with Description := x } := by
  unfold descriptionBlock
  split_ifs
  · exact ⟨_, rfl⟩
  · exact ⟨ev.Description, rfl⟩
  · exact ⟨ev.Description, rfl⟩

theorem transparencyBlock_fst (L : Lib) (config : Config) (ev : Event) :
    ∃ x, (transparencyBlock L config ev).1 = { ev with Transparency := x } := by
  unfold transparencyBlock
  split_ifs
  · exact ⟨_, rfl⟩
  · exact ⟨ev.Transparency, rfl⟩
  · exact ⟨ev.Transparency, rfl⟩

theorem locationBlock_fst (config : Config) (ev : Event) :
    ∃ x, (locationBlock config ev).1 = { ev with Location := x } := by
  unfold locationBlock
  split_ifs
  · exact ⟨_, rfl⟩
  · exact ⟨ev.Location, rfl⟩
  · exact ⟨ev.Location, rfl⟩

theorem visibilityBlock_fst (L : Lib) (config : Config) (ev : Event) :
    ∃ x, (visibilityBlock L config ev).1 = { ev with Visibility := x } := by
  unfold visibilityBlock
  split_ifs
  · exact ⟨_, rfl⟩
  · exact ⟨ev.Visibility, rfl⟩
  · exact ⟨ev.Visibility, rfl⟩

theorem transparencyBlock_snd_congr (L : Lib) (config : Config) (e ev : Event)
    (h : e.Transparency = ev.Transparency) :
    (transparencyBlock L config e).2 = (transparencyBlock L config ev).2 := by
  unfold transparencyBlock
  split_ifs <;> simp_all

theorem locationBlock_snd_congr (config : Config) (e ev : Event)
    (h : e.Location = ev.Location) :
    (locationBlock config e).2 = (locationBlock config ev).2 := by
  unfold locationBlock
  split_ifs <;> simp_all

theorem visibilityBlock_snd_congr (L : Lib) (config : Config) (e ev : Event)
    (h : e.Visibility = ev.Visibility) :
    (visibilityBlock L config e).2 = (visibilityBlock L config ev).2 := by
  unfold visibilityBlock
  split_ifs <;> simp_all

theorem conferenceBlock_congr (config : Config) (e ev : Event)
    (h : e.ConferenceData = ev.ConferenceData) :
    conferenceBlock config e = conferenceBlock config ev := by
  unfold conferenceBlock
  rw [h]

theorem organizerBlock_congr (config : Config) (e ev : Event)
    (h : e.Organizer = ev.Organizer) :
    organizerBlock config e = organizerBlock config ev := by
  unfold organizerBlock
  rw [h]

theorem timestampsBlock_congr (L : Lib) (e ev : Event)
    (hc : e.Created = ev.Created) (hu : e.Updated = ev.Updated) :
    timestampsBlock L e = timestampsBlock L ev := by
  unfold timestampsBlock
  rw [hc, hu]

theorem attendeesBlock_eq (L : Lib) (config : Config) (ev : Event) :
    attendeesBlock L config ev =
      if !config.HideFields.Attendees then
        ({ ev with Status := loopStatus L config ev.Attendees ev.Status },
          attendeeLines ev.Attendees)
      else (ev, []) := by
  unfold attendeesBlock
  rw [attendeesLoop_eq]

theorem attendeesBlock_snd_congr (L : Lib) (config : Config) (e ev : Event)
    (h : e.Attendees = ev.Attendees) :
    (attendeesBlock L config e).2 = (attendeesBlock L config ev).2 := by
  rw [attendeesBlock_eq, attendeesBlock_eq]
  split_ifs <;> simp [h]

theorem attendeesBlock_status_congr (L : Lib) (config : Config) (e ev : Event)
    (h : e.Attendees = ev.Attendees) (hs : e.Status = ev.Status) :
    (attendeesBlock L config e).1.Status = (attendeesBlock L config ev).1.Status := by
  rw [attendeesBlock_eq, attendeesBlock_eq]
  split_ifs <;> simp [h, hs]

theorem attendeesBlock_created (L : Lib) (config : Config) (ev : Event) :
    (attendeesBlock L config ev).1.Created = ev.Created ∧
    (attendeesBlock L config ev).1.Updated = ev.Updated := by
  rw [attendeesBlock_eq]
  split_ifs <;> simp

theorem statusBlock_snd_congr (L : Lib) (config : Config) (e ev : Event)
    (h : e.Status = ev.Status) :
    (statusBlock L config e).2 = (statusBlock L config ev).2 := by
  unfold statusBlock
  split_ifs <;> simp_all

theorem statusBlock_created (L : Lib) (config : Config) (ev : Event) :
    (statusBlock L config ev).1.Created = ev.Created ∧
    (statusBlock L config ev).1.Updated = ev.Updated := by
  unfold statusBlock
  split_ifs <;> simp

theorem timestampsBlock_after (L : Lib) (config : Config) (e ev : Event)
    (hc : e.Created = ev.Created) (hu : e.Updated = ev.Updated) :
    timestampsBlock L (statusBlock L config (attendeesBlock L config e).1).1 =
      timestampsBlock L ev :=
  timestampsBlock_congr L _ ev
    (((statusBlock_created L config _).1.trans (attendeesBlock_created L config e).1).trans hc)
    (((statusBlock_created L config _).2.trans (attendeesBlock_created L config e).2).trans hu)

theorem sameRest_trans (a b c : Event) (h1 : SameRest a b) (h2 : SameRest b c) :
    SameRest a c :=
  ⟨h1.1.trans h2.1, h1.2.1.trans h2.2.1, h1.2.2.1.trans h2.2.2.1,
    h1.2.2.2.1.trans h2.2.2.2.1, h1.2.2.2.2.1.trans h2.2.2.2.2.1,
    h1.2.2.2.2.2.trans h2.2.2.2.2.2⟩

theorem keeps_description (config : Config) (ev : Event) :
    (descriptionBlock config ev).1.Transparency = ev.Transparency ∧
    (descriptionBlock config ev).1.Location = ev.Location ∧
    (descriptionBlock config ev).1.Visibility = ev.Visibility ∧
    SameRest (descriptionBlock config ev).1 ev := by
  obtain ⟨x, h⟩ := descriptionBlock_fst config ev
  rw [h]
  exact ⟨rfl, rfl, rfl, rfl, rfl, rfl, rfl, rfl, rfl⟩

theorem keeps_transparency (L : Lib) (config : Config) (ev : Event) :
    (transparencyBlock L config ev).1.Location = ev.Location ∧
    (transparencyBlock L config ev).1.Visibility = ev.Visibility ∧
    SameRest (transparencyBlock L config ev).1 ev := by
  obtain ⟨x, h⟩ := transparencyBlock_fst L config ev
  rw [h]
  exact ⟨rfl, rfl, rfl, rfl, rfl, rfl, rfl, rfl⟩

theorem keeps_location (config : Config) (ev : Event) :
    (locationBlock config ev).1.Visibility = ev.Visibility ∧
    SameRest (locationBlock config ev).1 ev := by
  obtain ⟨x, h⟩ := locationBlock_fst config ev
  rw [h]
  exact ⟨rfl, rfl, rfl, rfl, rfl, rfl, rfl⟩

theorem keeps_visibility (L : Lib) (config : Config) (ev : Event) :
    SameRest (visibilityBlock L config ev).1 ev := by
  obtain ⟨x, h⟩ := visibilityBlock_fst L config ev
  rw [h]
  exact ⟨rfl, rfl, rfl, rfl, rfl, rfl⟩

theorem eventBody_flat (L : Lib) (config : Config) (ev : Event) :
    eventBody L config ev =
      summaryBlock ev ++ (descriptionBlock config ev).2 ++ (transparencyBlock L config ev).2
        ++ (locationBlock config ev).2 ++ (visibilityBlock L config ev).2
        ++ conferenceBlock config ev ++ organizerBlock config ev
        ++ (attendeesBlock L config ev).2
        ++ (statusBlock L config (attendeesBlock L config ev).1).2
        ++ timestampsBlock L ev ++ ["END:VEVENT\n".toList] := by
  have kd := keeps_description config ev
  have kt := keeps_transparency L config (descriptionBlock config ev).1
  have kl := keeps_location config (transparencyBlock L config (descriptionBlock config ev).1).1
  have kv := keeps_visibility L config
    (locationBlock config (transparencyBlock L config (descriptionBlock config ev).1).1).1
  simp only [eventBody]
  generalize (descriptionBlock config ev).1 = e1 at kd kt kl kv ⊢
  generalize (transparencyBlock L config e1).1 = e2 at kt kl kv ⊢
  generalize (locationBlock config e2).1 = e3 at kl kv ⊢
  generalize (visibilityBlock L config e3).1 = e4 at kv ⊢
  have hr : SameRest e4 ev :=
    sameRest_trans _ _ _ kv (sameRest_trans _ _ _ kl.2 (sameRest_trans _ _ _ kt.2.2 kd.2.2.2))
  rw [transparencyBlock_snd_congr L config e1 ev kd.1,
    locationBlock_snd_congr config e2 ev (kt.1.trans kd.2.1),
    visibilityBlock_snd_congr L config e3 ev (kl.1.trans (kt.2.1.trans kd.2.2.1)),
    conferenceBlock_congr config e4 ev hr.1,
    organizerBlock_congr config e4 ev hr.2.1,
    attendeesBlock_snd_congr L config e4 ev hr.2.2.1,
    statusBlock_snd_congr L config (attendeesBlock L config e4).1 (attendeesBlock L config ev).1
      (attendeesBlock_status_congr L config e4 ev hr.2.2.1 hr.2.2.2.1),
    timestampsBlock_after L config e4 ev hr.2.2.2.2.1 hr.2.2.2.2.2]

/-! ### `writeEventTime` on a writer that never fails -/

theorem writeAllDayEventTime_skip (L : Lib) (ev : Event) (start stop : EventDateTime)
    (w : Writer) (hs : ev.Start = some start) (he : ev.End = some stop)
    (hz : (parseOrZero L googleDateFormat start.Date).IsZero = true ∨
      (parseOrZero L googleDateFormat stop.Date).IsZero = true) :
    writeAllDayEventTime L ev w = .returned w none := by
  simp only [writeAllDayEventTime, hs, he]
  rw [if_pos (by simpa using hz)]

theorem writeAllDayEventTime_emit (L : Lib) (ev : Event) (start stop : EventDateTime)
    (w : Writer) (hs : ev.Start = some start) (he : ev.End = some stop) (hw : w.Reliable)
    (h1 : (parseOrZero L googleDateFormat start.Date).IsZero = false)
    (h2 : (parseOrZero L googleDateFormat stop.Date).IsZero = false) :
    writeAllDayEventTime L ev w = .returned (printAll w
      [ "DTSTART;VALUE=DATE:".toList
          ++ L.FormatUTC (parseOrZero L googleDateFormat start.Date) icalDateFormatUtc
          ++ "\n".toList,
        "DTEND;VALUE=DATE:".toList
          ++ L.FormatUTC (parseOrZero L googleDateFormat stop.Date) icalDateFormatUtc
          ++ "\n".toList ]) none := by
  simp only [writeAllDayEventTime, hs, he]
  rw [if_neg (by simp [h1, h2])]
  rw [write_reliable w hw]
  simp only
  rw [write_reliable _ (printAll_reliable w hw _)]
  simp only [printAll, List.foldl_cons, List.foldl_nil]

theorem writeEventTime_allDay (L : Lib) (ev : Event) (start stop : EventDateTime)
    (w : Writer) (hs : ev.Start = some start) (he : ev.End = some stop)
    (hd : start.Date ≠ [] ∧ stop.Date ≠ []) :
    writeEventTime L ev w = writeAllDayEventTime L ev w := by
  simp only [writeEventTime, hs, he]
  rw [if_pos hd]

theorem writeEventTime_timed_skip (L : Lib) (ev : Event) (start stop : EventDateTime)
    (w : Writer) (hs : ev.Start = some start) (he : ev.End = some stop)
    (hd : ¬ (start.Date ≠ [] ∧ stop.Date ≠ []))
    (hz : (parseOrZero L RFC3339 start.DateTime).IsZero = true ∨
      (parseOrZero L RFC3339 stop.DateTime).IsZero = true) :
    writeEventTime L ev w = .returned w none := by
  simp only [writeEventTime, hs, he]
  rw [if_neg hd, if_neg]
  rcases hz with hz | hz <;> simp [hz]

theorem writeEventTime_timed_emit (L : Lib) (ev : Event) (start stop : EventDateTime)
    (w : Writer) (hs : ev.Start = some start) (he : ev.End = some stop) (hw : w.Reliable)
    (hd : ¬ (start.Date ≠ [] ∧ stop.Date ≠ []))
    (h1 : (parseOrZero L RFC3339 start.DateTime).IsZero = false)
    (h2 : (parseOrZero L RFC3339 stop.DateTime).IsZero = false) :
    writeEventTime L ev w = .returned (printAll w
      [ "DTSTART:".toList
          ++ L.FormatUTC (parseOrZero L RFC3339 start.DateTime) icalTimestampFormatUtc
          ++ "\n".toList,
        "DTEND:".toList
          ++ L.FormatUTC (parseOrZero L RFC3339 stop.DateTime) icalTimestampFormatUtc
          ++ "\n".toList ]) none := by
  simp only [writeEventTime, hs, he]
  rw [if_neg hd, if_pos (by simp [h1, h2])]
  rw [write_reliable w hw]
  simp only
  rw [write_reliable _ (printAll_reliable w hw _)]
  simp only [printAll, List.foldl_cons, List.foldl_nil]

theorem writeEventTime_reliable (L : Lib) (ev : Event) (start stop : EventDateTime)
    (w : Writer) (hs : ev.Start = some start) (he : ev.End = some stop) (hw : w.Reliable) :
    writeEventTime L ev w = .returned (printAll w (timeLines L start stop)) none := by
  unfold timeLines
  by_cases hd : start.Date ≠ [] ∧ stop.Date ≠ []
  · rw [if_pos hd, writeEventTime_allDay L ev start stop w hs he hd]
    by_cases hz : (parseOrZero L googleDateFormat start.Date).IsZero = true ∨
        (parseOrZero L googleDateFormat stop.Date).IsZero = true
    · rw [if_pos (by simpa using hz), writeAllDayEventTime_skip L ev start stop w hs he hz]
      rfl
    · rw [if_neg (by simpa using hz)]
      simp only [not_or, Bool.not_eq_true] at hz
      exact writeAllDayEventTime_emit L ev start stop w hs he hw hz.1 hz.2
  · rw [if_neg hd]
    by_cases hz : (parseOrZero L RFC3339 start.DateTime).IsZero = true ∨
        (parseOrZero L RFC3339 stop.DateTime).IsZero = true
    · rw [if_neg (by rcases hz with hz | hz <;> simp [hz]),
        writeEventTime_timed_skip L ev start stop w hs he hd hz]
      rfl
    · simp only [not_or, Bool.not_eq_true] at hz
      rw [if_pos (by simp [hz.1, hz.2])]
      exact writeEventTime_timed_emit L ev start stop w hs he hw hd hz.1 hz.2

theorem named_timeLines (L : Lib) (start stop : EventDateTime) :
    Named ["DTSTART".toList, "DTEND".toList] (timeLines L start stop) := by
  unfold timeLines
  exact named_ite _ _ _ _
    (named_ite _ _ _ _ (named_nil _)
      (named_cons _ _ _ (by simp [propertyName, List.takeWhile])
        (named_single _ _ (by simp [propertyName, List.takeWhile]))))
    (named_ite _ _ _ _
      (named_cons _ _ _ (by simp [propertyName, List.takeWhile])
        (named_single _ _ (by simp [propertyName, List.takeWhile])))
      (named_nil _))

theorem writeEvent_reliable (L : Lib) (config : Config) (ev : Event)
    (start stop : EventDateTime) (w : Writer) (hs : ev.Start = some start)
    (he : ev.End = some stop) (hw : w.Reliable) :
    writeEvent L config ev w = .returned (printAll w
      (["BEGIN:VEVENT\n".toList] ++ uidBlock config ev ++ timeLines L start stop
        ++ eventBody L config ev)) none := by
  simp only [writeEvent]
  rw [writeEventTime_reliable L ev start stop _ hs he (printAll_reliable w hw _)]
  simp only [printAll_append]

theorem printed_eq (L : Lib) (config : Config) (ev : Event)
    (start stop : EventDateTime) (hs : ev.Start = some start) (he : ev.End = some stop) :
    printed L config ev =
      ["BEGIN:VEVENT\n".toList] ++ uidBlock config ev ++ timeLines L start stop
        ++ eventBody L config ev := by
  simp only [printed]
  rw [writeEvent_reliable L config ev start stop _ hs he fresh_reliable,
    printAll_written _ fresh_reliable]
  simp [Writer.fresh, Result.written]

theorem entriesOf_named (name n : Str) (chunks : List Str) (h : Named [n] chunks) :
    entriesOf name chunks = if n = name then chunks else [] := by
  split
  · next hn => subst hn; exact entriesOf_self _ _ h
  · next hn => exact entriesOf_other _ _ _ h (by simpa using fun h' => hn h'.symm)

theorem entriesOf_printed (L : Lib) (config : Config) (ev : Event)
    (start stop : EventDateTime) (hs : ev.Start = some start) (he : ev.End = some stop)
    (name : Str) (hname : name ∉ fixedNames) :
    entriesOf name (printed L config ev) =
      entriesOf name (uidBlock config ev)
        ++ entriesOf name (descriptionBlock config ev).2
        ++ entriesOf name (transparencyBlock L config ev).2
        ++ entriesOf name (locationBlock config ev).2
        ++ entriesOf name (visibilityBlock L config ev).2
        ++ entriesOf name (conferenceBlock config ev)
        ++ entriesOf name (organizerBlock config ev)
        ++ entriesOf name (attendeesBlock L config ev).2
        ++ entriesOf name (statusBlock L config (attendeesBlock L config ev).1).2 := by
  simp only [fixedNames, List.mem_cons, List.mem_singleton, not_or, List.not_mem_nil,
    not_false_eq_true, and_true] at hname
  rw [printed_eq L config ev start stop hs he, eventBody_flat]
  simp only [entriesOf_append]
  rw [entriesOf_other name ["BEGIN".toList] _
      (named_single _ _ (by simp [propertyName, List.takeWhile])) (by simpa using hname.1),
    entriesOf_other name _ _ (named_timeLines L start stop)
      (by simpa using ⟨hname.2.1, hname.2.2.1⟩),
    entriesOf_other name _ _ (named_summaryBlock ev) (by simpa using hname.2.2.2.1),
    entriesOf_other name _ _ (named_timestampsBlock L ev)
      (by simpa using ⟨hname.2.2.2.2.1, hname.2.2.2.2.2.1, hname.2.2.2.2.2.2.1⟩),
    entriesOf_other name ["END".toList] _
      (named_single _ _ (by simp [propertyName, List.takeWhile]))
      (by simpa using hname.2.2.2.2.2.2.2)]
  simp

/-! ### The entries of each policy field -/

theorem entries_by_property (L : Lib) (config : Config) (ev : Event)
    (start stop : EventDateTime) (hs : ev.Start = some start) (he : ev.End = some stop) :
    entriesOf "UID".toList (printed L config ev) = uidBlock config ev ∧
    entriesOf "DESCRIPTION".toList (printed L config ev) = (descriptionBlock config ev).2 ∧
    entriesOf "TRANSP".toList (printed L config ev) = (transparencyBlock L config ev).2 ∧
    entriesOf "LOCATION".toList (printed L config ev) = (locationBlock config ev).2 ∧
    entriesOf "CLASS".toList (printed L config ev) = (visibilityBlock L config ev).2 ∧
    entriesOf "X-GOOGLE-CONFERENCE".toList (printed L config ev) = conferenceBlock config ev ∧
    entriesOf "ORGANIZER".toList (printed L config ev) = organizerBlock config ev ∧
    entriesOf "ATTENDEE".toList (printed L config ev) = (attendeesBlock L config ev).2 ∧
    entriesOf "STATUS".toList (printed L config ev) =
      (statusBlock L config (attendeesBlock L config ev).1).2 := by
  have e1 := fun n => entriesOf_named n _ _ (named_uidBlock config ev)
  have e2 := fun n => entriesOf_named n _ _ (named_descriptionBlock config ev)
  have e3 := fun n => entriesOf_named n _ _ (named_transparencyBlock L config ev)
  have e4 := fun n => entriesOf_named n _ _ (named_locationBlock config ev)
  have e5 := fun n => entriesOf_named n _ _ (named_visibilityBlock L config ev)
  have e6 := fun n => entriesOf_named n _ _ (named_conferenceBlock config ev)
  have e7 := fun n => entriesOf_named n _ _ (named_organizerBlock config ev)
  have e8 := fun n => entriesOf_named n _ _ (named_attendeesBlock L config ev)
  have e9 := fun n => entriesOf_named n _ _
    (named_statusBlock L config (attendeesBlock L config ev).1)
  refine ⟨?_, ?_, ?_, ?_, ?_, ?_, ?_, ?_, ?_⟩ <;>
    rw [entriesOf_printed L config ev start stop hs he _ (by decide),
      e1, e2, e3, e4, e5, e6, e7, e8, e9] <;>
    simp

/-! ### Blocks under an overwrite -/

theorem descriptionBlock_overwrite (config : Config) (ev : Event)
    (hh : config.HideFields.Description = false)
    (ho : config.OverwriteFields.Description ≠ []) :
    (descriptionBlock config ev).2 =
      ["DESCRIPTION:".toList ++ toText config.OverwriteFields.Description ++ "\n".toList] := by
  simp [descriptionBlock, hh, ho]

theorem transparencyBlock_overwrite (L : Lib) (config : Config) (ev : Event)
    (hh : config.HideFields.Transparency = false)
    (ho : config.OverwriteFields.Transparency ≠ []) :
    (transparencyBlock L config ev).2 =
      if L.EqualFold config.OverwriteFields.Transparency "TRANSPARENT".toList
      then ["TRANSP:TRANSPARENT\n".toList] else ["TRANSP:OPAQUE\n".toList] := by
  simp [transparencyBlock, hh, ho]

theorem locationBlock_overwrite (config : Config) (ev : Event)
    (hh : config.HideFields.Location = false)
    (ho : config.OverwriteFields.Location ≠ []) :
    (locationBlock config ev).2 =
      ["LOCATION:".toList ++ toText config.OverwriteFields.Location ++ "\n".toList] := by
  simp [locationBlock, hh, ho]

theorem visibilityBlock_overwrite (L : Lib) (config : Config) (ev : Event)
    (hh : config.HideFields.Visibility = false)
    (ho : config.OverwriteFields.Visibility ≠ []) :
    (visibilityBlock L config ev).2 = classLines L config.OverwriteFields.Visibility := by
  simp [visibilityBlock, hh, ho]

theorem conferenceBlock_overwrite (config : Config) (ev : Event)
    (hh : config.HideFields.Conference = false)
    (ho : config.OverwriteFields.Conference ≠ []) :
    conferenceBlock config ev =
      ["X-GOOGLE-CONFERENCE:".toList ++ toText config.OverwriteFields.Conference
        ++ "\n".toList] := by
  simp [conferenceBlock, hh, ho]

theorem organizerBlock_overwrite (config : Config) (ev : Event)
    (hh : config.HideFields.Organizer = false)
    (ho : config.OverwriteFields.Organizer ≠ []) :
    organizerBlock config ev =
      ["ORGANIZER:".toList ++ toText config.OverwriteFields.Organizer ++ "\n".toList] := by
  simp [organizerBlock, hh, ho]

theorem statusBlock_overwrite (L : Lib) (config : Config) (ev : Event)
    (hh : config.HideFields.Status = false)
    (ho : config.OverwriteFields.Status ≠ []) :
    (statusBlock L config ev).2 = statusLines L config.OverwriteFields.Status := by
  simp [statusBlock, hh, ho]

theorem statusBlock_plain (L : Lib) (config : Config) (ev : Event)
    (hh : config.HideFields.Status = false)
    (ho : config.OverwriteFields.Status = []) :
    (statusBlock L config ev).2 = statusLines L ev.Status := by
  simp [statusBlock, hh, ho]

theorem descriptionBlock_snd_congr (config : Config) (e ev : Event)
    (h : e.Description = ev.Description) :
    (descriptionBlock config e).2 = (descriptionBlock config ev).2 := by
  unfold descriptionBlock
  split_ifs <;> simp_all

/-! ### Events on which `writeEvent` behaves alike -/

theorem writeEventTime_congr (L : Lib) (e ev : Event) (w : Writer)
    (hs : e.Start = ev.Start) (he : e.End = ev.End) :
    writeEventTime L e w = writeEventTime L ev w := by
  unfold writeEventTime writeAllDayEventTime
  rw [hs, he]

theorem eventBody_congr (L : Lib) (config : Config) (e ev : Event)
    (h0 : e.Summary = ev.Summary)
    (h1 : (descriptionBlock config e).2 = (descriptionBlock config ev).2)
    (h2 : (transparencyBlock L config e).2 = (transparencyBlock L config ev).2)
    (h3 : (locationBlock config e).2 = (locationBlock config ev).2)
    (h4 : (visibilityBlock L config e).2 = (visibilityBlock L config ev).2)
    (h5 : conferenceBlock config e = conferenceBlock config ev)
    (h6 : organizerBlock config e = organizerBlock config ev)
    (h7 : e.Attendees = ev.Attendees)
    (h8 : (statusBlock L config (attendeesBlock L config e).1).2 =
      (statusBlock L config (attendeesBlock L config ev).1).2)
    (h9 : e.Created = ev.Created) (h10 : e.Updated = ev.Updated) :
    eventBody L config e = eventBody L config ev := by
  rw [eventBody_flat, eventBody_flat, h1, h2, h3, h4, h5, h6, h8,
    attendeesBlock_snd_congr L config e ev h7, timestampsBlock_congr L e ev h9 h10]
  simp [summaryBlock, h0]

theorem writeEvent_congr (L : Lib) (config : Config) (e ev : Event) (w : Writer)
    (hu : e.ICalUID = ev.ICalUID) (hs : e.Start = ev.Start) (he : e.End = ev.End)
    (hb : eventBody L config e = eventBody L config ev) :
    writeEvent L config e w = writeEvent L config ev w := by
  have hu2 : uidBlock config e = uidBlock config ev := by simp [uidBlock, hu]
  simp only [writeEvent, hb, hu2, writeEventTime_congr L e ev _ hs he]

/-! ### The status after the attendees loop -/

theorem loopStatus_none (L : Lib) (config : Config) (as : List (Option EventAttendee))
    (h : lastSelf L config as = none) (s : Str) : loopStatus L config as s = s := by
  induction as generalizing s with
  | nil => rfl
  | cons x rest ih =>
    cases x with
    | none => exact ih h s
    | some b =>
      simp only [lastSelf] at h
      cases hr : lastSelf L config rest with
      | some c => rw [hr] at h; simp at h
      | none =>
        rw [hr] at h
        simp only at h
        simp only [loopStatus]
        split_ifs at h with hb
        by_cases hE : b.Email = []
        · rw [if_pos hE]; exact ih hr s
        · rw [if_neg hE, if_neg (fun hf => hb ⟨hE, hf⟩)]; exact ih hr s

theorem loopStatus_lastSelf (L : Lib) (config : Config) (as : List (Option EventAttendee))
    (a : EventAttendee) (h : lastSelf L config as = some a) (s : Str) :
    loopStatus L config as s = a.ResponseStatus := by
  induction as generalizing s with
  | nil => simp [lastSelf] at h
  | cons x rest ih =>
    cases x with
    | none => exact ih h s
    | some b =>
      simp only [lastSelf] at h
      cases hr : lastSelf L config rest with
      | some c =>
        rw [hr] at h
        simp only [Option.some.injEq] at h
        subst h
        simp only [loopStatus]
        split_ifs <;> exact ih hr _
      | none =>
        rw [hr] at h
        simp only at h
        split_ifs at h with hb
        simp only [Option.some.injEq] at h
        subst h
        simp only [loopStatus]
        rw [if_neg hb.1, if_pos hb.2]
        exact loopStatus_none L config rest hr _

theorem lastSelf_spec (L : Lib) (config : Config) (as : List (Option EventAttendee))
    (a : EventAttendee) (h : lastSelf L config as = some a) :
    some a ∈ as ∧ a.Email ≠ [] ∧ L.EqualFold a.Email config.AccountEmail = true := by
  induction as with
  | nil => simp [lastSelf] at h
  | cons x rest ih =>
    cases x with
    | none =>
      obtain ⟨h1, h2⟩ := ih h
      exact ⟨List.mem_cons_of_mem _ h1, h2⟩
    | some b =>
      simp only [lastSelf] at h
      cases hr : lastSelf L config rest with
      | some c =>
        rw [hr] at h
        simp only [Option.some.injEq] at h
        subst h
        obtain ⟨h1, h2⟩ := ih hr
        exact ⟨List.mem_cons_of_mem _ h1, h2⟩
      | none =>
        rw [hr] at h
        simp only at h
        split_ifs at h with hb
        simp only [Option.some.injEq] at h
        subst h
        exact ⟨List.mem_cons_self _ _, hb⟩

theorem lastSelf_exists (L : Lib) (config : Config) (as : List (Option EventAttendee))
    (h : ∃ a, some a ∈ as ∧ a.Email ≠ [] ∧ L.EqualFold a.Email config.AccountEmail = true) :
    ∃ b, lastSelf L config as = some b := by
  induction as with
  | nil => obtain ⟨a, h1, _⟩ := h; simp at h1
  | cons x rest ih =>
    obtain ⟨a, h1, h2⟩ := h
    cases x with
    | none =>
      simp only [List.mem_cons, reduceCtorEq, false_or] at h1
      exact ih ⟨a, h1, h2⟩
    | some b =>
      simp only [lastSelf]
      cases hr : lastSelf L config rest with
      | some c => exact ⟨c, rfl⟩
      | none =>
        simp only [List.mem_cons, Option.some.injEq] at h1
        rcases h1 with h1 | h1
        · subst h1
          exact ⟨a, by simp [h2]⟩
        · obtain ⟨c, hc⟩ := ih ⟨a, h1, h2⟩
          rw [hr] at hc
          cases hc

/-! ### Paging -/

theorem scanItems_append (name : Str) (a b : List CalendarListEntry) :
    scanItems name (a ++ b) =
      match scanItems name a with
      | some id => some id
      | none => scanItems name b := by
  induction a with
  | nil => simp [scanItems]
  | cons x rest ih =>
    simp only [List.cons_append, scanItems]
    split_ifs <;> simp [ih]

theorem scanItems_eq_firstMatch (name : Str) (items : List CalendarListEntry) :
    scanItems name items = (firstMatch name items).map (fun item => item.Id) := by
  induction items with
  | nil => rfl
  | cons x rest ih =>
    simp only [scanItems, firstMatch, List.find?_cons]
    by_cases hd : x.Deleted = true
    · simp [hd, ih, firstMatch]
    · by_cases hsum : x.Summary = name
      · simp [hd, hsum]
      · simp [hd, hsum, ih, firstMatch]

theorem findCalendarIDLoop_pages (service : Service) (name : Str)
    (pages : List (List CalendarListEntry)) (tok : Str) (fuel : Nat)
    (hp : CalendarPages service tok pages) (hf : pages.length ≤ fuel) :
    findCalendarIDLoop service name fuel tok =
      some (.ok ((scanItems name pages.flatten).getD [])) := by
  induction pages generalizing tok fuel with
  | nil => exact absurd hp (by simp [CalendarPages])
  | cons items rest ih =>
    cases fuel with
    | zero => simp at hf
    | succ fuel =>
      cases rest with
      | nil =>
        simp only [CalendarPages] at hp
        simp only [findCalendarIDLoop, hp, List.flatten_cons, List.flatten_nil, List.append_nil]
        cases scanItems name items <;> simp
      | cons next rest =>
        obtain ⟨t, ht, hcall, hrest⟩ := hp
        have hlen : (next :: rest).length ≤ fuel := by
          simp only [List.length_cons] at hf ⊢; omega
        simp only [findCalendarIDLoop, hcall, List.flatten_cons]
        rw [← List.flatten_cons, scanItems_append]
        cases hscan : scanItems name items with
        | some id => simp
        | none =>
          simp only [if_neg ht]
          exact ih t fuel hrest hlen

theorem writeEventTime_returns (L : Lib) (ev : Event) (start stop : EventDateTime) (w : Writer)
    (hs : ev.Start = some start) (he : ev.End = some stop) :
    ∃ w1 e, writeEventTime L ev w = .returned w1 e := by
  simp only [writeEventTime, writeAllDayEventTime, hs, he]
  split_ifs
  · exact ⟨_, _, rfl⟩
  · split
    · exact ⟨_, _, rfl⟩
    · split <;> exact ⟨_, _, rfl⟩
  · split
    · exact ⟨_, _, rfl⟩
    · split <;> exact ⟨_, _, rfl⟩
  · exact ⟨_, _, rfl⟩

theorem writeEvent_returns (L : Lib) (config : Config) (ev : Event) (start stop : EventDateTime)
    (w : Writer) (hs : ev.Start = some start) (he : ev.End = some stop) :
    ∃ w1 e, writeEvent L config ev w = .returned w1 e := by
  unfold writeEvent
  obtain ⟨w1, e, h⟩ := writeEventTime_returns L ev start stop
    (printAll w (["BEGIN:VEVENT\n".toList] ++ uidBlock config ev)) hs he
  simp only [h]
  cases e <;> exact ⟨_, _, rfl⟩

theorem writeItems_returns (L : Lib) (config : Config) (items : List Event) (w : Writer) :
    ∃ w1 e, writeItems L config items w = .returned w1 e := by
  induction items generalizing w with
  | nil => exact ⟨w, none, rfl⟩
  | cons ev rest ih =>
    by_cases hskip : ev.Id = [] ∨ ev.Summary = [] ∨ ev.Start = none ∨ ev.End = none
    · rw [writeItems, if_pos hskip]; exact ih w
    · rw [writeItems, if_neg hskip]
      simp only [not_or] at hskip
      obtain ⟨start, hs⟩ := Option.ne_none_iff_exists'.mp hskip.2.2.1
      obtain ⟨stop, he⟩ := Option.ne_none_iff_exists'.mp hskip.2.2.2
      obtain ⟨w1, e, h⟩ := writeEvent_returns L config ev start stop w hs he
      rw [h]
      cases e with
      | none => exact ih w1
      | some err => exact ⟨_, _, rfl⟩

theorem writeItems_append (L : Lib) (config : Config) (a b : List Event) (w : Writer) :
    writeItems L config (a ++ b) w =
      match writeItems L config a w with
      | .returned w1 none => writeItems L config b w1
      | r => r := by
  induction a generalizing w with
  | nil => simp [writeItems]
  | cons ev rest ih =>
    by_cases hskip : ev.Id = [] ∨ ev.Summary = [] ∨ ev.Start = none ∨ ev.End = none
    · simp only [List.cons_append, writeItems, if_pos hskip]; exact ih w
    · simp only [List.cons_append, writeItems, if_neg hskip]
      cases hw : writeEvent L config ev w with
      | returned w1 e =>
        cases e with
        | none => exact ih w1
        | some err => rfl
      | panicked => rfl
      | unfinished => rfl

theorem eventsLoop_pages (L : Lib) (service : Service) (calendarID : Str) (config : Config)
    (pages : List (List Event)) (tok : Str) (fuel : Nat) (w : Writer)
    (hp : EventPages service calendarID tok pages) (hf : pages.length ≤ fuel) :
    eventsLoop L service calendarID config fuel tok w = writeItems L config pages.flatten w := by
  induction pages generalizing tok fuel w with
  | nil => exact absurd hp (by simp [EventPages])
  | cons items rest ih =>
    cases fuel with
    | zero => simp at hf
    | succ fuel =>
      obtain ⟨w1, e, hitems⟩ := writeItems_returns L config items w
      cases rest with
      | nil =>
        simp only [EventPages] at hp
        simp only [eventsLoop, hp, List.flatten_cons, List.flatten_nil, List.append_nil, hitems]
        cases e <;> simp
      | cons next rest =>
        obtain ⟨t, ht, hcall, hrest⟩ := hp
        have hlen : (next :: rest).length ≤ fuel := by
          simp only [List.length_cons] at hf ⊢; omega
        simp only [eventsLoop, hcall, List.flatten_cons]
        rw [← List.flatten_cons, writeItems_append, hitems]
        cases e with
        | some err => rfl
        | none =>
          simp only [if_neg ht]
          exact ih t fuel w1 hrest hlen

/-! ### Lines of the text -/

theorem noLF_append (a b : Str) (ha : NoLF a) (hb : NoLF b) : NoLF (a ++ b) := by
  simp only [NoLF, List.mem_append, not_or] at *
  exact ⟨ha, hb⟩

theorem noLF_toText (s : Str) : NoLF (toText s) := by
  induction s with
  | nil => simp [NoLF, toText]
  | cons c cs ih =>
    have h : toText (c :: cs) = escapeChar c ++ toText cs := by
      simp [toText]
    rw [h]
    refine noLF_append _ _ ?_ ih
    unfold escapeChar
    split_ifs with h1 h2 h3 h4
    · simp [NoLF]
    · simp [NoLF]
    · simp [NoLF]
    · simp [NoLF]
    · simp only [NoLF, List.mem_singleton]
      exact fun h => h2 h.symm

theorem splitLines_ne_nil (s : Str) : splitLines s ≠ [] := by
  cases s with
  | nil => simp [splitLines]
  | cons c cs =>
    unfold splitLines
    split_ifs
    · simp
    · split <;> simp

theorem splitLines_lf (a b : Str) (ha : NoLF a) :
    splitLines (a ++ '\n' :: b) = a :: splitLines b := by
  induction a with
  | nil => simp [splitLines]
  | cons c cs ih =>
    have hc : c ≠ '\n' := fun h => ha (by simp [h])
    have hcs : NoLF cs := fun h => ha (List.mem_cons_of_mem _ h)
    rw [List.cons_append, splitLines, if_neg hc, ih hcs]

theorem splitLines_open (a b : Str) (ha : NoLF a) :
    ∃ h t, splitLines b = h :: t ∧ splitLines (a ++ b) = (a ++ h) :: t := by
  induction a with
  | nil =>
    cases hb : splitLines b with
    | nil => exact absurd hb (splitLines_ne_nil b)
    | cons h t => exact ⟨h, t, rfl, by simpa using hb⟩
  | cons c cs ih =>
    have hc : c ≠ '\n' := fun h => ha (by simp [h])
    have hcs : NoLF cs := fun h => ha (List.mem_cons_of_mem _ h)
    obtain ⟨h, t, h1, h2⟩ := ih hcs
    refine ⟨h, t, h1, ?_⟩
    rw [List.cons_append, splitLines, if_neg hc, h2]
    rfl

theorem propertyName_entry (name : Str) (sep : Char) (rest : Str)
    (hsep : sep = ':' ∨ sep = ';')
    (hname : name.all (fun ch => ch != ':' && ch != ';' && ch != '\n') = true) :
    propertyName (name ++ sep :: rest) = name := by
  induction name with
  | nil =>
    rcases hsep with h | h <;> subst h <;> simp [propertyName, List.takeWhile]
  | cons c cs ih =>
    simp only [List.all_cons, Bool.and_eq_true] at hname
    have hc : (c != ':' && c != ';') = true := by
      simp only [Bool.and_eq_true] at hname ⊢
      exact ⟨hname.1.1.1, hname.1.1.2⟩
    have := ih hname.2
    simp only [propertyName] at this ⊢
    rw [List.cons_append, List.takeWhile_cons, if_pos hc, this]

theorem lines_of_entries (chunks : List Str) (h : ∀ c ∈ chunks, Entry c) :
    ∀ l ∈ splitLines chunks.flatten,
      l = [] ∨ ∃ c ∈ chunks, propertyName l = propertyName c := by
  induction chunks with
  | nil =>
    intro l hl
    simp [splitLines] at hl
    exact Or.inl hl
  | cons c cs ih =>
    have ihcs := ih (fun x hx => h x (List.mem_cons_of_mem _ hx))
    obtain ⟨name, sep, rest, hc, hsep, hname, hrest⟩ := h c (List.mem_cons_self _ _)
    have hpc : propertyName c = name := by
      rw [hc]; exact propertyName_entry name sep rest hsep hname
    have hnameLF : NoLF name := by
      intro hmem
      have := List.all_eq_true.mp hname _ hmem
      simp at this
    have hsepLF : sep ≠ '\n' := by
      rcases hsep with h1 | h1 <;> subst h1 <;> decide
    intro l hl
    rw [List.flatten_cons] at hl
    rcases hrest with hopen | ⟨body, hbody, hbodyLF⟩
    · have hcLF : NoLF c := by
        rw [hc]
        refine noLF_append _ _ hnameLF ?_
        intro hmem
        rcases List.mem_cons.mp hmem with h1 | h1
        · exact hsepLF h1.symm
        · exact hopen h1
      obtain ⟨hd, tl, h1, h2⟩ := splitLines_open c cs.flatten hcLF
      rw [h2] at hl
      rcases List.mem_cons.mp hl with hl | hl
      · refine Or.inr ⟨c, List.mem_cons_self _ _, ?_⟩
        rw [hl, hpc, hc, List.append_assoc, List.cons_append]
        exact propertyName_entry name sep _ hsep hname
      · rcases ihcs l (by rw [h1]; exact List.mem_cons_of_mem _ hl) with h3 | ⟨x, hx, h3⟩
        · exact Or.inl h3
        · exact Or.inr ⟨x, List.mem_cons_of_mem _ hx, h3⟩
    · have hsplit : c ++ cs.flatten = (name ++ sep :: body) ++ '\n' :: cs.flatten := by
        rw [hc, hbody]; simp
      have hLF : NoLF (name ++ sep :: body) := by
        refine noLF_append _ _ hnameLF ?_
        intro hmem
        rcases List.mem_cons.mp hmem with h1 | h1
        · exact hsepLF h1.symm
        · exact hbodyLF h1
      rw [hsplit, splitLines_lf _ _ hLF] at hl
      rcases List.mem_cons.mp hl with hl | hl
      · refine Or.inr ⟨c, List.mem_cons_self _ _, ?_⟩
        rw [hl, hpc]
        exact propertyName_entry name sep _ hsep hname
      · rcases ihcs l hl with h3 | ⟨x, hx, h3⟩
        · exact Or.inl h3
        · exact Or.inr ⟨x, List.mem_cons_of_mem _ hx, h3⟩

/-! ### The shape of the strings `writeEvent` prints -/

theorem allEntry_nil : AllEntry [] := by
  intro c hc; cases hc

theorem allEntry_cons (s : Str) (rest : List Str) (h : Entry s) (hr : AllEntry rest) :
    AllEntry (s :: rest) := by
  intro c hc
  rcases List.mem_cons.mp hc with hc | hc
  · subst hc; exact h
  · exact hr c hc

theorem allEntry_append (a b : List Str) (ha : AllEntry a) (hb : AllEntry b) :
    AllEntry (a ++ b) := by
  intro c hc
  rcases List.mem_append.mp hc with h | h
  · exact ha c h
  · exact hb c h

theorem allEntry_ite (c : Prop) [Decidable c] (a b : List Str)
    (ha : AllEntry a) (hb : AllEntry b) : AllEntry (if c then a else b) := by
  split
  · exact ha
  · exact hb

theorem entry_closed (name : Str) (sep : Char) (body : Str)
    (hsep : sep = ':' ∨ sep = ';')
    (hname : name.all (fun ch => ch != ':' && ch != ';' && ch != '\n') = true)
    (hbody : NoLF body) : Entry (name ++ sep :: (body ++ ['\n'])) :=
  ⟨name, sep, _, rfl, hsep, hname, Or.inr ⟨body, rfl, hbody⟩⟩

theorem entry_open (name : Str) (sep : Char) (rest : Str)
    (hsep : sep = ':' ∨ sep = ';')
    (hname : name.all (fun ch => ch != ':' && ch != ';' && ch != '\n') = true)
    (hrest : NoLF rest) : Entry (name ++ sep :: rest) :=
  ⟨name, sep, _, rfl, hsep, hname, Or.inl hrest⟩

theorem noLF_lit_append (a b : Str) (ha : a.all (fun ch => ch != '\n') = true)
    (hb : NoLF b) : NoLF (a ++ b) := by
  refine noLF_append a b ?_ hb
  intro hmem
  have := List.all_eq_true.mp ha _ hmem
  simp at this

theorem noLF_lit (a : Str) (ha : a.all (fun ch => ch != '\n') = true) : NoLF a := by
  intro hmem
  have := List.all_eq_true.mp ha _ hmem
  simp at this

theorem allEntry_uidBlock (config : Config) (ev : Event) (h : NoLF ev.ICalUID) :
    AllEntry (uidBlock config ev) := by
  unfold uidBlock
  exact allEntry_ite _ _ _
    (allEntry_cons _ _ (entry_closed "UID".toList ':' _ (Or.inl rfl) (by decide) h)
      allEntry_nil) allEntry_nil

theorem allEntry_timeLines (L : Lib) (start stop : EventDateTime)
    (hfmt : ∀ t layout, NoLF (L.FormatUTC t layout)) :
    AllEntry (timeLines L start stop) := by
  unfold timeLines
  exact allEntry_ite _ _ _
    (allEntry_ite _ _ _ allEntry_nil
      (allEntry_cons _ _
        (entry_closed "DTSTART".toList ';' _ (Or.inr rfl) (by decide)
          (noLF_lit_append "VALUE=DATE:".toList _ (by decide) (hfmt _ _)))
        (allEntry_cons _ _
          (entry_closed "DTEND".toList ';' _ (Or.inr rfl) (by decide)
            (noLF_lit_append "VALUE=DATE:".toList _ (by decide) (hfmt _ _)))
          allEntry_nil)))
    (allEntry_ite _ _ _
      (allEntry_cons _ _
        (entry_closed "DTSTART".toList ':' _ (Or.inl rfl) (by decide) (hfmt _ _))
        (allEntry_cons _ _
          (entry_closed "DTEND".toList ':' _ (Or.inl rfl) (by decide) (hfmt _ _))
          allEntry_nil))
      allEntry_nil)

theorem allEntry_summaryBlock (ev : Event) : AllEntry (summaryBlock ev) :=
  allEntry_cons _ _
    (entry_closed "SUMMARY".toList ':' _ (Or.inl rfl) (by decide) (noLF_toText _))
    allEntry_nil

theorem allEntry_descriptionBlock (config : Config) (ev : Event) :
    AllEntry (descriptionBlock config ev).2 := by
  by_cases hh : (!config.HideFields.Description) = true
  · rw [descriptionBlock, if_pos hh]
    exact allEntry_ite _ _ _
      (allEntry_cons _ _
        (entry_closed "DESCRIPTION".toList ':' _ (Or.inl rfl) (by decide) (noLF_toText _))
        allEntry_nil) allEntry_nil
  · rw [descriptionBlock, if_neg hh]
    exact allEntry_nil

theorem allEntry_transparencyBlock (L : Lib) (config : Config) (ev : Event) :
    AllEntry (transparencyBlock L config ev).2 := by
  by_cases hh : (!config.HideFields.Transparency) = true
  · rw [transparencyBlock, if_pos hh]
    exact allEntry_ite _ _ _
      (allEntry_cons _ _
        (entry_closed "TRANSP".toList ':' "TRANSPARENT".toList (Or.inl rfl) (by decide)
          (noLF_lit _ (by decide))) allEntry_nil)
      (allEntry_cons _ _
        (entry_closed "TRANSP".toList ':' "OPAQUE".toList (Or.inl rfl) (by decide)
          (noLF_lit _ (by decide))) allEntry_nil)
  · rw [transparencyBlock, if_neg hh]
    exact allEntry_nil

theorem allEntry_locationBlock (config : Config) (ev : Event) :
    AllEntry (locationBlock config ev).2 := by
  by_cases hh : (!config.HideFields.Location) = true
  · rw [locationBlock, if_pos hh]
    exact allEntry_ite _ _ _
      (allEntry_cons _ _
        (entry_closed "LOCATION".toList ':' _ (Or.inl rfl) (by decide) (noLF_toText _))
        allEntry_nil) allEntry_nil
  · rw [locationBlock, if_neg hh]
    exact allEntry_nil

theorem allEntry_classLines (L : Lib) (s : Str) : AllEntry (classLines L s) := by
  unfold classLines
  exact allEntry_ite _ _ _
    (allEntry_cons _ _
      (entry_closed "CLASS".toList ':' _ (Or.inl rfl) (by decide) (noLF_toText _))
      allEntry_nil)
    (allEntry_ite _ _ _
      (allEntry_cons _ _
        (entry_closed "CLASS".toList ':' _ (Or.inl rfl) (by decide) (noLF_toText _))
        allEntry_nil) allEntry_nil)

theorem allEntry_visibilityBlock (L : Lib) (config : Config) (ev : Event) :
    AllEntry (visibilityBlock L config ev).2 := by
  by_cases hh : (!config.HideFields.Visibility) = true
  · rw [visibilityBlock, if_pos hh]
    exact allEntry_classLines L _
  · rw [visibilityBlock, if_neg hh]
    exact allEntry_nil

theorem allEntry_firstEntryPoint (ps : List EntryPoint) : AllEntry (firstEntryPoint ps) := by
  induction ps with
  | nil => exact allEntry_nil
  | cons p rest ih =>
    unfold firstEntryPoint
    exact allEntry_ite _ _ _ ih
      (allEntry_cons _ _
        (entry_closed "X-GOOGLE-CONFERENCE".toList ':' _ (Or.inl rfl) (by decide)
          (noLF_toText _)) allEntry_nil)

theorem allEntry_conferenceBlock (config : Config) (ev : Event) :
    AllEntry (conferenceBlock config ev) := by
  unfold conferenceBlock
  refine allEntry_ite _ _ _ (allEntry_ite _ _ _
    (allEntry_cons _ _
      (entry_closed "X-GOOGLE-CONFERENCE".toList ':' _ (Or.inl rfl) (by decide)
        (noLF_toText _)) allEntry_nil) ?_) allEntry_nil
  cases ev.ConferenceData with
  | none => exact allEntry_nil
  | some data => exact allEntry_ite _ _ _ (allEntry_firstEntryPoint _) allEntry_nil

theorem allEntry_organizerBlock (config : Config) (ev : Event)
    (horg : ∀ o, ev.Organizer = some o → NoLF o.DisplayName ∧ NoLF o.Email) :
    AllEntry (organizerBlock config ev) := by
  unfold organizerBlock
  refine allEntry_ite _ _ _ (allEntry_ite _ _ _
    (allEntry_cons _ _
      (entry_closed "ORGANIZER".toList ':' _ (Or.inl rfl) (by decide) (noLF_toText _))
      allEntry_nil) ?_) allEntry_nil
  cases ho : ev.Organizer with
  | none => exact allEntry_nil
  | some organizer =>
    obtain ⟨h1, h2⟩ := horg organizer ho
    have hdn : NoLF (if organizer.DisplayName = [] then organizer.Email
        else organizer.DisplayName) := by
      split
      · exact h2
      · exact h1
    exact allEntry_ite _ _ _
      (allEntry_cons _ _
        (entry_closed "ORGANIZER".toList ':'
          ("CN=".toList ++ (if organizer.DisplayName = [] then organizer.Email
            else organizer.DisplayName) ++ ":mailto:".toList ++ organizer.Email)
          (Or.inl rfl) (by decide)
          (noLF_append _ _
            (noLF_append _ _ (noLF_lit_append "CN=".toList _ (by decide) hdn)
              (noLF_lit _ (by decide))) h2))
        allEntry_nil) allEntry_nil

theorem noLF_partStatOf (s : Str) : NoLF (partStatOf s) := by
  unfold partStatOf
  split_ifs <;> simp [NoLF]

theorem entry_attendeeLine (a : EventAttendee) (h1 : NoLF a.DisplayName) (h2 : NoLF a.Email) :
    Entry (attendeeLine a) := by
  have hdn : NoLF (if a.DisplayName = [] then a.Email else a.DisplayName) := by
    split
    · exact h2
    · exact h1
  have hrole : NoLF (if a.Optional = true then "OPT-PARTICIPANT".toList
      else "REQ-PARTICIPANT".toList) := by
    split <;> simp [NoLF]
  exact entry_open "ATTENDEE".toList ';'
    ("ROLE=".toList ++ (if a.Optional = true then "OPT-PARTICIPANT".toList
      else "REQ-PARTICIPANT".toList) ++ ";PARTSTAT=".toList ++ partStatOf a.ResponseStatus
      ++ ";CN=".toList ++ (if a.DisplayName = [] then a.Email else a.DisplayName)
      ++ ":mailto:".toList ++ a.Email)
    (Or.inr rfl) (by decide)
    (noLF_append _ _
      (noLF_append _ _
        (noLF_append _ _
          (noLF_append _ _
            (noLF_append _ _
              (noLF_append _ _ (noLF_lit_append "ROLE=".toList _ (by decide) hrole)
                (noLF_lit _ (by decide)))
              (noLF_partStatOf _))
            (noLF_lit _ (by decide)))
          hdn)
        (noLF_lit _ (by decide)))
      h2)

theorem allEntry_attendeeLines (as : List (Option EventAttendee))
    (hatt : ∀ a, some a ∈ as → NoLF a.DisplayName ∧ NoLF a.Email) :
    AllEntry (attendeeLines as) := by
  induction as with
  | nil => exact allEntry_nil
  | cons x rest ih =>
    have ihr := ih (fun a ha => hatt a (List.mem_cons_of_mem _ ha))
    cases x with
    | none => exact ihr
    | some a =>
      unfold attendeeLines
      obtain ⟨h1, h2⟩ := hatt a (List.mem_cons_self _ _)
      exact allEntry_ite _ _ _ ihr (allEntry_cons _ _ (entry_attendeeLine a h1 h2) ihr)

theorem allEntry_attendeesBlock (L : Lib) (config : Config) (ev : Event)
    (hatt : ∀ a, some a ∈ ev.Attendees → NoLF a.DisplayName ∧ NoLF a.Email) :
    AllEntry (attendeesBlock L config ev).2 := by
  rw [attendeesBlock_eq]
  split
  · exact allEntry_attendeeLines _ hatt
  · exact allEntry_nil

theorem allEntry_statusLines (L : Lib) (s : Str) : AllEntry (statusLines L s) := by
  unfold statusLines
  exact allEntry_ite _ _ _
    (allEntry_cons _ _
      (entry_closed "STATUS".toList ':' "TENTATIVE".toList (Or.inl rfl) (by decide)
        (noLF_lit _ (by decide))) allEntry_nil)
    (allEntry_ite _ _ _
      (allEntry_cons _ _
        (entry_closed "STATUS".toList ':' "CANCELLED".toList (Or.inl rfl) (by decide)
          (noLF_lit _ (by decide))) allEntry_nil)
      (allEntry_ite _ _ _
        (allEntry_cons _ _
          (entry_closed "STATUS".toList ':' "CONFIRMED".toList (Or.inl rfl) (by decide)
            (noLF_lit _ (by decide))) allEntry_nil)
        allEntry_nil))

theorem allEntry_statusBlock (L : Lib) (config : Config) (ev : Event) :
    AllEntry (statusBlock L config ev).2 := by
  by_cases hh : (!config.HideFields.Status) = true
  · rw [statusBlock, if_pos hh]
    exact allEntry_statusLines L _
  · rw [statusBlock, if_neg hh]
    exact allEntry_nil

theorem allEntry_timestampsBlock (L : Lib) (ev : Event)
    (hfmt : ∀ t layout, NoLF (L.FormatUTC t layout)) :
    AllEntry (timestampsBlock L ev) := by
  unfold timestampsBlock
  apply allEntry_append
  · cases L.Parse RFC3339 ev.Created with
    | none => exact allEntry_nil
    | some t =>
      exact allEntry_cons _ _
        (entry_closed "DTSTAMP".toList ':' _ (Or.inl rfl) (by decide) (hfmt _ _))
        (allEntry_cons _ _
          (entry_closed "CREATED".toList ':' _ (Or.inl rfl) (by decide) (hfmt _ _))
          allEntry_nil)
  · cases L.Parse RFC3339 ev.Updated with
    | none => exact allEntry_nil
    | some t =>
      exact allEntry_cons _ _
        (entry_closed "LAST-MODIFIED".toList ':' _ (Or.inl rfl) (by decide) (hfmt _ _))
        allEntry_nil

theorem allEntry_printed (L : Lib) (config : Config) (ev : Event)
    (start stop : EventDateTime) (hs : ev.Start = some start) (he : ev.End = some stop)
    (hfmt : ∀ t layout, NoLF (L.FormatUTC t layout))
    (huid : NoLF ev.ICalUID)
    (horg : ∀ o, ev.Organizer = some o → NoLF o.DisplayName ∧ NoLF o.Email)
    (hatt : ∀ a, some a ∈ ev.Attendees → NoLF a.DisplayName ∧ NoLF a.Email) :
    AllEntry (printed L config ev) := by
  rw [printed_eq L config ev start stop hs he, eventBody_flat]
  refine allEntry_append _ _ (allEntry_append _ _ (allEntry_append _ _
    (allEntry_cons _ _
      (entry_closed "BEGIN".toList ':' "VEVENT".toList (Or.inl rfl) (by decide)
        (noLF_lit _ (by decide))) allEntry_nil)
    (allEntry_uidBlock config ev huid)) (allEntry_timeLines L start stop hfmt)) ?_
  refine allEntry_append _ _ (allEntry_append _ _ (allEntry_append _ _ (allEntry_append _ _
    (allEntry_append _ _ (allEntry_append _ _ (allEntry_append _ _ (allEntry_append _ _
    (allEntry_append _ _ (allEntry_append _ _ (allEntry_summaryBlock ev)
      (allEntry_descriptionBlock config ev))
      (allEntry_transparencyBlock L config ev))
      (allEntry_locationBlock config ev))
      (allEntry_visibilityBlock L config ev))
      (allEntry_conferenceBlock config ev))
      (allEntry_organizerBlock config ev horg))
      (allEntry_attendeesBlock L config ev hatt))
      (allEntry_statusBlock L config _))
      (allEntry_timestampsBlock L ev hfmt))
    (allEntry_cons _ _
      (entry_closed "END".toList ':' "VEVENT".toList (Or.inl rfl) (by decide)
        (noLF_lit _ (by decide))) allEntry_nil)

/-- When neither the library's time formatting nor the event's UID, organizer
and attendee names and emails contain a line feed, every non-empty line of the
text `writeEvent` produces carries the property name of one of the printed
entries; so no line of a hidden field's property occurs in it. -/
theorem hidden_no_line (L : Lib) (config : Config) (ev : Event)
    (start stop : EventDateTime) (hs : ev.Start = some start) (he : ev.End = some stop)
    (hfmt : ∀ t layout, NoLF (L.FormatUTC t layout))
    (huid : NoLF ev.ICalUID)
    (horg : ∀ o, ev.Organizer = some o → NoLF o.DisplayName ∧ NoLF o.Email)
    (hatt : ∀ a, some a ∈ ev.Attendees → NoLF a.DisplayName ∧ NoLF a.Email)
    (name : Str) (hname : name ≠ [])
    (hnone : entriesOf name (printed L config ev) = []) :
    ∀ l ∈ splitLines (rendered L config ev), propertyName l ≠ name := by
  intro l hl heq
  rcases lines_of_entries (printed L config ev)
      (allEntry_printed L config ev start stop hs he hfmt huid horg hatt) l hl with h | ⟨c, hc, h⟩
  · subst h
    exact hname (by simpa [propertyName] using heq.symm)
  · have hmem : c ∈ entriesOf name (printed L config ev) := by
      simp only [entriesOf, List.mem_filter, decide_eq_true_eq]
      exact ⟨hc, h ▸ heq⟩
    rw [hnone] at hmem
    cases hmem

/-! ### Independence of the source value of an overwritten field -/

theorem writeEvent_description_overwritten (L : Lib) (config : Config) (ev : Event)
    (hh : config.HideFields.Description = false)
    (ho : config.OverwriteFields.Description ≠ []) (v : Str) (w : Writer) :
    writeEvent L config { ev with Description := v } w = writeEvent L config ev w :=
  writeEvent_congr L config _ ev w rfl rfl rfl
    (eventBody_congr L config _ ev rfl
      (by rw [descriptionBlock_overwrite config _ hh ho, descriptionBlock_overwrite config _ hh ho])
      (transparencyBlock_snd_congr L config _ ev rfl)
      (locationBlock_snd_congr config _ ev rfl)
      (visibilityBlock_snd_congr L config _ ev rfl)
      (conferenceBlock_congr config _ ev rfl)
      (organizerBlock_congr config _ ev rfl) rfl
      (statusBlock_snd_congr L config _ _ (attendeesBlock_status_congr L config _ ev rfl rfl))
      rfl rfl)

theorem writeEvent_transparency_overwritten (L : Lib) (config : Config) (ev : Event)
    (hh : config.HideFields.Transparency = false)
    (ho : config.OverwriteFields.Transparency ≠ []) (v : Str) (w : Writer) :
    writeEvent L config { ev with Transparency := v } w = writeEvent L config ev w :=
  writeEvent_congr L config _ ev w rfl rfl rfl
    (eventBody_congr L config _ ev rfl
      (descriptionBlock_snd_congr config _ ev rfl)
      (by rw [transparencyBlock_overwrite L config _ hh ho,
        transparencyBlock_overwrite L config _ hh ho])
      (locationBlock_snd_congr config _ ev rfl)
      (visibilityBlock_snd_congr L config _ ev rfl)
      (conferenceBlock_congr config _ ev rfl)
      (organizerBlock_congr config _ ev rfl) rfl
      (statusBlock_snd_congr L config _ _ (attendeesBlock_status_congr L config _ ev rfl rfl))
      rfl rfl)

theorem writeEvent_location_overwritten (L : Lib) (config : Config) (ev : Event)
    (hh : config.HideFields.Location = false)
    (ho : config.OverwriteFields.Location ≠ []) (v : Str) (w : Writer) :
    writeEvent L config { ev with Location := v } w = writeEvent L config ev w :=
  writeEvent_congr L config _ ev w rfl rfl rfl
    (eventBody_congr L config _ ev rfl
      (descriptionBlock_snd_congr config _ ev rfl)
      (transparencyBlock_snd_congr L config _ ev rfl)
      (by rw [locationBlock_overwrite config _ hh ho, locationBlock_overwrite config _ hh ho])
      (visibilityBlock_snd_congr L config _ ev rfl)
      (conferenceBlock_congr config _ ev rfl)
      (organizerBlock_congr config _ ev rfl) rfl
      (statusBlock_snd_congr L config _ _ (attendeesBlock_status_congr L config _ ev rfl rfl))
      rfl rfl)

theorem writeEvent_visibility_overwritten (L : Lib) (config : Config) (ev : Event)
    (hh : config.HideFields.Visibility = false)
    (ho : config.OverwriteFields.Visibility ≠ []) (v : Str) (w : Writer) :
    writeEvent L config { ev with Visibility := v } w = writeEvent L config ev w :=
  writeEvent_congr L config _ ev w rfl rfl rfl
    (eventBody_congr L config _ ev rfl
      (descriptionBlock_snd_congr config _ ev rfl)
      (transparencyBlock_snd_congr L config _ ev rfl)
      (locationBlock_snd_congr config _ ev rfl)
      (by rw [visibilityBlock_overwrite L config _ hh ho,
        visibilityBlock_overwrite L config _ hh ho])
      (conferenceBlock_congr config _ ev rfl)
      (organizerBlock_congr config _ ev rfl) rfl
      (statusBlock_snd_congr L config _ _ (attendeesBlock_status_congr L config _ ev rfl rfl))
      rfl rfl)

theorem writeEvent_conference_overwritten (L : Lib) (config : Config) (ev : Event)
    (hh : config.HideFields.Conference = false)
    (ho : config.OverwriteFields.Conference ≠ []) (v : Option ConferenceData) (w : Writer) :
    writeEvent L config { ev with ConferenceData := v } w = writeEvent L config ev w :=
  writeEvent_congr L config _ ev w rfl rfl rfl
    (eventBody_congr L config _ ev rfl
      (descriptionBlock_snd_congr config _ ev rfl)
      (transparencyBlock_snd_congr L config _ ev rfl)
      (locationBlock_snd_congr config _ ev rfl)
      (visibilityBlock_snd_congr L config _ ev rfl)
      (by rw [conferenceBlock_overwrite config _ hh ho, conferenceBlock_overwrite config _ hh ho])
      (organizerBlock_congr config _ ev rfl) rfl
      (statusBlock_snd_congr L config _ _ (attendeesBlock_status_congr L config _ ev rfl rfl))
      rfl rfl)

theorem writeEvent_organizer_overwritten (L : Lib) (config : Config) (ev : Event)
    (hh : config.HideFields.Organizer = false)
    (ho : config.OverwriteFields.Organizer ≠ []) (v : Option EventOrganizer) (w : Writer) :
    writeEvent L config { ev with Organizer := v } w = writeEvent L config ev w :=
  writeEvent_congr L config _ ev w rfl rfl rfl
    (eventBody_congr L config _ ev rfl
      (descriptionBlock_snd_congr config _ ev rfl)
      (transparencyBlock_snd_congr L config _ ev rfl)
      (locationBlock_snd_congr config _ ev rfl)
      (visibilityBlock_snd_congr L config _ ev rfl)
      (conferenceBlock_congr config _ ev rfl)
      (by rw [organizerBlock_overwrite config _ hh ho, organizerBlock_overwrite config _ hh ho])
      rfl
      (statusBlock_snd_congr L config _ _ (attendeesBlock_status_congr L config _ ev rfl rfl))
      rfl rfl)

theorem writeEvent_status_replaced (L : Lib) (config : Config) (ev : Event)
    (h : ∀ v, (statusBlock L config (attendeesBlock L config { ev with Status := v }).1).2 =
      (statusBlock L config (attendeesBlock L config ev).1).2) (v : Str) (w : Writer) :
    writeEvent L config { ev with Status := v } w = writeEvent L config ev w :=
  writeEvent_congr L config _ ev w rfl rfl rfl
    (eventBody_congr L config _ ev rfl
      (descriptionBlock_snd_congr config _ ev rfl)
      (transparencyBlock_snd_congr L config _ ev rfl)
      (locationBlock_snd_congr config _ ev rfl)
      (visibilityBlock_snd_congr L config _ ev rfl)
      (conferenceBlock_congr config _ ev rfl)
      (organizerBlock_congr config _ ev rfl) rfl (h v) rfl rfl)

theorem writeEvent_status_overwritten (L : Lib) (config : Config) (ev : Event)
    (hh : config.HideFields.Status = false)
    (ho : config.OverwriteFields.Status ≠ []) (v : Str) (w : Writer) :
    writeEvent L config { ev with Status := v } w = writeEvent L config ev w :=
  writeEvent_status_replaced L config ev
    (fun _ => by rw [statusBlock_overwrite L config _ hh ho,
      statusBlock_overwrite L config _ hh ho]) v w

theorem attendeesBlock_status_self (L : Lib) (config : Config) (ev : Event)
    (a : EventAttendee) (hatt : config.HideFields.Attendees = false)
    (hself : lastSelf L config ev.Attendees = some a) :
    (attendeesBlock L config ev).1.Status = a.ResponseStatus := by
  rw [attendeesBlock_eq]
  simp [hatt, loopStatus_lastSelf L config ev.Attendees a hself]

theorem toText_public : toText "PUBLIC".toList = "PUBLIC".toList := by decide

theorem toText_private : toText "PRIVATE".toList = "PRIVATE".toList := by decide

/-- While a field is hidden, `writeEvent` prints no entry of the field's property. -/
theorem hidden_prints_no_entry (L : Lib) (config : Config) (ev : Event)
    (start stop : EventDateTime) (hs : ev.Start = some start) (he : ev.End = some stop) :
    (config.HideFields.UID = true → entriesOf "UID".toList (printed L config ev) = []) ∧
    (config.HideFields.Description = true →
      entriesOf "DESCRIPTION".toList (printed L config ev) = []) ∧
    (config.HideFields.Transparency = true →
      entriesOf "TRANSP".toList (printed L config ev) = []) ∧
    (config.HideFields.Location = true →
      entriesOf "LOCATION".toList (printed L config ev) = []) ∧
    (config.HideFields.Visibility = true →
      entriesOf "CLASS".toList (printed L config ev) = []) ∧
    (config.HideFields.Conference = true →
      entriesOf "X-GOOGLE-CONFERENCE".toList (printed L config ev) = []) ∧
    (config.HideFields.Organizer = true →
      entriesOf "ORGANIZER".toList (printed L config ev) = []) ∧
    (config.HideFields.Attendees = true →
      entriesOf "ATTENDEE".toList (printed L config ev) = []) ∧
    (config.HideFields.Status = true →
      entriesOf "STATUS".toList (printed L config ev) = []) := by
  obtain ⟨h1, h2, h3, h4, h5, h6, h7, h8, h9⟩ :=
    entries_by_property L config ev start stop hs he
  refine ⟨fun h => ?_, fun h => ?_, fun h => ?_, fun h => ?_, fun h => ?_, fun h => ?_,
    fun h => ?_, fun h => ?_, fun h => ?_⟩
  · rw [h1]; simp [uidBlock, h]
  · rw [h2]; simp [descriptionBlock, h]
  · rw [h3]; simp [transparencyBlock, h]
  · rw [h4]; simp [locationBlock, h]
  · rw [h5]; simp [visibilityBlock, h]
  · rw [h6]; simp [conferenceBlock, h]
  · rw [h7]; simp [organizerBlock, h]
  · rw [h8]; simp [attendeesBlock, h]
  · rw [h9]; simp [statusBlock, h]

/-- While a field is hidden, no line of the text `writeEvent` produces carries
the field's property name, provided that neither the library's time formatting
nor the event's UID, organizer and attendee names and emails contain a line
feed. -/
theorem hidden_field_no_line (L : Lib) (config : Config) (ev : Event)
    (start stop : EventDateTime) (hs : ev.Start = some start) (he : ev.End = some stop)
    (hfmt : ∀ t layout, NoLF (L.FormatUTC t layout))
    (huid : NoLF ev.ICalUID)
    (horg : ∀ o, ev.Organizer = some o → NoLF o.DisplayName ∧ NoLF o.Email)
    (hatt : ∀ a, some a ∈ ev.Attendees → NoLF a.DisplayName ∧ NoLF a.Email) :
    (config.HideFields.UID = true →
      ∀ l ∈ splitLines (rendered L config ev), propertyName l ≠ "UID".toList) ∧
    (config.HideFields.Description = true →
      ∀ l ∈ splitLines (rendered L config ev), propertyName l ≠ "DESCRIPTION".toList) ∧
    (config.HideFields.Transparency = true →
      ∀ l ∈ splitLines (rendered L config ev), propertyName l ≠ "TRANSP".toList) ∧
    (config.HideFields.Location = true →
      ∀ l ∈ splitLines (rendered L config ev), propertyName l ≠ "LOCATION".toList) ∧
    (config.HideFields.Visibility = true →
      ∀ l ∈ splitLines (rendered L config ev), propertyName l ≠ "CLASS".toList) ∧
    (config.HideFields.Conference = true →
      ∀ l ∈ splitLines (rendered L config ev),
        propertyName l ≠ "X-GOOGLE-CONFERENCE".toList) ∧
    (config.HideFields.Organizer = true →
      ∀ l ∈ splitLines (rendered L config ev), propertyName l ≠ "ORGANIZER".toList) ∧
    (config.HideFields.Attendees = true →
      ∀ l ∈ splitLines (rendered L config ev), propertyName l ≠ "ATTENDEE".toList) ∧
    (config.HideFields.Status = true →
      ∀ l ∈ splitLines (rendered L config ev), propertyName l ≠ "STATUS".toList) := by
  obtain ⟨h1, h2, h3, h4, h5, h6, h7, h8, h9⟩ :=
    hidden_prints_no_entry L config ev start stop hs he
  have key := hidden_no_line L config ev start stop hs he hfmt huid horg hatt
  exact ⟨fun h => key _ (by decide) (h1 h), fun h => key _ (by decide) (h2 h),
    fun h => key _ (by decide) (h3 h), fun h => key _ (by decide) (h4 h),
    fun h => key _ (by decide) (h5 h), fun h => key _ (by decide) (h6 h),
    fun h => key _ (by decide) (h7 h), fun h => key _ (by decide) (h8 h),
    fun h => key _ (by decide) (h9 h)⟩

/-! ## The claims -/

/-- C4 (evaluation at the failing input): the policy hides the location, yet
for an event whose organizer display name contains a line feed the text that
`writeEvent` produces has a line of the LOCATION property. -/
theorem hidden_location_line_from_organizer :
    hideLocationConfig.HideFields.Location = true ∧
    "LOCATION:Elsewhere:mailto:eve@example.org".toList ∈
      splitLines (rendered demoLib hideLocationConfig lineFeedEvent) ∧
    propertyName "LOCATION:Elsewhere:mailto:eve@example.org".toList = "LOCATION".toList := by
  decide

/-- C5 (counterexample): with the visibility overwritten by `confidential` and
not hidden, `writeEvent` prints no CLASS entry at all, and the overwrite value
occurs nowhere in the text it produces. -/
theorem overwrite_visibility_not_carried :
    confidentialConfig.HideFields.Visibility = false ∧
    confidentialConfig.OverwriteFields.Visibility = "confidential".toList ∧
    entriesOf "CLASS".toList (printed demoLib confidentialConfig baseEvent) = [] ∧
    containsStr "confidential".toList (rendered demoLib confidentialConfig baseEvent) = false := by
  decide

/-- C5 (amended): for an event with both endpoints, each field with a non-empty
overwrite value that is not hidden is printed from the overwrite value, and
what `writeEvent` does is the same whatever the event's source value of that
field is. Description, Location, Conference and Organizer print one entry
holding the escaped overwrite value; Transparency prints TRANSPARENT or OPAQUE
as the overwrite value folds to `TRANSPARENT` or not; Visibility and Status
print an entry only when the upper-cased overwrite value is one of the
recognized values. -/
theorem overwrite_replaces_source (L : Lib) (config : Config) (ev : Event)
    (start stop : EventDateTime) (hs : ev.Start = some start) (he : ev.End = some stop) :
    (config.HideFields.Description = false → config.OverwriteFields.Description ≠ [] →
      entriesOf "DESCRIPTION".toList (printed L config ev) =
        ["DESCRIPTION:".toList ++ toText config.OverwriteFields.Description ++ "\n".toList] ∧
      ∀ v w, writeEvent L config { ev with Description := v } w = writeEvent L config ev w) ∧
    (config.HideFields.Location = false → config.OverwriteFields.Location ≠ [] →
      entriesOf "LOCATION".toList (printed L config ev) =
        ["LOCATION:".toList ++ toText config.OverwriteFields.Location ++ "\n".toList] ∧
      ∀ v w, writeEvent L config { ev with Location := v } w = writeEvent L config ev w) ∧
    (config.HideFields.Transparency = false → config.OverwriteFields.Transparency ≠ [] →
      entriesOf "TRANSP".toList (printed L config ev) =
        (if L.EqualFold config.OverwriteFields.Transparency "TRANSPARENT".toList
          then ["TRANSP:TRANSPARENT\n".toList] else ["TRANSP:OPAQUE\n".toList]) ∧
      ∀ v w, writeEvent L config { ev with Transparency := v } w = writeEvent L config ev w) ∧
    (config.HideFields.Visibility = false → config.OverwriteFields.Visibility ≠ [] →
      entriesOf "CLASS".toList (printed L config ev) =
        (if L.ToUpper config.OverwriteFields.Visibility = "PUBLIC".toList
          then ["CLASS:PUBLIC\n".toList]
          else if L.ToUpper config.OverwriteFields.Visibility = "PRIVATE".toList
          then ["CLASS:PRIVATE\n".toList] else []) ∧
      ∀ v w, writeEvent L config { ev with Visibility := v } w = writeEvent L config ev w) ∧
    (config.HideFields.Conference = false → config.OverwriteFields.Conference ≠ [] →
      entriesOf "X-GOOGLE-CONFERENCE".toList (printed L config ev) =
        ["X-GOOGLE-CONFERENCE:".toList ++ toText config.OverwriteFields.Conference
          ++ "\n".toList] ∧
      ∀ v w, writeEvent L config { ev with ConferenceData := v } w = writeEvent L config ev w) ∧
    (config.HideFields.Organizer = false → config.OverwriteFields.Organizer ≠ [] →
      entriesOf "ORGANIZER".toList (printed L config ev) =
        ["ORGANIZER:".toList ++ toText config.OverwriteFields.Organizer ++ "\n".toList] ∧
      ∀ v w, writeEvent L config { ev with Organizer := v } w = writeEvent L config ev w) ∧
    (config.HideFields.Status = false → config.OverwriteFields.Status ≠ [] →
      entriesOf "STATUS".toList (printed L config ev) =
        (if L.ToUpper config.OverwriteFields.Status = "TENTATIVE".toList
          then ["STATUS:TENTATIVE\n".toList]
          else if L.ToUpper config.OverwriteFields.Status = "CANCELLED".toList
          then ["STATUS:CANCELLED\n".toList]
          else if L.ToUpper config.OverwriteFields.Status = "CONFIRMED".toList
          then ["STATUS:CONFIRMED\n".toList] else []) ∧
      ∀ v w, writeEvent L config { ev with Status := v } w = writeEvent L config ev w) := by
  obtain ⟨_, h2, h3, h4, h5, h6, h7, _, h9⟩ :=
    entries_by_property L config ev start stop hs he
  refine ⟨fun hh ho => ⟨?_, writeEvent_description_overwritten L config ev hh ho⟩,
    fun hh ho => ⟨?_, writeEvent_location_overwritten L config ev hh ho⟩,
    fun hh ho => ⟨?_, writeEvent_transparency_overwritten L config ev hh ho⟩,
    fun hh ho => ⟨?_, writeEvent_visibility_overwritten L config ev hh ho⟩,
    fun hh ho => ⟨?_, writeEvent_conference_overwritten L config ev hh ho⟩,
    fun hh ho => ⟨?_, writeEvent_organizer_overwritten L config ev hh ho⟩,
    fun hh ho => ⟨?_, writeEvent_status_overwritten L config ev hh ho⟩⟩
  · rw [h2, descriptionBlock_overwrite config ev hh ho]
  · rw [h4, locationBlock_overwrite config ev hh ho]
  · rw [h3, transparencyBlock_overwrite L config ev hh ho]
  · rw [h5, visibilityBlock_overwrite L config ev hh ho, classLines, toText_public,
      toText_private]
    rfl
  · rw [h6, conferenceBlock_overwrite config ev hh ho]
  · rw [h7, organizerBlock_overwrite config ev hh ho]
  · rw [h9, statusBlock_overwrite L config _ hh ho, statusLines]

/-- C5 (witness): the policy that overwrites all seven fields, on the sample event. -/
theorem overwrite_replaces_source_witness :
    entriesOf "LOCATION".toList (printed demoLib overwriteAllConfig baseEvent) =
      ["LOCATION:Remote\n".toList] ∧
    entriesOf "CLASS".toList (printed demoLib overwriteAllConfig baseEvent) =
      ["CLASS:PUBLIC\n".toList] ∧
    entriesOf "STATUS".toList (printed demoLib overwriteAllConfig baseEvent) =
      ["STATUS:CANCELLED\n".toList] ∧
    writeEvent demoLib overwriteAllConfig { baseEvent with Location := "Room B".toList }
      Writer.fresh = writeEvent demoLib overwriteAllConfig baseEvent Writer.fresh := by
  have h := overwrite_replaces_source demoLib overwriteAllConfig baseEvent _ _ rfl rfl
  refine ⟨?_, ?_, ?_, ?_⟩
  · exact (h.2.1 (by decide) (by decide)).1
  · exact (h.2.2.2.1 (by decide) (by decide)).1
  · exact (h.2.2.2.2.2.2 (by decide) (by decide)).1
  · exact (h.2.1 (by decide) (by decide)).2 _ _

/-- C6 (counterexample): the sample event has an attendee whose email is the
account email up to case, with response `tentative`; the status is not hidden
and not overwritten, but the attendees are hidden, and `writeEvent` prints the
event's own status `confirmed`. -/
theorem hidden_attendees_keep_event_status :
    hideAttendeesConfig.HideFields.Status = false ∧
    hideAttendeesConfig.OverwriteFields.Status = [] ∧
    lastSelf demoLib hideAttendeesConfig baseEvent.Attendees =
      some ⟨"Me".toList, "Me@Example.org".toList, false, "tentative".toList⟩ ∧
    baseEvent.Status = "confirmed".toList ∧
    entriesOf "STATUS".toList (printed demoLib hideAttendeesConfig baseEvent) =
      ["STATUS:CONFIRMED\n".toList] := by
  decide

/-- C6 (amended): for an event with both endpoints that has an attendee with a
non-empty email equal to the account email under `strings.EqualFold`, with
neither Status nor Attendees hidden: when no status overwrite is configured the
STATUS entry is the one the status switch yields for the response status of the
last such attendee, when `OverwriteFields.Status` is non-empty it is the one the
switch yields for the overwrite, and in both cases `writeEvent` does the same
whatever the event's own status is. -/
theorem self_attendee_status (L : Lib) (config : Config) (ev : Event)
    (start stop : EventDateTime) (hs : ev.Start = some start) (he : ev.End = some stop)
    (hstatus : config.HideFields.Status = false)
    (hatt : config.HideFields.Attendees = false)
    (hself : ∃ a, some a ∈ ev.Attendees ∧ a.Email ≠ [] ∧
      L.EqualFold a.Email config.AccountEmail = true) :
    ∃ a, lastSelf L config ev.Attendees = some a ∧ some a ∈ ev.Attendees ∧
      L.EqualFold a.Email config.AccountEmail = true ∧
      (config.OverwriteFields.Status = [] →
        entriesOf "STATUS".toList (printed L config ev) = statusLines L a.ResponseStatus) ∧
      (config.OverwriteFields.Status ≠ [] →
        entriesOf "STATUS".toList (printed L config ev) =
          statusLines L config.OverwriteFields.Status) ∧
      ∀ v w, writeEvent L config { ev with Status := v } w = writeEvent L config ev w := by
  obtain ⟨a, ha⟩ := lastSelf_exists L config ev.Attendees hself
  obtain ⟨hmem, _, hfold⟩ := lastSelf_spec L config ev.Attendees a ha
  have h9 := (entries_by_property L config ev start stop hs he).2.2.2.2.2.2.2.2
  refine ⟨a, ha, hmem, hfold, fun ho => ?_, fun ho => ?_, fun v w => ?_⟩
  · rw [h9, statusBlock_plain L config _ hstatus ho,
      attendeesBlock_status_self L config ev a hatt ha]
  · rw [h9, statusBlock_overwrite L config _ hstatus ho]
  · refine writeEvent_status_replaced L config ev (fun v => ?_) v w
    exact statusBlock_snd_congr L config _ _
      ((attendeesBlock_status_self L config { ev with Status := v } a hatt ha).trans
        (attendeesBlock_status_self L config ev a hatt ha).symm)

/-- C6 (witness): the sample event under the policy that hides nothing. -/
theorem self_attendee_status_witness :
    ∃ a, lastSelf demoLib baseConfig baseEvent.Attendees = some a ∧
      some a ∈ baseEvent.Attendees ∧
      demoLib.EqualFold a.Email baseConfig.AccountEmail = true ∧
      (baseConfig.OverwriteFields.Status = [] →
        entriesOf "STATUS".toList (printed demoLib baseConfig baseEvent) =
          statusLines demoLib a.ResponseStatus) ∧
      (baseConfig.OverwriteFields.Status ≠ [] →
        entriesOf "STATUS".toList (printed demoLib baseConfig baseEvent) =
          statusLines demoLib baseConfig.OverwriteFields.Status) ∧
      ∀ v w, writeEvent demoLib baseConfig { baseEvent with Status := v } w =
        writeEvent demoLib baseConfig baseEvent w :=
  self_attendee_status demoLib baseConfig baseEvent _ _ rfl rfl (by decide) (by decide)
    ⟨⟨"Me".toList, "Me@Example.org".toList, false, "tentative".toList⟩, by decide, by decide,
      by decide⟩

/-- C7 (counterexample): an event whose start carries a time of day and whose
end carries only a date is given neither form: `writeEventTime` returns nil
without writing anything. -/
theorem mixed_endpoints_write_nothing :
    (∃ start stop, mixedEvent.Start = some start ∧ mixedEvent.End = some stop ∧
      start.DateTime ≠ [] ∧ stop.Date ≠ []) ∧
    (writeEventTime demoLib mixedEvent Writer.fresh).written = [] := by
  refine ⟨⟨_, _, rfl, rfl, by decide, by decide⟩, by decide⟩

/-- C7 (amended): on a writer that never fails `writeEventTime` returns nil, and
what it has written is decided as follows. If `Start.Date` and `End.Date` are
both non-empty: the all-day pair `DTSTART;VALUE=DATE`, `DTEND;VALUE=DATE` when
both dates parse to an instant other than the zero instant, and nothing
otherwise. If one of the two dates is empty: the timed pair `DTSTART`, `DTEND`
when both `DateTime` values parse as RFC 3339 to an instant other than the zero
instant, and nothing otherwise. -/
theorem writeEventTime_forms (L : Lib) (ev : Event) (start stop : EventDateTime) (w : Writer)
    (hs : ev.Start = some start) (he : ev.End = some stop) (hw : w.Reliable) :
    ∃ w1, writeEventTime L ev w = .returned w1 none ∧
      (start.Date ≠ [] ∧ stop.Date ≠ [] →
        ((parseOrZero L googleDateFormat start.Date).IsZero = false ∧
          (parseOrZero L googleDateFormat stop.Date).IsZero = false →
          w1.written = w.written ++
            [ "DTSTART;VALUE=DATE:".toList
                ++ L.FormatUTC (parseOrZero L googleDateFormat start.Date) icalDateFormatUtc
                ++ "\n".toList,
              "DTEND;VALUE=DATE:".toList
                ++ L.FormatUTC (parseOrZero L googleDateFormat stop.Date) icalDateFormatUtc
                ++ "\n".toList ]) ∧
        ((parseOrZero L googleDateFormat start.Date).IsZero = true ∨
          (parseOrZero L googleDateFormat stop.Date).IsZero = true →
          w1.written = w.written)) ∧
      (¬ (start.Date ≠ [] ∧ stop.Date ≠ []) →
        ((parseOrZero L RFC3339 start.DateTime).IsZero = false ∧
          (parseOrZero L RFC3339 stop.DateTime).IsZero = false →
          w1.written = w.written ++
            [ "DTSTART:".toList
                ++ L.FormatUTC (parseOrZero L RFC3339 start.DateTime) icalTimestampFormatUtc
                ++ "\n".toList,
              "DTEND:".toList
                ++ L.FormatUTC (parseOrZero L RFC3339 stop.DateTime) icalTimestampFormatUtc
                ++ "\n".toList ]) ∧
        ((parseOrZero L RFC3339 start.DateTime).IsZero = true ∨
          (parseOrZero L RFC3339 stop.DateTime).IsZero = true →
          w1.written = w.written)) := by
  by_cases hd : start.Date ≠ [] ∧ stop.Date ≠ []
  · by_cases hz : (parseOrZero L googleDateFormat start.Date).IsZero = true ∨
        (parseOrZero L googleDateFormat stop.Date).IsZero = true
    · refine ⟨w, ?_, fun _ => ⟨fun hn => ?_, fun _ => rfl⟩, fun hnd => absurd hd hnd⟩
      · rw [writeEventTime_allDay L ev start stop w hs he hd,
          writeAllDayEventTime_skip L ev start stop w hs he hz]
      · rcases hz with hz | hz
        · rw [hn.1] at hz; cases hz
        · rw [hn.2] at hz; cases hz
    · have hz1 : (parseOrZero L googleDateFormat start.Date).IsZero = false := by
        simpa using fun h => hz (Or.inl h)
      have hz2 : (parseOrZero L googleDateFormat stop.Date).IsZero = false := by
        simpa using fun h => hz (Or.inr h)
      have hemit := writeAllDayEventTime_emit L ev start stop w hs he hw hz1 hz2
      rw [← writeEventTime_allDay L ev start stop w hs he hd] at hemit
      refine ⟨_, hemit, fun _ => ⟨fun _ => ?_, fun hz3 => absurd hz3 hz⟩,
        fun hnd => absurd hd hnd⟩
      rw [printAll_written w hw]
  · by_cases hz : (parseOrZero L RFC3339 start.DateTime).IsZero = true ∨
        (parseOrZero L RFC3339 stop.DateTime).IsZero = true
    · refine ⟨w, ?_, fun hd2 => absurd hd2 hd, fun _ => ⟨fun hn => ?_, fun _ => rfl⟩⟩
      · exact writeEventTime_timed_skip L ev start stop w hs he hd hz
      · rcases hz with hz | hz
        · rw [hn.1] at hz; cases hz
        · rw [hn.2] at hz; cases hz
    · have hz1 : (parseOrZero L RFC3339 start.DateTime).IsZero = false := by
        simpa using fun h => hz (Or.inl h)
      have hz2 : (parseOrZero L RFC3339 stop.DateTime).IsZero = false := by
        simpa using fun h => hz (Or.inr h)
      refine ⟨_, writeEventTime_timed_emit L ev start stop w hs he hw hd hz1 hz2,
        fun hd2 => absurd hd2 hd, fun _ => ⟨fun _ => ?_, fun hz3 => absurd hz3 hz⟩⟩
      rw [printAll_written w hw]

/-- C7 (witness): the all-day sample event is written as the all-day pair. -/
theorem writeEventTime_forms_witness :
    (writeEventTime demoLib allDayEvent Writer.fresh).written =
      ["DTSTART;VALUE=DATE:20240304\n".toList, "DTEND;VALUE=DATE:20240305\n".toList] := by
  obtain ⟨w1, h1, h2, _⟩ := writeEventTime_forms demoLib allDayEvent _ _ Writer.fresh
    rfl rfl fresh_reliable
  rw [h1]
  exact (h2 (by decide)).1 (by decide)

theorem rendered_remoteEvent (uid : Str) (first second : EventAttendee) :
    rendered demoLib remoteConfig (remoteEvent uid first second) =
      rendered demoLib remoteConfig baseEvent := rfl

/-- C8: when the calendar listing and the event listing are delivered in
finitely many pages, each page but the last carrying a non-empty next-page
token, `findCalendarID` returns, and returns the identifier it returns when
all the items come in one page in the same order; the paging loop of
`writeEvents` returns, with the same writer state (the same strings written in
the same order) and the same error value as on the single page. -/
theorem paging_equals_single_page (L : Lib) (service single : Service) (config : Config)
    (calendarName calendarID : Str) (calendars : List (List CalendarListEntry))
    (events : List (List Event)) (fuel : Nat)
    (hc : CalendarPages service [] calendars)
    (hc1 : CalendarPages single [] [calendars.flatten])
    (he : EventPages service calendarID [] events)
    (he1 : EventPages single calendarID [] [events.flatten])
    (hfc : calendars.length ≤ fuel) (hfe : events.length ≤ fuel) :
    (∃ id, findCalendarID fuel service calendarName = some (.ok id) ∧
      findCalendarID 1 single calendarName = some (.ok id)) ∧
    ∀ w, ∃ w1 err, eventsLoop L service calendarID config fuel [] w = .returned w1 err ∧
      eventsLoop L single calendarID config 1 [] w = .returned w1 err := by
  constructor
  · refine ⟨_, findCalendarIDLoop_pages service calendarName calendars [] fuel hc hfc, ?_⟩
    have h := findCalendarIDLoop_pages single calendarName [calendars.flatten] [] 1 hc1
      (by simp)
    simpa [findCalendarID] using h
  · intro w
    obtain ⟨w1, err, h⟩ := writeItems_returns L config events.flatten w
    refine ⟨w1, err, ?_, ?_⟩
    · rw [eventsLoop_pages L service calendarID config events [] fuel w he hfe, h]
    · rw [eventsLoop_pages L single calendarID config [events.flatten] [] 1 w he1 (by simp)]
      simpa using h

/-- C8 (witness): the sample service with two pages against the one with a single page. -/
theorem paging_equals_single_page_witness :
    (∃ id, findCalendarID 2 pagedService "Work".toList = some (.ok id) ∧
      findCalendarID 1 singleService "Work".toList = some (.ok id)) ∧
    ∀ w, ∃ w1 err,
      eventsLoop demoLib pagedService "id-work".toList baseConfig 2 [] w = .returned w1 err ∧
      eventsLoop demoLib singleService "id-work".toList baseConfig 1 [] w = .returned w1 err :=
  paging_equals_single_page demoLib pagedService singleService baseConfig "Work".toList
    "id-work".toList [[homeLive, workDeleted], [workLive]] [[baseEvent], [secondEvent]] 2
    ⟨"p2".toList, by decide, rfl, rfl⟩ rfl ⟨"e2".toList, by decide, rfl, rfl⟩ rfl
    (by decide) (by decide)

/-- C9: when the calendar list comes in finitely many pages, `findCalendarID`
returns the identifier of the first item, in provider order over all pages,
that is not deleted and whose summary is exactly the calendar name; when there
is no such item it returns the empty identifier, and `Export` (with the format
`ics` and a calendar service) returns the error `no such calendar`. In
particular, of two entries of that name, one of them deleted, the identifier of
the one that is not deleted is returned, in either order. -/
theorem findCalendarID_first_live_match (L : Lib) (service : Service) (config : Config)
    (calendars : List (List CalendarListEntry)) (fuel : Nat) (w : Writer)
    (hc : CalendarPages service [] calendars) (hf : calendars.length ≤ fuel) :
    findCalendarID fuel service config.CalendarName =
      some (.ok (match firstMatch config.CalendarName calendars.flatten with
        | some item => item.Id
        | none => [])) ∧
    (firstMatch config.CalendarName calendars.flatten = none →
      findCalendarID fuel service config.CalendarName = some (.ok []) ∧
      (config.Format = "ics".toList →
        Export L fuel (some config) (.ok service) w =
          .returned w
            (some ("no such calendar `".toList ++ config.CalendarName ++ "'".toList)))) ∧
    (∀ deleted live : CalendarListEntry,
      deleted.Deleted = true → live.Deleted = false →
      deleted.Summary = config.CalendarName → live.Summary = config.CalendarName →
      (calendars.flatten = [deleted, live] ∨ calendars.flatten = [live, deleted]) →
      findCalendarID fuel service config.CalendarName = some (.ok live.Id)) := by
  have key : findCalendarID fuel service config.CalendarName =
      some (.ok (match firstMatch config.CalendarName calendars.flatten with
        | some item => item.Id
        | none => [])) := by
    rw [findCalendarID, findCalendarIDLoop_pages service _ calendars [] fuel hc hf,
      scanItems_eq_firstMatch]
    cases firstMatch config.CalendarName calendars.flatten <;> rfl
  refine ⟨key, fun hnone => ?_, fun deleted live hd hl hsd hsl hitems => ?_⟩
  · have hid : findCalendarID fuel service config.CalendarName = some (.ok []) := by
      rw [key, hnone]
    refine ⟨hid, fun hfmt => ?_⟩
    simp [Export, hfmt, hid]
  · rw [key]
    rcases hitems with h | h <;> rw [h] <;> simp [firstMatch, hd, hl, hsd, hsl]

/-- C9 (witness): the sample service lists a deleted and a live calendar named
`Work` on different pages. -/
theorem findCalendarID_first_live_match_witness :
    findCalendarID 2 pagedService "Work".toList = some (.ok "id-work".toList) :=
  (findCalendarID_first_live_match demoLib pagedService baseConfig
    [[homeLive, workDeleted], [workLive]] 2 Writer.fresh
    ⟨"p2".toList, by decide, rfl, rfl⟩ (by decide)).1

/-- The end-to-end example evaluated: for the policy that hides UID and
attendees and overwrites the location with `Remote`, and the sample event with
any UID, any two attendees and the location `Room A`, the text `writeEvent`
produces has no UID line, no ATTENDEE line, exactly one line
`LOCATION:Remote`, and no line containing `Room A`. -/
theorem remote_example (uid : Str) (first second : EventAttendee) :
    (∀ l ∈ splitLines (rendered demoLib remoteConfig (remoteEvent uid first second)),
      propertyName l ≠ "UID".toList) ∧
    (∀ l ∈ splitLines (rendered demoLib remoteConfig (remoteEvent uid first second)),
      propertyName l ≠ "ATTENDEE".toList) ∧
    (splitLines (rendered demoLib remoteConfig (remoteEvent uid first second))).count
      "LOCATION:Remote".toList = 1 ∧
    (∀ l ∈ splitLines (rendered demoLib remoteConfig (remoteEvent uid first second)),
      containsStr "Room A".toList l = false) ∧
    (remoteEvent uid first second).Location = "Room A".toList := by
  rw [rendered_remoteEvent uid first second]
  exact ⟨by decide, by decide, by decide, by decide, rfl⟩

end Gti

end GcalToIcs

namespace GcalToIcs

namespace Serve

/-! ## Part 3: the authorization callback -/

theorem authHandler_skips (E : AuthEnv) (now : Instant) (r : Request) (m : StateMap)
    (h : ¬ r.reachesLookup) :
    (authHandler E now r m).1 = m ∧
    ∃ body, (authHandler E now r m).2 = (.plain statusUnauthorized body, []) := by
  unfold Request.reachesLookup at h
  unfold authHandler
  by_cases h1 : r.state = ""
  · simp [h1]
  · by_cases h2 : r.errorParam ≠ ""
    · simp [h1, h2]
    · have h3 : r.code = "" := by
        by_contra hc
        exact h ⟨h1, not_not.mp h2, hc⟩
      simp [h1, not_not.mp h2, h3]

theorem authHandler_map (E : AuthEnv) (now : Instant) (r : Request) (m : StateMap)
    (h : r.reachesLookup) :
    (authHandler E now r m).1 = (m.loadAndDelete r.state).2 := by
  obtain ⟨h1, h2, h3⟩ := h
  simp only [authHandler, h1, h2, h3, if_false, ne_eq, not_true_eq_false, StateMap.loadAndDelete]
  cases m r.state with
  | none => rfl
  | some entry =>
    simp only
    split_ifs
    · rfl
    · cases E.exchange entry.oauthConfig (E.trimSpace r.code) with
      | none => rfl
      | some tkn =>
        simp only
        split_ifs
        · rfl
        · cases E.writeTokenFile E.cryptSecret
            (E.joinPath E.tokenDir (E.hashAccount entry.accountEmail)) tkn <;> rfl

theorem authHandler_absent (E : AuthEnv) (now : Instant) (r : Request) (m : StateMap)
    (habsent : m r.state = none) (h : r.reachesLookup) :
    (authHandler E now r m).2 = (.plain statusUnauthorized "state mismatch", []) := by
  obtain ⟨h1, h2, h3⟩ := h
  simp [authHandler, h1, h2, h3, StateMap.loadAndDelete, habsent]

theorem authHandler_absent_plain (E : AuthEnv) (now : Instant) (r : Request) (m : StateMap)
    (habsent : m r.state = none) :
    (authHandler E now r m).2.1.isRedirect = false := by
  by_cases h : r.reachesLookup
  · rw [authHandler_absent E now r m habsent h]; rfl
  · obtain ⟨body, hb⟩ := (authHandler_skips E now r m h).2
    rw [hb]; rfl

theorem loadAndDelete_absent (m : StateMap) (key : String) :
    (m.loadAndDelete key).2 key = none := by
  simp [StateMap.loadAndDelete]

theorem authHandler_expired (E : AuthEnv) (now : Instant) (r : Request) (m : StateMap)
    (entry : StateEntry) (hentry : m r.state = some entry) (hlate : entry.validUntil < now)
    (h : r.reachesLookup) :
    (authHandler E now r m).2 = (.plain statusUnauthorized "expired", []) := by
  obtain ⟨h1, h2, h3⟩ := h
  simp [authHandler, h1, h2, h3, StateMap.loadAndDelete, hentry, hlate]

theorem parkRequest_entry (E : AuthEnv) (now : Instant) (state : String) (r : Request)
    (oauthConfig : OauthConfig) (accountEmail : String) (m : StateMap) :
    (parkRequest E now state r oauthConfig accountEmail m).1 state =
      some ⟨r.requestURI, oauthConfig, accountEmail, now + fiveMinutes⟩ := by
  simp [parkRequest, StateMap.store]

theorem authHandler_skips_answer (E : AuthEnv) (now : Instant) (r : Request) (m : StateMap)
    (h : ¬ r.reachesLookup) :
    (authHandler E now r m).2 =
      (.plain statusUnauthorized
        (if r.state = "" then "state mismatch"
          else if r.errorParam ≠ "" then "error: " ++ r.errorParam
          else "code is missing"), []) := by
  unfold Request.reachesLookup at h
  unfold authHandler
  by_cases h1 : r.state = ""
  · simp [h1]
  · by_cases h2 : r.errorParam ≠ ""
    · simp [h1, h2]
    · have h3 : r.code = "" := by
        by_contra hc
        exact h ⟨h1, not_not.mp h2, hc⟩
      simp [h1, not_not.mp h2, h3]

/-- C12 (counterexample): on the sample pending map two callbacks present the
valid state token `S1`, one with a code and one with an error parameter. When
the one with the code is handled first it is redirected, and the other is
answered `error: access_denied`; when the one with the error parameter is
handled first it is answered `error: access_denied`, and the other is
redirected. In neither order is a callback answered `state mismatch`. -/
theorem second_callback_not_state_mismatch :
    goodCallback.state = deniedCallback.state ∧
    (demoPending goodCallback.state).isSome = true ∧
    (authHandler demoAuthEnv 500 goodCallback demoPending).2.1.isRedirect = true ∧
    (authHandler demoAuthEnv 600 deniedCallback
      (authHandler demoAuthEnv 500 goodCallback demoPending).1).2.1 =
      .plain statusUnauthorized "error: access_denied" ∧
    (authHandler demoAuthEnv 500 deniedCallback demoPending).2.1 =
      .plain statusUnauthorized "error: access_denied" ∧
    (authHandler demoAuthEnv 600 goodCallback
      (authHandler demoAuthEnv 500 deniedCallback demoPending).1).2.1.isRedirect = true := by
  decide

/-- C12 (amended): of two callbacks with the same state token, handled one
after the other from any pending map (each takes its entry in the single step
`LoadAndDelete`), at most one ends with the redirect to the original target.
When both carry a code and no error parameter, so that both reach
`LoadAndDelete`, the second is answered unauthorized with `state mismatch` and
makes no call. A callback without a code or with an error parameter is
answered unauthorized with `code is missing` or with `error: ` and the
parameter, not with `state mismatch`, and makes no call, whether it is handled
first or second; handled first it leaves the map as it is, so that the second
callback is handled as on the original map. The two callbacks are arbitrary,
so the statement covers both orders. -/
theorem state_token_single_use (E1 E2 : AuthEnv) (now1 now2 : Instant) (r1 r2 : Request)
    (m : StateMap) (hsame : r1.state = r2.state) :
    ¬ ((authHandler E1 now1 r1 m).2.1.isRedirect = true ∧
      (authHandler E2 now2 r2 (authHandler E1 now1 r1 m).1).2.1.isRedirect = true) ∧
    (r1.reachesLookup → r2.reachesLookup →
      (authHandler E2 now2 r2 (authHandler E1 now1 r1 m).1).2 =
        (.plain statusUnauthorized "state mismatch", [])) ∧
    (¬ r2.reachesLookup →
      (authHandler E2 now2 r2 (authHandler E1 now1 r1 m).1).2 =
        (.plain statusUnauthorized
          (if r2.state = "" then "state mismatch"
            else if r2.errorParam ≠ "" then "error: " ++ r2.errorParam
            else "code is missing"), [])) ∧
    (¬ r1.reachesLookup →
      (authHandler E1 now1 r1 m).2 =
        (.plain statusUnauthorized
          (if r1.state = "" then "state mismatch"
            else if r1.errorParam ≠ "" then "error: " ++ r1.errorParam
            else "code is missing"), []) ∧
      authHandler E2 now2 r2 (authHandler E1 now1 r1 m).1 = authHandler E2 now2 r2 m) := by
  have habs : r1.reachesLookup → (authHandler E1 now1 r1 m).1 r2.state = none := by
    intro h
    rw [authHandler_map E1 now1 r1 m h, ← hsame]
    exact loadAndDelete_absent m r1.state
  refine ⟨?_, fun h1 h2 => authHandler_absent E2 now2 r2 _ (habs h1) h2,
    fun h2 => authHandler_skips_answer E2 now2 r2 _ h2,
    fun h1 => ⟨authHandler_skips_answer E1 now1 r1 m h1, ?_⟩⟩
  · rintro ⟨hfirst, hsecond⟩
    by_cases h : r1.reachesLookup
    · rw [authHandler_absent_plain E2 now2 r2 _ (habs h)] at hsecond
      cases hsecond
    · obtain ⟨body, hb⟩ := (authHandler_skips E1 now1 r1 m h).2
      rw [hb] at hfirst
      cases hfirst
  · rw [(authHandler_skips E1 now1 r1 m h1).1]

/-- C12 (witness): the same callback twice on the sample pending map; the
first is redirected to the original target, the second gets `state mismatch`. -/
theorem state_token_single_use_witness :
    (authHandler demoAuthEnv 500 goodCallback demoPending).2.1 =
      .redirect "/work.ics" statusTemporaryRedirect "authorized, you can close this window." ∧
    (authHandler demoAuthEnv 600 goodCallback
      (authHandler demoAuthEnv 500 goodCallback demoPending).1).2 =
      (.plain statusUnauthorized "state mismatch", []) :=
  ⟨by decide,
    (state_token_single_use demoAuthEnv demoAuthEnv 500 600 goodCallback goodCallback
      demoPending rfl).2.1 ⟨by decide, rfl, by decide⟩ ⟨by decide, rfl, by decide⟩⟩

/-- C13: a callback that presents the state token of a pending entry at an
instant later than the entry's `validUntil` is answered unauthorized, without
a code exchange and without a token write, whatever its other parameters are;
it is never redirected. When it carries a code and no error parameter the
answer is `expired` and the entry is gone from the map. -/
theorem expired_entry_rejected (E : AuthEnv) (now : Instant) (r : Request) (m : StateMap)
    (entry : StateEntry) (hentry : m r.state = some entry)
    (hlate : entry.validUntil < now) :
    (∃ body, (authHandler E now r m).2 = (.plain statusUnauthorized body, [])) ∧
    (authHandler E now r m).2.1.isRedirect = false ∧
    (r.reachesLookup →
      (authHandler E now r m).2 = (.plain statusUnauthorized "expired", []) ∧
      (authHandler E now r m).1 r.state = none) := by
  have key : ∃ body, (authHandler E now r m).2 = (.plain statusUnauthorized body, []) := by
    by_cases h : r.reachesLookup
    · exact ⟨_, authHandler_expired E now r m entry hentry hlate h⟩
    · exact (authHandler_skips E now r m h).2
  refine ⟨key, ?_, fun h => ⟨authHandler_expired E now r m entry hentry hlate h, ?_⟩⟩
  · obtain ⟨body, hb⟩ := key
    rw [hb]; rfl
  · rw [authHandler_map E now r m h]
    exact loadAndDelete_absent m r.state

/-- C13 (witness): a request parked at the instant 0 under the state token
`S1`, and the callback with the code `good` one nanosecond after the five
minutes have passed. -/
theorem expired_entry_rejected_witness :
    (authHandler demoAuthEnv (fiveMinutes + 1) goodCallback
      (parkRequest demoAuthEnv 0 "S1" ⟨"", "", "", "/work.ics"⟩ demoOauthConfig
        "me@example.org" StateMap.empty).1).2 =
      (.plain statusUnauthorized "expired", []) :=
  ((expired_entry_rejected demoAuthEnv (fiveMinutes + 1) goodCallback
    (parkRequest demoAuthEnv 0 "S1" ⟨"", "", "", "/work.ics"⟩ demoOauthConfig
      "me@example.org" StateMap.empty).1
    ⟨"/work.ics", demoOauthConfig, "me@example.org", 0 + fiveMinutes⟩
    (parkRequest_entry demoAuthEnv 0 "S1" _ demoOauthConfig "me@example.org" StateMap.empty)
    (by decide)).2.2 ⟨by decide, rfl, by decide⟩).1

/-- C14 (counterexample): on the sample pending map the callback with the
state token `S1` and an error parameter is answered unauthorized, and so is the
one without a code, but the entry stays in the map; a later callback with the
same state token and a code is redirected to the original target. -/
theorem denied_callback_keeps_entry :
    (authHandler demoAuthEnv 500 deniedCallback demoPending).2 =
      (.plain statusUnauthorized "error: access_denied", []) ∧
    ((authHandler demoAuthEnv 500 deniedCallback demoPending).1 "S1").isSome = true ∧
    (authHandler demoAuthEnv 500 codelessCallback demoPending).2 =
      (.plain statusUnauthorized "code is missing", []) ∧
    ((authHandler demoAuthEnv 500 codelessCallback demoPending).1 "S1").isSome = true ∧
    (authHandler demoAuthEnv 600 goodCallback
      (authHandler demoAuthEnv 500 deniedCallback demoPending).1).2.1 =
      .redirect "/work.ics" statusTemporaryRedirect
        "authorized, you can close this window." := by
  decide

/-- C14 (amended): a callback that carries a state, a code and no error
parameter removes the entry of its state token from the pending map whatever
the outcome is (no entry, expired, failed exchange, invalid token, failed
write, success) and leaves the other entries alone, so that no later callback
with the same state token is redirected; a callback without state, with an
error parameter or without code is answered unauthorized, makes no call and
leaves the map as it is. -/
theorem callback_consumes_entry (E : AuthEnv) (now : Instant) (r : Request) (m : StateMap) :
    (r.reachesLookup →
      (∀ k, (authHandler E now r m).1 k = if k = r.state then none else m k) ∧
      ∀ (E2 : AuthEnv) (now2 : Instant) (r2 : Request), r2.state = r.state →
        (authHandler E2 now2 r2 (authHandler E now r m).1).2.1.isRedirect = false) ∧
    (¬ r.reachesLookup →
      (authHandler E now r m).1 = m ∧
      ∃ body, (authHandler E now r m).2 = (.plain statusUnauthorized body, [])) := by
  refine ⟨fun h => ⟨fun k => ?_, fun E2 now2 r2 hs => ?_⟩, authHandler_skips E now r m⟩
  · rw [authHandler_map E now r m h]
    rfl
  · apply authHandler_absent_plain
    rw [authHandler_map E now r m h, hs]
    exact loadAndDelete_absent m r.state

end Serve

end GcalToIcs

namespace GcalToIcs

namespace Gti

set_option maxRecDepth 20000

/-! ## Part 2, continued: escaping, header, event loop, attendees -/

theorem toText_cons (c : Char) (s : Str) : toText (c :: s) = escapeChar c ++ toText s := by
  simp [toText]

theorem toText_append (s t : Str) : toText (s ++ t) = toText s ++ toText t := by
  simp [toText]

theorem escapeChar_length (c : Char) :
    (escapeChar c).length = 1 + (if isSpecial c = true then 1 else 0) := by
  unfold escapeChar isSpecial
  split_ifs <;> simp_all

theorem toText_length (s : Str) : (toText s).length = s.length + s.countP isSpecial := by
  induction s with
  | nil => rfl
  | cons c cs ih =>
    rw [toText_cons, List.length_append, ih, escapeChar_length, List.countP_cons,
      List.length_cons]
    split_ifs <;> omega

theorem unescape_escapeChar (c : Char) (t : Str) (ht : t = [] ∨ ∃ d r, t = d :: r) :
    unescape (escapeChar c ++ t) = c :: unescape t := by
  unfold escapeChar
  split_ifs with h1 h2 h3 h4
  · subst h1; simp [unescape]
  · subst h2; simp [unescape]
  · subst h3; simp [unescape]
  · subst h4; simp [unescape]
  · rcases ht with ht | ⟨d, r, ht⟩
    · subst ht; simp [unescape]
    · subst ht; simp [unescape, h1]

theorem unescape_toText (s : Str) : unescape (toText s) = s := by
  induction s with
  | nil => rfl
  | cons c cs ih =>
    rw [toText_cons, unescape_escapeChar c (toText cs), ih]
    cases toText cs with
    | nil => exact Or.inl rfl
    | cons d r => exact Or.inr ⟨d, r, rfl⟩

/-- C11: `toText` is the left-to-right concatenation, over the characters of
its argument, of backslash-backslash for a backslash, backslash-`n` for a line
feed, backslash-semicolon for a semicolon, backslash-comma for a comma and the
character itself otherwise. The replacement is a single pass: every escaped
character adds exactly one character, the result has no raw line feed, and
`toText` is injective. -/
theorem toText_escapes :
    (∀ s, toText s = (s.map (fun c =>
      if c = '\\' then ['\\', '\\']
      else if c = '\n' then ['\\', 'n']
      else if c = ';' then ['\\', ';']
      else if c = ',' then ['\\', ',']
      else [c])).flatten) ∧
    (∀ s t, toText (s ++ t) = toText s ++ toText t) ∧
    (∀ s, (toText s).length = s.length + s.countP isSpecial) ∧
    toText "\\\n;,x".toList = "\\\\\\n\\;\\,x".toList ∧
    (∀ s, '\n' ∉ toText s) ∧
    Function.Injective toText := by
  refine ⟨fun s => ?_, toText_append, toText_length, by decide, noLF_toText, fun a b h => ?_⟩
  · induction s with
    | nil => rfl
    | cons c cs ih => rw [toText_cons, ih]; rfl
  · rw [← unescape_toText a, ← unescape_toText b, h]

/-! ### Header and trailer on a writer that never fails -/

theorem writeLines_reliable (lines : List Str) (w : Writer) (hw : w.Reliable) :
    writeLines lines w = (printAll w (lines.map (fun s => s ++ "\n".toList)), none) := by
  induction lines generalizing w with
  | nil => rfl
  | cons s rest ih =>
    rw [writeLines, write_reliable w hw]
    simp only
    rw [ih _ (printAll_reliable w hw _), List.map_cons, ← printAll_append]
    rfl

theorem writeHeader_reliable (config : Config) (cal : Calendar) (w : Writer)
    (hw : w.Reliable) :
    writeHeader config cal w =
      (printAll w ((headerLines config cal).map (fun s => s ++ "\n".toList)
        ++ (if config.OverwriteFields.CalendarName ≠ []
          then ["X-WR-CALNAME:".toList ++ cal.Summary ++ "\n".toList] else [])), none) := by
  rw [writeHeader, writeLines_reliable _ w hw]
  simp only
  split_ifs with h
  · rw [write_reliable _ (printAll_reliable w hw _)]
    simp only [printAll_append]
  · simp

/-- C15 (evaluation at the failing input): the policy overwrites the calendar
name with `Team` and the provider's name of the calendar is `Work`;
`writeHeader` writes the header `X-WR-CALNAME:Work`, and the overwrite value
`Team` occurs nowhere in what it writes. -/
theorem calname_header_carries_fetched_name :
    teamNameConfig.OverwriteFields.CalendarName = "Team".toList ∧
    workCalendar.Summary = "Work".toList ∧
    "X-WR-CALNAME:Work\n".toList ∈ writtenOf (writeHeader teamNameConfig workCalendar Writer.fresh) ∧
    "X-WR-CALNAME:Team\n".toList ∉ writtenOf (writeHeader teamNameConfig workCalendar Writer.fresh) ∧
    containsStr "Team".toList
      (writtenOf (writeHeader teamNameConfig workCalendar Writer.fresh)).flatten = false := by
  decide

/-- C16 (evaluation at the failing input): on a writer whose seventh call
fails, the call that writes `BEGIN:VEVENT` of the first event (the header takes
six calls), `writeEvents` goes on and returns nil; the text lacks that line,
with one `BEGIN:VEVENT` for two `END:VEVENT`. -/
theorem failed_write_is_ignored :
    (failingAt 6).failure 6 ≠ none ∧
    (writeEvents demoLib 2 pagedService "id-work".toList baseConfig (failingAt 6)).succeeded
      = true ∧
    (writeEvents demoLib 2 pagedService "id-work".toList baseConfig
      (failingAt 6)).written.count "BEGIN:VEVENT\n".toList = 1 ∧
    (writeEvents demoLib 2 pagedService "id-work".toList baseConfig
      (failingAt 6)).written.count "END:VEVENT\n".toList = 2 := by
  decide

/-! ### The loop over the events of a page -/

theorem isRetained_iff (ev : Event) :
    isRetained ev = true ↔
      ¬ (ev.Id = [] ∨ ev.Summary = [] ∨ ev.Start = none ∨ ev.End = none) := by
  simp only [isRetained, decide_eq_true_eq, not_or, ne_eq]

theorem writeItems_skip (L : Lib) (config : Config) (ev : Event) (rest : List Event)
    (w : Writer) (h : isRetained ev = false) :
    writeItems L config (ev :: rest) w = writeItems L config rest w := by
  have hskip : ev.Id = [] ∨ ev.Summary = [] ∨ ev.Start = none ∨ ev.End = none := by
    by_contra hc
    rw [(isRetained_iff ev).mpr hc] at h
    cases h
  rw [writeItems, if_pos hskip]

theorem writeItems_filter (L : Lib) (config : Config) (items : List Event) (w : Writer) :
    writeItems L config items w = writeItems L config (items.filter isRetained) w := by
  induction items generalizing w with
  | nil => rfl
  | cons ev rest ih =>
    cases hr : isRetained ev with
    | false =>
      rw [writeItems_skip L config ev rest w hr, List.filter_cons_of_neg (by simp [hr])]
      exact ih w
    | true =>
      have hkeep := (isRetained_iff ev).mp hr
      rw [List.filter_cons_of_pos hr, writeItems, if_neg hkeep, writeItems, if_neg hkeep]
      cases writeEvent L config ev w with
      | returned w1 e =>
        cases e with
        | none => exact ih w1
        | some err => rfl
      | panicked => rfl
      | unfinished => rfl

theorem isRetained_endpoints (ev : Event) (h : isRetained ev = true) :
    ∃ start stop, ev.Start = some start ∧ ev.End = some stop := by
  have hk := (isRetained_iff ev).mp h
  simp only [not_or] at hk
  obtain ⟨start, hs⟩ := Option.ne_none_iff_exists'.mp hk.2.2.1
  obtain ⟨stop, he⟩ := Option.ne_none_iff_exists'.mp hk.2.2.2
  exact ⟨start, stop, hs, he⟩

theorem writeEvent_printed (L : Lib) (config : Config) (ev : Event) (w : Writer)
    (h : isRetained ev = true) (hw : w.Reliable) :
    writeEvent L config ev w = .returned (printAll w (printed L config ev)) none := by
  obtain ⟨start, stop, hs, he⟩ := isRetained_endpoints ev h
  rw [writeEvent_reliable L config ev start stop w hs he hw,
    printed_eq L config ev start stop hs he]

theorem writeItems_reliable (L : Lib) (config : Config) (items : List Event) (w : Writer)
    (hw : w.Reliable) :
    writeItems L config items w =
      .returned (printAll w ((items.filter isRetained).flatMap (printed L config))) none := by
  induction items generalizing w with
  | nil => rfl
  | cons ev rest ih =>
    cases hr : isRetained ev with
    | false =>
      rw [writeItems_skip L config ev rest w hr, List.filter_cons_of_neg (by simp [hr])]
      exact ih w hw
    | true =>
      have hkeep := (isRetained_iff ev).mp hr
      rw [List.filter_cons_of_pos hr, writeItems, if_neg hkeep,
        writeEvent_printed L config ev w hr hw]
      simp only
      rw [ih _ (printAll_reliable w hw _), List.flatMap_cons, printAll_append]

theorem getLast?_append_some (a b : List Str) (x : Str) (h : b.getLast? = some x) :
    (a ++ b).getLast? = some x := by
  rw [List.getLast?_append, h]
  rfl

theorem eventBody_getLast (L : Lib) (config : Config) (ev : Event) :
    (eventBody L config ev).getLast? = some "END:VEVENT\n".toList := by
  rw [eventBody_flat]
  simp

theorem printed_block (L : Lib) (config : Config) (ev : Event) (h : isRetained ev = true) :
    (printed L config ev).head? = some "BEGIN:VEVENT\n".toList ∧
    (printed L config ev).getLast? = some "END:VEVENT\n".toList := by
  obtain ⟨start, stop, hs, he⟩ := isRetained_endpoints ev h
  rw [printed_eq L config ev start stop hs he]
  constructor
  · rfl
  · exact getLast?_append_some _ _ _ (eventBody_getLast L config ev)

/-- C17: the loop over the events of a page treats exactly the events with a
non-empty identifier, a non-empty summary, a start and an end: on every writer
it does what it does on the list of these events alone (the others are passed
over without a write and without an error, and the events after them are
still treated), and on a writer that never fails it returns nil having
written, in the order encountered, the block of each of these events, which
begins with `BEGIN:VEVENT` and ends with `END:VEVENT`. -/
theorem writeItems_retained (L : Lib) (config : Config) (items : List Event) :
    (∀ w, writeItems L config items w =
      writeItems L config (items.filter isRetained) w) ∧
    (∀ ev rest w, isRetained ev = false →
      writeItems L config (ev :: rest) w = writeItems L config rest w) ∧
    (∀ w : Writer, w.Reliable →
      writeItems L config items w =
        .returned (printAll w ((items.filter isRetained).flatMap (printed L config))) none ∧
      (writeItems L config items w).written =
        w.written ++ (items.filter isRetained).flatMap (printed L config)) ∧
    (∀ ev, isRetained ev = true →
      (printed L config ev).head? = some "BEGIN:VEVENT\n".toList ∧
      (printed L config ev).getLast? = some "END:VEVENT\n".toList) := by
  refine ⟨writeItems_filter L config items, fun ev rest w h => writeItems_skip L config ev rest w h,
    fun w hw => ⟨writeItems_reliable L config items w hw, ?_⟩, printed_block L config⟩
  rw [writeItems_reliable L config items w hw, printAll_written w hw]
  rfl

/-- C18 (counterexample): the sample event with a start timestamp that is not
RFC 3339 and a well-formed end timestamp: `writeEventTime` returns nil and has
written neither DTSTART nor DTEND. -/
theorem malformed_start_writes_no_time :
    demoLib.Parse RFC3339 "yesterday at ten".toList = none ∧
    (demoLib.Parse RFC3339 "2024-03-04T10:30:00Z".toList).isSome = true ∧
    (writeEventTime demoLib malformedStartEvent Writer.fresh).succeeded = true ∧
    (writeEventTime demoLib malformedStartEvent Writer.fresh).written = [] := by
  decide

theorem parseOrZero_malformed (L : Lib) (layout value : Str) (h : L.Parse layout value = none) :
    (parseOrZero L layout value).IsZero = true := by
  simp [parseOrZero, h, Time.zero, Time.IsZero]

/-- C18 (amended): for every timed event (not both endpoints carrying a date)
whose start or end timestamp does not parse as RFC 3339, `writeEventTime` does
not fail: on every writer it returns nil; the malformed endpoint is taken as
the zero instant and, an endpoint being the zero instant, neither DTSTART nor
DTEND is written. -/
theorem malformed_timestamp_writes_nothing (L : Lib) (ev : Event)
    (start stop : EventDateTime) (w : Writer)
    (hs : ev.Start = some start) (he : ev.End = some stop)
    (htimed : ¬ (start.Date ≠ [] ∧ stop.Date ≠ []))
    (hbad : L.Parse RFC3339 start.DateTime = none ∨ L.Parse RFC3339 stop.DateTime = none) :
    writeEventTime L ev w = .returned w none ∧
    (L.Parse RFC3339 start.DateTime = none → parseOrZero L RFC3339 start.DateTime = Time.zero) ∧
    (L.Parse RFC3339 stop.DateTime = none → parseOrZero L RFC3339 stop.DateTime = Time.zero) := by
  refine ⟨writeEventTime_timed_skip L ev start stop w hs he htimed ?_,
    fun h => by simp [parseOrZero, h], fun h => by simp [parseOrZero, h]⟩
  rcases hbad with h | h
  · exact Or.inl (parseOrZero_malformed L _ _ h)
  · exact Or.inr (parseOrZero_malformed L _ _ h)

/-- C18 (witness): the sample event with the malformed start timestamp. -/
theorem malformed_timestamp_writes_nothing_witness :
    (writeEventTime demoLib malformedStartEvent Writer.fresh).written = [] := by
  rw [(malformed_timestamp_writes_nothing demoLib malformedStartEvent _ _ Writer.fresh
    rfl rfl (by decide) (Or.inl (by decide))).1]
  rfl

/-! ### The attendee entries -/

theorem attendeeLines_eq (as : List (Option EventAttendee)) :
    attendeeLines as = as.filterMap (fun x =>
      match x with
      | some a => if a.Email = [] then none else some (attendeeLine a)
      | none => none) := by
  induction as with
  | nil => rfl
  | cons x rest ih =>
    cases x with
    | none => simpa [attendeeLines] using ih
    | some a =>
      by_cases h : a.Email = []
      · simp [attendeeLines, h, ih]
      · simp [attendeeLines, h, ih]

/-- C19: with the attendees not hidden, the ATTENDEE entries `writeEvent`
prints for an event with both endpoints are, in list order, one for each
attendee that is not nil and has a non-empty email. An entry reads
`ATTENDEE;ROLE=r;PARTSTAT=p;CN=n:mailto:e` where `e` is the email, `r` is
`OPT-PARTICIPANT` for an optional attendee and `REQ-PARTICIPANT` otherwise,
`n` is the display name or, when that is empty, the email, and `p` is
`NEEDS-ACTION`, `DECLINED`, `TENTATIVE` or `ACCEPTED` for the response statuses
`needsAction`, `declined`, `tentative`, `accepted` and empty for every other
response status. -/
theorem attendee_entries (L : Lib) (config : Config) (ev : Event)
    (start stop : EventDateTime) (hs : ev.Start = some start) (he : ev.End = some stop)
    (hatt : config.HideFields.Attendees = false) :
    entriesOf "ATTENDEE".toList (printed L config ev) =
      ev.Attendees.filterMap (fun x =>
        match x with
        | some a => if a.Email = [] then none else some (attendeeLine a)
        | none => none) ∧
    (∀ a : EventAttendee, attendeeLine a =
      "ATTENDEE;ROLE=".toList
        ++ (if a.Optional then "OPT-PARTICIPANT".toList else "REQ-PARTICIPANT".toList)
        ++ ";PARTSTAT=".toList ++ partStatOf a.ResponseStatus
        ++ ";CN=".toList ++ (if a.DisplayName = [] then a.Email else a.DisplayName)
        ++ ":mailto:".toList ++ a.Email) ∧
    partStatOf "needsAction".toList = "NEEDS-ACTION".toList ∧
    partStatOf "declined".toList = "DECLINED".toList ∧
    partStatOf "tentative".toList = "TENTATIVE".toList ∧
    partStatOf "accepted".toList = "ACCEPTED".toList ∧
    (∀ s, s ≠ "needsAction".toList → s ≠ "declined".toList → s ≠ "tentative".toList →
      s ≠ "accepted".toList → partStatOf s = []) := by
  refine ⟨?_, fun a => rfl, by decide, by decide, by decide, by decide,
    fun s h1 h2 h3 h4 => by
      unfold partStatOf
      rw [if_neg h1, if_neg h2, if_neg h3, if_neg h4]⟩
  rw [(entries_by_property L config ev start stop hs he).2.2.2.2.2.2.2.1, attendeesBlock_eq]
  simp [hatt, attendeeLines_eq]

/-- C19 (witness): the sample event with a nil attendee, an attendee without
email and an optional attendee of unknown response status added. -/
theorem attendee_entries_witness :
    entriesOf "ATTENDEE".toList (printed demoLib baseConfig
      { baseEvent with Attendees := baseEvent.Attendees ++
        [none, some ⟨"Nobody".toList, [], false, "accepted".toList⟩,
          some undecidedAttendee] }) =
      [ "ATTENDEE;ROLE=REQ-PARTICIPANT;PARTSTAT=TENTATIVE;CN=Me:mailto:Me@Example.org".toList,
        "ATTENDEE;ROLE=OPT-PARTICIPANT;PARTSTAT=ACCEPTED;CN=Bob:mailto:bob@example.org".toList,
        ("ATTENDEE;ROLE=OPT-PARTICIPANT;PARTSTAT=;CN=carol@example.org"
          ++ ":mailto:carol@example.org").toList ] := by
  rw [(attendee_entries demoLib baseConfig _ _ _ rfl rfl (by decide)).1]
  decide

/-- C20 (evaluation at the failing input): the two ATTENDEE entries printed for
the sample event do not end with a line feed, so that in the text both
attendees and the STATUS property share one line. -/
theorem attendee_entries_share_a_line :
    entriesOf "ATTENDEE".toList (printed demoLib baseConfig baseEvent) =
      [ "ATTENDEE;ROLE=REQ-PARTICIPANT;PARTSTAT=TENTATIVE;CN=Me:mailto:Me@Example.org".toList,
        "ATTENDEE;ROLE=OPT-PARTICIPANT;PARTSTAT=ACCEPTED;CN=Bob:mailto:bob@example.org".toList ] ∧
    (∀ c ∈ entriesOf "ATTENDEE".toList (printed demoLib baseConfig baseEvent),
      c.getLast? ≠ some '\n') ∧
    ("ATTENDEE;ROLE=REQ-PARTICIPANT;PARTSTAT=TENTATIVE;CN=Me:mailto:Me@Example.org"
      ++ "ATTENDEE;ROLE=OPT-PARTICIPANT;PARTSTAT=ACCEPTED;CN=Bob:mailto:bob@example.org"
      ++ "STATUS:TENTATIVE").toList ∈ splitLines (rendered demoLib baseConfig baseEvent) ∧
    (∀ l ∈ splitLines (rendered demoLib baseConfig baseEvent),
      propertyName l ≠ "STATUS".toList) := by
  decide

/-! ### The whole document -/

theorem writeTrailer_reliable (w : Writer) (hw : w.Reliable) :
    writeTrailer w = (printAll w ["END:VCALENDAR\n".toList], none) := by
  rw [writeTrailer, writeLines_reliable _ w hw]
  rfl

theorem headerChunks_eq (config : Config) (cal : Calendar) :
    headerChunks config cal =
      (headerLines config cal).map (fun s => s ++ "\n".toList)
        ++ (if config.OverwriteFields.CalendarName ≠ []
          then ["X-WR-CALNAME:".toList ++ cal.Summary ++ "\n".toList] else []) := by
  rw [headerChunks, writeHeader_reliable config cal _ fresh_reliable]
  simp only [writtenOf]
  rw [printAll_written _ fresh_reliable]
  rfl

theorem writeHeader_chunks (config : Config) (cal : Calendar) (w : Writer) (hw : w.Reliable) :
    writeHeader config cal w = (printAll w (headerChunks config cal), none) := by
  rw [writeHeader_reliable config cal w hw, headerChunks_eq]

theorem headerChunks_head (config : Config) (cal : Calendar) :
    (headerChunks config cal).head? = some "BEGIN:VCALENDAR\n".toList := by
  rw [headerChunks_eq]
  rfl

theorem eventsLoop_reliable (L : Lib) (service : Service) (calendarID : Str) (config : Config)
    (pages : List (List Event)) (tok : Str) (fuel : Nat) (w : Writer)
    (hp : EventPages service calendarID tok pages) (hf : pages.length ≤ fuel)
    (hw : w.Reliable) :
    eventsLoop L service calendarID config fuel tok w =
      .returned (printAll w (eventBlocks L config pages.flatten)) none := by
  rw [eventsLoop_pages L service calendarID config pages tok fuel w hp hf,
    writeItems_reliable L config _ w hw]
  rfl

theorem writeEvents_reliable (L : Lib) (fuel : Nat) (service : Service) (calendarID : Str)
    (config : Config) (w : Writer) (cal : Calendar) (pages : List (List Event))
    (hcal : service.calendarsGet calendarID = .ok cal)
    (hp : EventPages service calendarID [] pages) (hf : pages.length ≤ fuel)
    (hw : w.Reliable) :
    writeEvents L fuel service calendarID config w =
      .returned (printAll w (headerChunks config cal ++ eventBlocks L config pages.flatten
        ++ ["END:VCALENDAR\n".toList])) none := by
  have h1 := printAll_reliable w hw (headerChunks config cal)
  have h2 := printAll_reliable _ h1 (eventBlocks L config pages.flatten)
  simp only [writeEvents, hcal]
  rw [writeHeader_chunks config cal w hw]
  simp only
  rw [eventsLoop_reliable L service calendarID config pages [] fuel _ hp hf h1]
  simp only
  rw [writeTrailer_reliable _ h2]
  simp only [printAll_append]

theorem eventsLoop_success (L : Lib) (service : Service) (calendarID : Str) (config : Config)
    (fuel : Nat) (tok : Str) (w w1 : Writer)
    (h : eventsLoop L service calendarID config fuel tok w = .returned w1 none) :
    ∃ pages, EventPages service calendarID tok pages ∧ pages.length ≤ fuel := by
  induction fuel generalizing tok w with
  | zero => simp [eventsLoop] at h
  | succ fuel ih =>
    rw [eventsLoop] at h
    cases hl : service.eventsList calendarID tok with
    | error e => rw [hl] at h; simp at h
    | ok o =>
      cases o with
      | none => rw [hl] at h; simp at h
      | some list =>
        rw [hl] at h
        simp only at h
        cases hi : writeItems L config list.Items w with
        | panicked => rw [hi] at h; simp at h
        | unfinished => rw [hi] at h; simp at h
        | returned w2 e =>
          rw [hi] at h
          cases e with
          | some err => simp at h
          | none =>
            simp only at h
            by_cases ht : list.NextPageToken = []
            · refine ⟨[list.Items], ?_, by simp⟩
              simp only [EventPages]
              rw [hl, ← ht]
            · rw [if_neg ht] at h
              obtain ⟨pages, hp, hlen⟩ := ih _ _ h
              cases pages with
              | nil => simp [EventPages] at hp
              | cons next rest =>
                exact ⟨list.Items :: next :: rest, ⟨list.NextPageToken, ht, hl, hp⟩,
                  by simp only [List.length_cons] at hlen ⊢; omega⟩

theorem eventsLoop_fail (L : Lib) (service : Service) (calendarID : Str) (config : Config)
    (pages : List (List Event)) (err : Str) (tok : Str) (fuel : Nat) (w : Writer)
    (hp : EventPagesFail service calendarID tok pages err) (hf : pages.length < fuel)
    (hw : w.Reliable) :
    eventsLoop L service calendarID config fuel tok w =
      .returned (printAll w (eventBlocks L config pages.flatten)) (some err) := by
  induction pages generalizing tok fuel w with
  | nil =>
    cases fuel with
    | zero => simp at hf
    | succ fuel =>
      rcases hp with ⟨e, hl, he⟩ | ⟨hl, he⟩
      · simp only [eventsLoop, hl, he]; rfl
      · simp only [eventsLoop, hl, he]; rfl
  | cons items rest ih =>
    cases fuel with
    | zero => simp at hf
    | succ fuel =>
      obtain ⟨t, ht, hl, hrest⟩ := hp
      have hlen : rest.length < fuel := by
        simp only [List.length_cons] at hf; omega
      simp only [eventsLoop, hl]
      rw [writeItems_reliable L config items w hw]
      simp only [if_neg ht]
      rw [ih t fuel _ hrest hlen (printAll_reliable w hw _), ← printAll_append]
      simp [eventBlocks]

theorem writeEvents_fail (L : Lib) (fuel : Nat) (service : Service) (calendarID : Str)
    (config : Config) (w : Writer) (cal : Calendar) (pages : List (List Event)) (err : Str)
    (hcal : service.calendarsGet calendarID = .ok cal)
    (hp : EventPagesFail service calendarID [] pages err) (hf : pages.length < fuel)
    (hw : w.Reliable) :
    writeEvents L fuel service calendarID config w =
      .returned (printAll w (headerChunks config cal ++ eventBlocks L config pages.flatten))
        (some err) := by
  have h1 := printAll_reliable w hw (headerChunks config cal)
  simp only [writeEvents, hcal]
  rw [writeHeader_chunks config cal w hw]
  simp only
  rw [eventsLoop_fail L service calendarID config pages err [] fuel _ hp hf h1]
  simp only [printAll_append]

/-! ### Strings accepted by a writer that may fail -/

theorem since_refl (w : Writer) : NoTrailerSince w w :=
  ⟨[], by simp, by simp⟩

theorem since_trans (a b c : Writer) (h1 : NoTrailerSince a b) (h2 : NoTrailerSince b c) :
    NoTrailerSince a c := by
  obtain ⟨o1, e1, n1⟩ := h1
  obtain ⟨o2, e2, n2⟩ := h2
  refine ⟨o1 ++ o2, by rw [e2, e1, List.append_assoc], ?_⟩
  simp only [List.mem_append, not_or]
  exact ⟨n1, n2⟩

theorem since_of_written (w w1 : Writer) (h : w1.written = w.written) : NoTrailerSince w w1 :=
  ⟨[], by simp [h], by simp⟩

theorem write_since (w : Writer) (s : Str) (h : s ≠ "END:VCALENDAR\n".toList) :
    NoTrailerSince w (w.write s).1 := by
  unfold Writer.write
  cases w.failure w.calls with
  | none => exact ⟨[s], rfl, by simpa using fun h1 => h h1.symm⟩
  | some e => exact ⟨[], by simp, by simp⟩

theorem write_failed (w w1 : Writer) (s e : Str) (h : w.write s = (w1, some e)) :
    w1.written = w.written := by
  unfold Writer.write at h
  cases hf : w.failure w.calls with
  | none => rw [hf] at h; simp at h
  | some e1 =>
    rw [hf] at h
    simp only [Prod.mk.injEq] at h
    rw [← h.1]

theorem printAll_since (w : Writer) (chunks : List Str)
    (h : "END:VCALENDAR\n".toList ∉ chunks) : NoTrailerSince w (printAll w chunks) := by
  induction chunks generalizing w with
  | nil => exact since_refl w
  | cons c cs ih =>
    simp only [List.mem_cons, not_or] at h
    have hstep : printAll w (c :: cs) = printAll (w.write c).1 cs := rfl
    rw [hstep]
    exact since_trans _ _ _ (write_since w c (fun hc => h.1 hc.symm)) (ih _ h.2)

theorem writeLines_since (lines : List Str) (w : Writer)
    (h : ∀ s ∈ lines, s ++ "\n".toList ≠ "END:VCALENDAR\n".toList) :
    NoTrailerSince w (writeLines lines w).1 := by
  induction lines generalizing w with
  | nil => exact since_refl w
  | cons s rest ih =>
    have h1 := write_since w (s ++ "\n".toList) (h s (List.mem_cons_self _ _))
    rw [writeLines]
    cases hw : w.write (s ++ "\n".toList) with
    | mk w1 e =>
      rw [hw] at h1
      cases e with
      | some err => exact h1
      | none =>
        exact since_trans _ _ _ h1 (ih w1 (fun x hx => h x (List.mem_cons_of_mem _ hx)))

theorem named_no_trailer (names : List Str) (chunks : List Str) (h : Named names chunks)
    (hn : "END".toList ∉ names) : "END:VCALENDAR\n".toList ∉ chunks := by
  intro hc
  exact hn (h _ hc)

theorem ne_trailer (c : Str) (h : propertyName c ≠ "END".toList) :
    c ≠ "END:VCALENDAR\n".toList := by
  intro hc
  subst hc
  exact h (by decide)

theorem writeHeader_since (config : Config) (cal : Calendar) (w : Writer) :
    NoTrailerSince w (writeHeader config cal w).1 := by
  have h1 := writeLines_since (headerLines config cal) w (by
    intro s hs
    apply ne_trailer
    simp only [headerLines, List.mem_cons, List.mem_singleton, List.not_mem_nil, or_false] at hs
    rcases hs with h | h | h | h | h | h <;> subst h <;> simp [propertyName, List.takeWhile])
  unfold writeHeader
  cases hl : writeLines (headerLines config cal) w with
  | mk w1 e =>
    rw [hl] at h1
    cases e with
    | some err => exact h1
    | none =>
      simp only
      split_ifs with hc
      · have h2 := write_since w1 ("X-WR-CALNAME:".toList ++ cal.Summary ++ "\n".toList)
          (ne_trailer _ (by simp [propertyName, List.takeWhile]))
        cases hw : w1.write ("X-WR-CALNAME:".toList ++ cal.Summary ++ "\n".toList) with
        | mk w2 e2 =>
          rw [hw] at h2
          cases e2 <;> exact since_trans _ _ _ h1 h2
      · exact h1

theorem two_writes_since (w : Writer) (a b : Str) (ha : a ≠ "END:VCALENDAR\n".toList)
    (hb : b ≠ "END:VCALENDAR\n".toList) (w1 : Writer) (e : Option Str)
    (h : (match w.write a with
      | (w1, some err) => Result.returned w1 (some err)
      | (w1, none) =>
        match w1.write b with
        | (w2, some err) => Result.returned w2 (some err)
        | (w2, none) => Result.returned w2 none) = .returned w1 e) :
    NoTrailerSince w w1 := by
  have h1 := write_since w a ha
  cases hw : w.write a with
  | mk wa ea =>
    rw [hw] at h h1
    cases ea with
    | some err =>
      simp only [Result.returned.injEq] at h
      rw [← h.1]; exact h1
    | none =>
      simp only at h
      have h2 := write_since wa b hb
      cases hw2 : wa.write b with
      | mk wb eb =>
        rw [hw2] at h h2
        cases eb with
        | some err =>
          simp only [Result.returned.injEq] at h
          rw [← h.1]; exact since_trans _ _ _ h1 h2
        | none =>
          simp only [Result.returned.injEq] at h
          rw [← h.1]; exact since_trans _ _ _ h1 h2

theorem writeAllDayEventTime_since (L : Lib) (ev : Event) (w w1 : Writer) (e : Option Str)
    (h : writeAllDayEventTime L ev w = .returned w1 e) : NoTrailerSince w w1 := by
  unfold writeAllDayEventTime at h
  cases hs : ev.Start with
  | none => rw [hs] at h; simp at h
  | some start =>
    cases he : ev.End with
    | none => rw [hs, he] at h; simp at h
    | some stop =>
      rw [hs, he] at h
      simp only at h
      split_ifs at h with hz
      · simp only [Result.returned.injEq] at h
        rw [← h.1]; exact since_refl w
      · exact two_writes_since w _ _
          (ne_trailer _ (by simp [propertyName, List.takeWhile]))
          (ne_trailer _ (by simp [propertyName, List.takeWhile])) w1 e h

theorem writeEventTime_since (L : Lib) (ev : Event) (w w1 : Writer) (e : Option Str)
    (h : writeEventTime L ev w = .returned w1 e) : NoTrailerSince w w1 := by
  cases hs : ev.Start with
  | none => simp [writeEventTime, hs] at h
  | some start =>
    cases he : ev.End with
    | none => simp [writeEventTime, hs, he] at h
    | some stop =>
      by_cases hd : start.Date ≠ [] ∧ stop.Date ≠ []
      · rw [writeEventTime_allDay L ev start stop w hs he hd] at h
        exact writeAllDayEventTime_since L ev w w1 e h
      · unfold writeEventTime at h
        rw [hs, he] at h
        simp only at h
        rw [if_neg hd] at h
        split_ifs at h with hz
        · exact two_writes_since w _ _
            (ne_trailer _ (by simp [propertyName, List.takeWhile]))
            (ne_trailer _ (by simp [propertyName, List.takeWhile])) w1 e h
        · simp only [Result.returned.injEq] at h
          rw [← h.1]; exact since_refl w

theorem eventBody_no_trailer (L : Lib) (config : Config) (ev : Event) :
    "END:VCALENDAR\n".toList ∉ eventBody L config ev := by
  rw [eventBody_flat]
  simp only [List.mem_append, not_or]
  refine ⟨⟨⟨⟨⟨⟨⟨⟨⟨⟨?_, ?_⟩, ?_⟩, ?_⟩, ?_⟩, ?_⟩, ?_⟩, ?_⟩, ?_⟩, ?_⟩, by decide⟩
  · exact named_no_trailer _ _ (named_summaryBlock ev) (by decide)
  · exact named_no_trailer _ _ (named_descriptionBlock config ev) (by decide)
  · exact named_no_trailer _ _ (named_transparencyBlock L config ev) (by decide)
  · exact named_no_trailer _ _ (named_locationBlock config ev) (by decide)
  · exact named_no_trailer _ _ (named_visibilityBlock L config ev) (by decide)
  · exact named_no_trailer _ _ (named_conferenceBlock config ev) (by decide)
  · exact named_no_trailer _ _ (named_organizerBlock config ev) (by decide)
  · exact named_no_trailer _ _ (named_attendeesBlock L config ev) (by decide)
  · exact named_no_trailer _ _ (named_statusBlock L config _) (by decide)
  · exact named_no_trailer _ _ (named_timestampsBlock L ev) (by decide)

theorem writeEvent_since (L : Lib) (config : Config) (ev : Event) (w w1 : Writer)
    (e : Option Str) (h : writeEvent L config ev w = .returned w1 e) :
    NoTrailerSince w w1 := by
  have h0 : NoTrailerSince w
      (printAll w (["BEGIN:VEVENT\n".toList] ++ uidBlock config ev)) := by
    apply printAll_since
    simp only [List.mem_append, not_or]
    exact ⟨by decide, named_no_trailer _ _ (named_uidBlock config ev) (by decide)⟩
  unfold writeEvent at h
  simp only at h
  cases ht : writeEventTime L ev (printAll w (["BEGIN:VEVENT\n".toList] ++ uidBlock config ev))
    with
  | panicked => rw [ht] at h; simp at h
  | unfinished => rw [ht] at h; simp at h
  | returned w2 e2 =>
    have h1 := writeEventTime_since L ev _ w2 e2 ht
    rw [ht] at h
    cases e2 with
    | some err =>
      simp only [Result.returned.injEq] at h
      rw [← h.1]; exact since_trans _ _ _ h0 h1
    | none =>
      simp only [Result.returned.injEq] at h
      rw [← h.1]
      exact since_trans _ _ _ h0 (since_trans _ _ _ h1
        (printAll_since w2 _ (eventBody_no_trailer L config ev)))

theorem writeItems_since (L : Lib) (config : Config) (items : List Event) (w w1 : Writer)
    (e : Option Str) (h : writeItems L config items w = .returned w1 e) :
    NoTrailerSince w w1 := by
  induction items generalizing w with
  | nil =>
    simp only [writeItems, Result.returned.injEq] at h
    rw [← h.1]; exact since_refl w
  | cons ev rest ih =>
    by_cases hskip : ev.Id = [] ∨ ev.Summary = [] ∨ ev.Start = none ∨ ev.End = none
    · rw [writeItems, if_pos hskip] at h
      exact ih w h
    · rw [writeItems, if_neg hskip] at h
      cases hev : writeEvent L config ev w with
      | panicked => rw [hev] at h; simp at h
      | unfinished => rw [hev] at h; simp at h
      | returned w2 e2 =>
        have h1 := writeEvent_since L config ev w w2 e2 hev
        rw [hev] at h
        cases e2 with
        | some err =>
          simp only [Result.returned.injEq] at h
          rw [← h.1]; exact h1
        | none => exact since_trans _ _ _ h1 (ih w2 h)

theorem eventsLoop_since (L : Lib) (service : Service) (calendarID : Str) (config : Config)
    (fuel : Nat) (tok : Str) (w w1 : Writer) (e : Option Str)
    (h : eventsLoop L service calendarID config fuel tok w = .returned w1 e) :
    NoTrailerSince w w1 := by
  induction fuel generalizing tok w with
  | zero => simp [eventsLoop] at h
  | succ fuel ih =>
    rw [eventsLoop] at h
    cases hl : service.eventsList calendarID tok with
    | error err =>
      rw [hl] at h
      simp only [Result.returned.injEq] at h
      rw [← h.1]; exact since_refl w
    | ok o =>
      cases o with
      | none =>
        rw [hl] at h
        simp only [Result.returned.injEq] at h
        rw [← h.1]; exact since_refl w
      | some list =>
        rw [hl] at h
        simp only at h
        cases hi : writeItems L config list.Items w with
        | panicked => rw [hi] at h; simp at h
        | unfinished => rw [hi] at h; simp at h
        | returned w2 e2 =>
          have h1 := writeItems_since L config list.Items w w2 e2 hi
          rw [hi] at h
          cases e2 with
          | some err =>
            simp only [Result.returned.injEq] at h
            rw [← h.1]; exact h1
          | none =>
            simp only at h
            by_cases ht : list.NextPageToken = []
            · rw [if_pos ht] at h
              simp only [Result.returned.injEq] at h
              rw [← h.1]; exact h1
            · rw [if_neg ht] at h
              exact since_trans _ _ _ h1 (ih _ _ h)

theorem writeEvents_error_since (L : Lib) (fuel : Nat) (service : Service) (calendarID : Str)
    (config : Config) (w w1 : Writer) (err : Str)
    (h : writeEvents L fuel service calendarID config w = .returned w1 (some err)) :
    NoTrailerSince w w1 := by
  unfold writeEvents at h
  cases hcal : service.calendarsGet calendarID with
  | error e =>
    rw [hcal] at h
    simp only [Result.returned.injEq] at h
    rw [← h.1]; exact since_refl w
  | ok cal =>
    rw [hcal] at h
    simp only at h
    have h1 := writeHeader_since config cal w
    cases hh : writeHeader config cal w with
    | mk wh eh =>
      rw [hh] at h h1
      cases eh with
      | some e =>
        simp only [Result.returned.injEq] at h
        rw [← h.1]; exact h1
      | none =>
        simp only at h
        cases hloop : eventsLoop L service calendarID config fuel [] wh with
        | panicked => rw [hloop] at h; simp at h
        | unfinished => rw [hloop] at h; simp at h
        | returned w2 e2 =>
          have h2 := eventsLoop_since L service calendarID config fuel [] wh w2 e2 hloop
          rw [hloop] at h
          cases e2 with
          | some e =>
            simp only [Result.returned.injEq] at h
            rw [← h.1]; exact since_trans _ _ _ h1 h2
          | none =>
            simp only at h
            cases ht : writeTrailer w2 with
            | mk w3 e3 =>
              rw [ht] at h
              cases e3 with
              | none => simp at h
              | some e =>
                simp only [Result.returned.injEq] at h
                rw [← h.1]
                refine since_trans _ _ _ h1 (since_trans _ _ _ h2 (since_of_written _ _ ?_))
                simp only [writeTrailer, writeLines] at ht
                cases hw : w2.write ("END:VCALENDAR".toList ++ "\n".toList) with
                | mk w4 e4 =>
                  rw [hw] at ht
                  cases e4 with
                  | none => simp at ht
                  | some e5 =>
                    simp only [Prod.mk.injEq] at ht
                    rw [← ht.1]
                    exact write_failed w2 w4 _ e5 hw

theorem eventsLoop_fail_returns (L : Lib) (service : Service) (calendarID : Str)
    (config : Config) (pages : List (List Event)) (err : Str) (tok : Str) (fuel : Nat)
    (w : Writer) (hp : EventPagesFail service calendarID tok pages err)
    (hf : pages.length < fuel) :
    ∃ w1 e, eventsLoop L service calendarID config fuel tok w = .returned w1 (some e) := by
  induction pages generalizing tok fuel w with
  | nil =>
    cases fuel with
    | zero => simp at hf
    | succ fuel =>
      rcases hp with ⟨e, hl, _⟩ | ⟨hl, _⟩
      · simp only [eventsLoop, hl]
        exact ⟨_, _, rfl⟩
      · simp only [eventsLoop, hl]
        exact ⟨_, _, rfl⟩
  | cons items rest ih =>
    cases fuel with
    | zero => simp at hf
    | succ fuel =>
      obtain ⟨t, ht, hl, hrest⟩ := hp
      have hlen : rest.length < fuel := by
        simp only [List.length_cons] at hf; omega
      obtain ⟨w2, e2, hi⟩ := writeItems_returns L config items w
      simp only [eventsLoop, hl, hi]
      cases e2 with
      | some e => exact ⟨_, _, rfl⟩
      | none =>
        simp only [if_neg ht]
        exact ih t fuel w2 hrest hlen

theorem writeEvents_fail_returns (L : Lib) (fuel : Nat) (service : Service) (calendarID : Str)
    (config : Config) (w : Writer) (cal : Calendar) (pages : List (List Event)) (err : Str)
    (hcal : service.calendarsGet calendarID = .ok cal)
    (hp : EventPagesFail service calendarID [] pages err) (hf : pages.length < fuel) :
    ∃ w1 e, writeEvents L fuel service calendarID config w = .returned w1 (some e) := by
  simp only [writeEvents, hcal]
  cases hh : writeHeader config cal w with
  | mk wh eh =>
    cases eh with
    | some e => exact ⟨_, _, rfl⟩
    | none =>
      obtain ⟨w2, e2, hloop⟩ :=
        eventsLoop_fail_returns L service calendarID config pages err [] fuel wh hp hf
      simp only [hloop]
      exact ⟨_, _, rfl⟩

theorem writeEvents_success (L : Lib) (fuel : Nat) (service : Service) (calendarID : Str)
    (config : Config) (w w1 : Writer) (hw : w.Reliable)
    (h : writeEvents L fuel service calendarID config w = .returned w1 none) :
    ∃ cal pages, service.calendarsGet calendarID = .ok cal ∧
      EventPages service calendarID [] pages ∧ pages.length ≤ fuel := by
  have h0 := h
  unfold writeEvents at h
  cases hcal : service.calendarsGet calendarID with
  | error e => rw [hcal] at h; simp at h
  | ok cal =>
    rw [hcal] at h
    simp only at h
    rw [writeHeader_chunks config cal w hw] at h
    simp only at h
    cases hloop : eventsLoop L service calendarID config fuel []
      (printAll w (headerChunks config cal)) with
    | panicked => rw [hloop] at h; simp at h
    | unfinished => rw [hloop] at h; simp at h
    | returned w2 e2 =>
      cases e2 with
      | some e => rw [hloop] at h; simp at h
      | none =>
        obtain ⟨pages, hp, hlen⟩ :=
          eventsLoop_success L service calendarID config fuel [] _ w2 hloop
        exact ⟨cal, pages, rfl, hp, hlen⟩

theorem flatten_flatMap (events : List Event) (f : Event → List Str) :
    (events.flatMap f).flatten = events.flatMap (fun ev => (f ev).flatten) := by
  induction events with
  | nil => rfl
  | cons ev rest ih => simp only [List.flatMap_cons, List.flatten_append, ih]

theorem flatten_starts_with_head (chunks : List Str) (s : Str) (h : chunks.head? = some s) :
    s <+: chunks.flatten := by
  cases chunks with
  | nil => simp at h
  | cons c cs =>
    simp only [List.head?_cons, Option.some.injEq] at h
    subst h
    exact ⟨cs.flatten, by simp⟩

theorem flatten_ends_with_getLast (chunks : List Str) (s : Str) (h : chunks.getLast? = some s) :
    s <:+ chunks.flatten := by
  obtain ⟨init, hinit⟩ : ∃ init, chunks = init ++ [s] := by
    rcases List.eq_nil_or_concat chunks with hnil | ⟨init, x, hx⟩
    · subst hnil; simp at h
    · subst hx
      simp at h
      subst h
      exact ⟨init, by simp⟩
  subst hinit
  exact ⟨init.flatten, by simp⟩

/-- C21: on a writer that never fails, whenever `writeEvents` returns nil the
calendar metadata was fetched and the event listing consists of finitely many
pages, and what `writeEvents` has written is exactly the header, which begins
with the line `BEGIN:VCALENDAR`, followed by the blocks of the retained events
of all pages in the order encountered, each of which begins with
`BEGIN:VEVENT` and a line feed and ends with `END:VEVENT` and a line feed,
followed by `END:VCALENDAR` and a line feed as the last bytes; and for every
such listing within the loop bound `writeEvents` does return nil. Whenever
`writeEvents`, on any writer, returns the error of a failed listing call, none
of the strings it has written is the trailer; and when the listing delivers
some pages and the next listing call fails, `writeEvents` returns an error on
every writer without the trailer written, and on a writer that never fails it
returns the error of that call having written exactly the header and the
blocks of the retained events of the pages delivered. -/
theorem writeEvents_document (L : Lib) (fuel : Nat) (service : Service) (calendarID : Str)
    (config : Config) (w : Writer) :
    (w.Reliable → ∀ w1, writeEvents L fuel service calendarID config w = .returned w1 none →
      ∃ cal pages, service.calendarsGet calendarID = .ok cal ∧
        EventPages service calendarID [] pages ∧
        w1.written = w.written ++ headerChunks config cal
          ++ (pages.flatten.filter isRetained).flatMap (printed L config)
          ++ ["END:VCALENDAR\n".toList] ∧
        w1.text = w.text ++ (headerChunks config cal).flatten
          ++ (pages.flatten.filter isRetained).flatMap (rendered L config)
          ++ "END:VCALENDAR\n".toList ∧
        "BEGIN:VCALENDAR\n".toList <+: (headerChunks config cal).flatten ∧
        ∀ ev ∈ pages.flatten.filter isRetained,
          "BEGIN:VEVENT\n".toList <+: rendered L config ev ∧
          "END:VEVENT\n".toList <:+ rendered L config ev) ∧
    (w.Reliable → ∀ cal pages, service.calendarsGet calendarID = .ok cal →
      EventPages service calendarID [] pages → pages.length ≤ fuel →
      (writeEvents L fuel service calendarID config w).succeeded = true) ∧
    (∀ w1 err, writeEvents L fuel service calendarID config w = .returned w1 (some err) →
      IsListingError err →
      ∃ out, w1.written = w.written ++ out ∧ "END:VCALENDAR\n".toList ∉ out) ∧
    (∀ cal pages err, service.calendarsGet calendarID = .ok cal →
      EventPagesFail service calendarID [] pages err → pages.length < fuel →
      ∃ w1 e, writeEvents L fuel service calendarID config w = .returned w1 (some e) ∧
        (∃ out, w1.written = w.written ++ out ∧ "END:VCALENDAR\n".toList ∉ out) ∧
        (w.Reliable → e = err ∧
          w1.written = w.written ++ headerChunks config cal
            ++ (pages.flatten.filter isRetained).flatMap (printed L config))) := by
  refine ⟨fun hw w1 h => ?_, fun hw cal pages hcal hp hf => ?_,
    fun w1 err h _ => writeEvents_error_since L fuel service calendarID config w w1 err h,
    fun cal pages err hcal hp hf => ?_⟩
  · obtain ⟨cal, pages, hcal, hp, hlen⟩ :=
      writeEvents_success L fuel service calendarID config w w1 hw h
    rw [writeEvents_reliable L fuel service calendarID config w cal pages hcal hp hlen hw] at h
    simp only [Result.returned.injEq, and_true] at h
    have hwritten : w1.written = w.written ++ headerChunks config cal
        ++ (pages.flatten.filter isRetained).flatMap (printed L config)
        ++ ["END:VCALENDAR\n".toList] := by
      rw [← h, printAll_written w hw]
      simp only [eventBlocks, List.append_assoc]
    refine ⟨cal, pages, hcal, hp, hwritten, ?_, ?_, fun ev hev => ?_⟩
    · simp only [Writer.text, hwritten, List.flatten_append, flatten_flatMap, List.flatten_cons,
        List.flatten_nil, List.append_nil]
      rfl
    · exact flatten_starts_with_head _ _ (headerChunks_head config cal)
    · have hb := printed_block L config ev (List.mem_filter.mp hev).2
      exact ⟨flatten_starts_with_head _ _ hb.1, flatten_ends_with_getLast _ _ hb.2⟩
  · rw [writeEvents_reliable L fuel service calendarID config w cal pages hcal hp hf hw]
    rfl
  · obtain ⟨w1, e, h⟩ :=
      writeEvents_fail_returns L fuel service calendarID config w cal pages err hcal hp hf
    refine ⟨w1, e, h, writeEvents_error_since L fuel service calendarID config w w1 e h,
      fun hw => ?_⟩
    rw [writeEvents_fail L fuel service calendarID config w cal pages err hcal hp hf hw] at h
    simp only [Result.returned.injEq, Option.some.injEq] at h
    refine ⟨h.2.symm, ?_⟩
    rw [← h.1, printAll_written w hw]
    simp only [eventBlocks, List.append_assoc]

/-- C21 (witness): the sample service with two pages, and the service whose
second listing call fails after a page with an event without summary and the
sample event, both on the writer that has received nothing and never fails. -/
theorem writeEvents_document_witness :
    headerChunks baseConfig workCalendar =
      [ "BEGIN:VCALENDAR\n".toList, "VERSION:2.0\n".toList,
        "PRODID:-//gcal-to-ics//gcal-to-ics-1.0//EN\n".toList, "CALSCALE:GREGORIAN\n".toList,
        "METHOD:PUBLISH\n".toList, "X-WR-TIMEZONE:Europe/Berlin\n".toList ] ∧
    (writeEvents demoLib 2 pagedService "id-work".toList baseConfig Writer.fresh).succeeded
      = true ∧
    (writeEvents demoLib 2 pagedService "id-work".toList baseConfig Writer.fresh).written
      = headerChunks baseConfig workCalendar ++ printed demoLib baseConfig baseEvent
        ++ printed demoLib baseConfig secondEvent ++ ["END:VCALENDAR\n".toList] ∧
    (writeEvents demoLib 2 brokenService "id-work".toList baseConfig Writer.fresh).succeeded
      = false ∧
    (writeEvents demoLib 2 brokenService "id-work".toList baseConfig Writer.fresh).written
      = headerChunks baseConfig workCalendar ++ printed demoLib baseConfig baseEvent ∧
    containsStr "END:VCALENDAR".toList
      (writeEvents demoLib 2 brokenService "id-work".toList baseConfig Writer.fresh).written.flatten
      = false := by
  have hpaged := writeEvents_document demoLib 2 pagedService "id-work".toList baseConfig
    Writer.fresh
  have hbroken := writeEvents_document demoLib 2 brokenService "id-work".toList baseConfig
    Writer.fresh
  obtain ⟨w1, e, h, _, hrel⟩ := hbroken.2.2.2 workCalendar [[noSummaryEvent, baseEvent]]
    "unable to list events: backend unavailable".toList rfl
    ⟨"e2".toList, by decide, rfl, Or.inl ⟨"backend unavailable".toList, rfl, by decide⟩⟩
    (by decide)
  refine ⟨by decide, hpaged.2.1 fresh_reliable workCalendar [[baseEvent], [secondEvent]] rfl
    ⟨"e2".toList, by decide, rfl, rfl⟩ (by decide), ?_, ?_, ?_, by decide⟩
  · decide
  · rw [h]; rfl
  · rw [h]
    simp only [Result.written, (hrel fresh_reliable).2]
    decide

/-! ### The end-to-end example for every event -/

end Gti

end GcalToIcs
